import Mathlib

/-!
# epoll-webserver: request handling of `webserver.c`

A shallow embedding of the request path of `src/webserver.c`
(`handle_request`, `get_header`, `check_verb`, `get`, `send_status_n`,
`send_list`, `send_error`, `set_mime_type`) and theorems about it.

Conventions of the embedding

* A C string is the list of its characters up to, and without, the terminating
  NUL (`CStr`).  The request buffer `request_h` is kept as raw bytes and read
  through `cstr`.  Two stack arrays have their capacity modelled: `path` of `get`
  for the `strncat` of an index name and for the `.html` swap, and `message` of
  `handle_request` for the `sprintf` of the access-log line; a write beyond
  either is an access through an invalid pointer (`Ret.fault`).  The store of
  `sscanf` into `path` and the capacities of `request_h`, `response_h` and of
  the `buff` of `send_error` and `send_list` are not modelled.
* `size_t` is 64 bits wide; subtraction and addition on it wrap (`subSz`,
  `addSz`).
* `server_helpers.h` is not part of the sources.  Its constants
  `MAX_HEADER_SIZE` and `MAX_PATHNAME_SIZE` are fields of `Env`; its I/O
  primitives `read_header`, `write_all_to_socket` and
  `write_all_to_socket_from_file` are an oracle: every call consumes the next
  `IOOutcome` of `Sys.io` (value returned, `errno` stored, bytes delivered) and
  is recorded, with its arguments, in `Sys.trace`.
* The file system (`access`, `stat`, `fopen`, `opendir`/`readdir`) and
  `magic_file` are functions of `Env`; every call is recorded in `Sys.trace`.
* `LOG(...)` only writes to the debug sink and is left out.  The access-log
  block of `handle_request` (lines 265-275) is modelled up to its `sprintf`;
  the line it hands to `fwrite` is not recorded in `Sys.trace`.
* The loop `while (file != NULL)` of `get` runs on fuel (`get_loop`); every other
  function is total as written.
-/

namespace Webserver

/-! ## C library -/

/-- A C string: its characters before the terminating NUL. -/
abbrev CStr := List Char

/-- Modulus of `size_t` arithmetic. -/
def SIZE_MOD : Nat := 2 ^ 64

/-- Subtraction `a - b` on `size_t`. -/
def subSz (a b : Nat) : Nat := (a + SIZE_MOD - b % SIZE_MOD) % SIZE_MOD

/-- Addition `a + b` on `size_t`. -/
def addSz (a b : Nat) : Nat := (a + b) % SIZE_MOD

/-- The cast `(int)x` of a pointer difference. -/
def toInt32 (x : Int) : Int := (x + 2 ^ 31) % 2 ^ 32 - 2 ^ 31

/-- Values of `errno.h` and `signal.h` on Linux that the code compares `errno` with. -/
def EAGAIN : Nat := 11

/-- On Linux `EWOULDBLOCK` is `EAGAIN`. -/
def EWOULDBLOCK : Nat := 11

/-- The signal number the code compares `errno` with. -/
def SIGPIPE : Nat := 13

/-- The string seen through a `char*` into a zero-initialised buffer: the bytes before the first NUL. -/
def cstr (raw : List Char) : CStr := raw.takeWhile (fun c => c ≠ '\x00')

/-- Result of storing `data` at offset `off` of a zero-initialised buffer holding `raw`. -/
def splice (raw : List Char) (off : Nat) (data : List Char) : List Char :=
  (raw.take off ++ List.replicate (off - raw.length) '\x00') ++ data ++ raw.drop (off + data.length)

/-- Offset of the first occurrence of `c` in `s`: `strchr(s, c) - s`, `none` for NULL. -/
def strchr : CStr → Char → Option Nat
  | [], _ => none
  | x :: xs, c => if x = c then some 0 else (strchr xs c).map (· + 1)

/-- Offset of the first occurrence of `needle` in `s`: `strstr(s, needle) - s`, `none` for NULL. -/
def strstr : CStr → CStr → Option Nat
  | [], needle => if needle.isEmpty then some 0 else none
  | x :: xs, needle =>
    if needle.isPrefixOf (x :: xs) then some 0 else (strstr xs needle).map (· + 1)

/-- Truth of `strncmp(s, t, n) == 0`. -/
def strncmp_eq (s t : CStr) (n : Nat) : Bool := decide (s.take n = t.take n)

/-- The `isspace` of the C locale. -/
def isspace (c : Char) : Bool :=
  c = ' ' || c = '\t' || c = '\n' || c = '\x0b' || c = '\x0c' || c = '\r'

/-- Input left after a white-space directive of `scanf`. -/
def skip_space (s : CStr) : CStr := s.dropWhile isspace

/-- The characters a `%s` conversion takes from the front of `s`. -/
def scan_word (s : CStr) : CStr := s.takeWhile (fun c => !isspace c)

/-- Input left after a `%s` conversion took `scan_word s`. -/
def after_word (s : CStr) : CStr := s.dropWhile (fun c => !isspace c)

/-- The token stored by `sscanf(h, "%*s %s", out)`, `none` when the call does not return 1. -/
def sscanf_path (h : CStr) : Option CStr :=
  if scan_word (skip_space h) = [] then none
  else if scan_word (skip_space (after_word (skip_space h))) = [] then none
  else some (scan_word (skip_space (after_word (skip_space h))))

/-- Input left after the literal `lit` of a format matched the front of `s`. -/
def match_lit : CStr → CStr → Option CStr
  | [], s => some s
  | _ :: _, [] => none
  | l :: ls, x :: xs => if l = x then match_lit ls xs else none

/-- Value of a decimal digit. -/
def digitVal (c : Char) : Nat := c.toNat - 48

/-- A `%zu` conversion: white space, an optional sign, decimal digits (as `strtoul` reads them);
value and remaining input, `none` on a matching failure. -/
def scan_zu (s : CStr) : Option (Nat × CStr) :=
  let body : Bool × CStr :=
    match skip_space s with
    | '-' :: t => (true, t)
    | '+' :: t => (false, t)
    | t => (false, t)
  let ds := body.2.takeWhile Char.isDigit
  if ds = [] then none
  else
    let v := ds.foldl (fun a c => a * 10 + digitVal c) 0
    let v := if SIZE_MOD ≤ v then SIZE_MOD - 1 else v
    some (if body.1 then (SIZE_MOD - v) % SIZE_MOD else v, body.2.dropWhile Char.isDigit)

/-- Effect of `sscanf(h, "Range: bytes=%zu-%zu\n", &rs, &re)` on the pair `(rs, re)`. -/
def sscanf_range (h : CStr) (rs re : Nat) : Nat × Nat :=
  match match_lit "Range:".toList h with
  | none => (rs, re)
  | some s1 =>
    match match_lit "bytes=".toList (skip_space s1) with
    | none => (rs, re)
    | some s2 =>
      match scan_zu s2 with
      | none => (rs, re)
      | some (a, s3) =>
        match match_lit "-".toList s3 with
        | none => (a, re)
        | some s4 =>
          match scan_zu s4 with
          | none => (a, re)
          | some (b, _) => (a, b)

/-- Output of `printf("%s", p)` in glibc. -/
def fmt_s (p : Option CStr) : CStr := p.getD "(null)".toList

/-- Output of `printf("%d", n)` and `printf("%zu", n)` for a non-negative `n`. -/
def fmt_u (n : Nat) : CStr := (Nat.repr n).toList

/-! ## Data model -/

/-- Modelled from the spec: the enumeration `verb` of `server_helpers.h` (not in the sources),
the nine methods of section 3 of the specification. -/
inductive verb where
  | GET | HEAD | POST | PUT | DELETE | CONNECT | OPTIONS | TRACE | V_UNKNOWN
  deriving DecidableEq, Repr

/-- The `struct request_info`.  `fd` is `event->data.fd`; `req_type = none` is the value 0 that
`calloc` leaves and `handle_request` tests for; a `none` buffer is a NULL pointer. -/
structure request_info where
  fd : Nat
  ip : CStr
  req_type : Option verb
  stage : Nat
  progress : Nat
  request_h : Option (List Char)
  response_h : Option CStr
  range_start : Nat
  range_end : Nat
  mime_type : Option CStr
  deriving DecidableEq, Repr

/-- What `calloc(1, sizeof(struct request_info))` followed by the two assignments of `add_client` gives. -/
def request_info.fresh (fd : Nat) (ip : CStr) : request_info :=
  { fd := fd, ip := ip, req_type := none, stage := 0, progress := 0, request_h := none,
    response_h := none, range_start := 0, range_end := 0, mime_type := none }

/-- Calls the request path makes, with their arguments. -/
inductive Event where
  | read_header (off n : Nat)
  | write_all_to_socket (src : CStr) (off : Nat) (n : Option Nat)
  | write_all_to_socket_from_file (path : CStr) (opened : Bool) (n off : Nat)
  | access (path : CStr)
  | stat (path : CStr)
  | fopen (path : CStr)
  | opendir (path : CStr)
  | send_error (status : Nat)
  | send_list (path : CStr)
  | send_status_n (status file_size : Nat)
  deriving DecidableEq, Repr

/-- Calls that test or open a path of the file system. -/
def Event.isFs : Event → Bool
  | Event.access _ => true
  | Event.stat _ => true
  | Event.fopen _ => true
  | Event.opendir _ => true
  | Event.write_all_to_socket_from_file _ _ _ _ => true
  | _ => false

/-- Calls that hand bytes to the socket. -/
def Event.isWrite : Event → Bool
  | Event.write_all_to_socket _ _ _ => true
  | Event.write_all_to_socket_from_file _ _ _ _ => true
  | _ => false

/-- Outcome of one call of an I/O primitive: the `ssize_t` returned, the value stored in `errno`
(if any), and for `read_header` the bytes it delivers. -/
structure IOOutcome where
  ret : Int
  errno : Option Nat
  data : List Char
  deriving DecidableEq, Repr

/-- The world outside the connection: `errno`, the outcomes of the I/O calls to come, and the calls made. -/
structure Sys where
  errno : Nat
  io : List IOOutcome
  trace : List Event
  deriving DecidableEq, Repr

/-- Record call `e`, leaving `errno` alone unless `err` is given. -/
def Sys.note (sys : Sys) (e : Event) (err : Option Nat) : Sys :=
  { sys with errno := err.getD sys.errno, trace := sys.trace ++ [e] }

/-- Outcome the next I/O primitive call will have (a call past the script returns 0). -/
def Sys.next (sys : Sys) : IOOutcome :=
  sys.io.headD { ret := 0, errno := none, data := [] }

/-- The world after the I/O primitive call `e`. -/
def Sys.call (sys : Sys) (e : Event) : Sys :=
  { errno := sys.next.errno.getD sys.errno, io := sys.io.tail, trace := sys.trace ++ [e] }

/-- Configuration, constants of `server_helpers.h`, clock and file system.  `http_log` says
whether a log file is configured (`http_log != NULL`); `request_h_addr` is the address `calloc`
returned for the buffer `request_h` of the connection at hand. -/
structure Env where
  MAX_HEADER_SIZE : Nat
  MAX_PATHNAME_SIZE : Nat
  root_site : CStr
  security_headers : CStr
  date : CStr
  access : CStr → Option Nat
  stat : CStr → Except Nat Nat
  fopen : CStr → Option Nat
  opendir : CStr → Except Nat (List CStr)
  magic_file : CStr → Option CStr
  http_log : Bool
  request_h_addr : Nat

/-- What a call of a function of return type `int` ends in: the value of a `return` statement
(`val`); the end of the function body reached without a `return`, the caller then reading an
indeterminate value (`noReturn`); an access through an invalid pointer (`fault`); or, in this
embedding only, a loop that is still running when its fuel is used up (`noFuel`). -/
inductive Ret where
  | val (n : Int)
  | noReturn
  | fault
  | noFuel
  deriving DecidableEq, Repr

/-- Result of a handler: returned value, the connection and the world afterwards. -/
structure Out where
  ret : Ret
  conn : request_info
  sys : Sys
  deriving DecidableEq, Repr

/-! ## Constants and tables -/

/-- The constant `HTML_HEADER`. -/
def HTML_HEADER : CStr := "<!DOCTYPE html><html><head></head><body>".toList

/-- The constant `HTML_FOOTER`. -/
def HTML_FOOTER : CStr := "</body></html>".toList

/-- The table `status_desc` after `load_status_codes`; `none` is a NULL entry. -/
def status_desc (status : Nat) : Option CStr :=
  if status = 200 then some "OK".toList
  else if status = 204 then some "No Content".toList
  else if status = 400 then some "Bad Request".toList
  else if status = 401 then some "Unauthorized".toList
  else if status = 403 then some "Forbidden".toList
  else if status = 404 then some "Not Found".toList
  else if status = 405 then some "Method Not Allowed".toList
  else if status = 413 then some "Payload Too Large".toList
  else if status = 414 then some "Too Long".toList
  else if status = 431 then some "Request Header Fields Too Large".toList
  else none

/-! ## check_verb -/

/-- The function `check_verb`. -/
def check_verb (header : CStr) : verb :=
  if strncmp_eq header "GET ".toList 4 then verb.GET
  else if strncmp_eq header "HEAD ".toList 5 then verb.HEAD
  else if strncmp_eq header "POST ".toList 5 then verb.POST
  else if strncmp_eq header "PUT ".toList 4 then verb.PUT
  else if strncmp_eq header "DELETE ".toList 7 then verb.DELETE
  else if strncmp_eq header "CONNECT ".toList 8 then verb.CONNECT
  else if strncmp_eq header "OPTIONS ".toList 8 then verb.OPTIONS
  else if strncmp_eq header "TRACE ".toList 6 then verb.TRACE
  else verb.V_UNKNOWN

/-! ## send_status_n -/

/-- The status line `"HTTP/1.1 %d %s"` that opens the format of `send_status_n`. -/
def status_line (status : Nat) : CStr :=
  "HTTP/1.1 ".toList ++ fmt_u status ++ " ".toList ++ fmt_s (status_desc status)

/-- The text `send_status_n` formats into an empty `response_h`. -/
def response_head (env : Env) (status : Nat) (req : request_info) (file_size : Nat) : CStr :=
  (status_line status ++ "\n".toList
    ++ "Date: ".toList ++ env.date ++ "\n".toList
    ++ "Connection: close\n".toList
    ++ "Content-Length: ".toList ++ fmt_u file_size ++ "\n".toList)
  ++ (if req.range_end ≠ 0 then
        "Content-Range: bytes=".toList ++ fmt_u req.range_start ++ "-".toList
          ++ fmt_u req.range_end ++ "\n".toList
      else [])
  ++ (match req.mime_type with
      | some m => "Content-Type: ".toList ++ m ++ "\n".toList
      | none => [])
  ++ env.security_headers

/-- The tail shared by every writer: add a positive count to `progress`, then map `errno` to
0 (blocked) or 3 (signal, error); `none` when the call went through. -/
def after_io (req : request_info) (o : IOOutcome) (sys : Sys) : request_info × Option Ret :=
  let req := if 0 < o.ret then { req with progress := addSz req.progress o.ret.toNat } else req
  if sys.errno = EWOULDBLOCK ∨ sys.errno = EAGAIN then (req, some (Ret.val 0))
  else if sys.errno = SIGPIPE then (req, some (Ret.val 3))
  else if sys.errno ≠ 0 then (req, some (Ret.val 3))
  else (req, none)

/-- The function `send_status_n`. -/
def send_status_n (env : Env) (status : Nat) (req : request_info) (file_size : Nat)
    (sys : Sys) : Out :=
  let sys := sys.note (Event.send_status_n status file_size) none
  let resp := req.response_h.getD []
  let resp := if resp.length < 1 then response_head env status req file_size else resp
  let req := { req with response_h := some resp }
  let o := sys.next
  let sys := sys.call (Event.write_all_to_socket resp req.progress
    (some (subSz resp.length req.progress)))
  let r := after_io req o sys
  match r.2 with
  | some ret => { ret := ret, conn := r.1, sys := sys }
  | none => { ret := Ret.val 1, conn := r.1, sys := sys }

/-! ## send_error -/

/-- The body `send_error` builds in `buff`. -/
def error_page (status : Nat) : CStr :=
  HTML_HEADER ++ ("<h2>Error: ".toList ++ fmt_u status ++ " ".toList
    ++ fmt_s (status_desc status) ++ "</h2>".toList) ++ HTML_FOOTER

/-- Stage 2 of `send_error` and `send_list`: write the body `buff`.  The count passed is
`strlen(buff - progress)`, which is `strlen(buff)` only for `progress = 0`. -/
def send_body (buff : CStr) (req : request_info) (sys : Sys) : Out :=
  let o := sys.next
  let sys := sys.call (Event.write_all_to_socket buff req.progress
    (if req.progress = 0 then some buff.length else none))
  let r := after_io req o sys
  match r.2 with
  | some ret => { ret := ret, conn := r.1, sys := sys }
  | none => { ret := Ret.val (if r.1.progress = buff.length then 1 else 0), conn := r.1, sys := sys }

/-- Stages 1 and 2 as `send_error` and `send_list` run them over a body `buff`; with any other
stage control reaches the end of the function without a `return`. -/
def send_page (env : Env) (buff : CStr) (req : request_info) (sys : Sys) : Out :=
  if req.stage = 1 then
    let o := send_status_n env 200 req buff.length sys
    if o.ret ≠ Ret.val 1 then o
    else
      let req : request_info := { o.conn with stage := addSz o.conn.stage 1, progress := 0 }
      if req.stage = 2 then send_body buff req o.sys
      else { ret := Ret.noReturn, conn := req, sys := o.sys }
  else if req.stage = 2 then send_body buff req sys
  else { ret := Ret.noReturn, conn := req, sys := sys }

/-- The function `send_error`. -/
def send_error (env : Env) (status : Nat) (req : request_info) (sys : Sys) : Out :=
  send_page env (error_page status) req (sys.note (Event.send_error status) none)

/-! ## get_header -/

/-- Lines 504-518 of `get_header`: the head passed every check. -/
def accept_header (h : CStr) (req : request_info) (sys : Sys) : Out :=
  let req := { req with range_start := 0, range_end := 0 }
  let r := if strstr h "Range:".toList ≠ none then sscanf_range h req.range_start req.range_end
           else (req.range_start, req.range_end)
  { ret := Ret.val 1
    conn := { req with range_start := r.1, range_end := r.2, stage := 1, progress := 0 }
    sys := sys }

/-- Lines 474-518 of `get_header`: the checks on the head `h = request_h` once it was read
without error.  `strchr(..) + 1` of a NULL result is the address 1, which the next string
function dereferences. -/
def check_header (env : Env) (h : CStr) (req : request_info) (sys : Sys) : Out :=
  if h.length = 0 then { ret := Ret.val 1, conn := req, sys := sys }
  else
    match strchr h ' ' with
    | none => { ret := Ret.fault, conn := req, sys := sys }
    | some i =>
      match strchr (h.drop (i + 1)) ' ' with
      | none =>
        if strstr h "\n\n".toList ≠ none then send_error env 400 req sys
        else { ret := Ret.fault, conn := req, sys := sys }
      | some j =>
        if strstr h "\n\n".toList ≠ none
            ∨ strncmp_eq (h.drop (i + 1 + j + 1)) "HTTP/".toList 5 = false then
          send_error env 400 req sys
        else if toInt32 (((i + 1 + j + 1 : Nat) : Int) - ((i + 1 : Nat) : Int) - 1)
            > (env.MAX_PATHNAME_SIZE : Int) then
          send_error env 414 req sys
        else if strstr h "Host:".toList = none then send_error env 400 req sys
        else accept_header h req sys

/-- Lines 437-442 of `get_header`: the buffer `request_h` after `read_header` stored what the next
I/O outcome delivers, at most `MAX_HEADER_SIZE - progress` bytes at offset `progress`. -/
def read_buffer (env : Env) (req : request_info) (sys : Sys) : List Char :=
  splice (req.request_h.getD []) req.progress
    (sys.next.data.take (subSz env.MAX_HEADER_SIZE req.progress))

/-- The world after the `read_header` call of `get_header`. -/
def sys_after_read (env : Env) (req : request_info) (sys : Sys) : Sys :=
  sys.call (Event.read_header req.progress (subSz env.MAX_HEADER_SIZE req.progress))

/-- Lines 437-453 of `get_header`: the connection once the bytes are stored and a positive
`read_status` is added to `progress`. -/
def conn_after_read (env : Env) (req : request_info) (sys : Sys) : request_info :=
  (after_io { req with request_h := some (read_buffer env req sys) } sys.next
    (sys_after_read env req sys)).1

/-- The function `get_header`. -/
def get_header (env : Env) (req : request_info) (sys : Sys) : Out :=
  if sys.next.ret = -1 then
    send_error env 413 { req with request_h := some (read_buffer env req sys) }
      (sys_after_read env req sys)
  else
    match (after_io { req with request_h := some (read_buffer env req sys) } sys.next
        (sys_after_read env req sys)).2 with
    | some ret =>
      { ret := ret, conn := conn_after_read env req sys, sys := sys_after_read env req sys }
    | none =>
      check_header env (cstr (read_buffer env req sys)) (conn_after_read env req sys)
        (sys_after_read env req sys)

/-! ## v_unknown, set_mime_type, send_list -/

/-- The function `v_unknown`. -/
def v_unknown (env : Env) (req : request_info) (sys : Sys) : Out :=
  send_error env 400 req sys

/-- The function `set_mime_type`. -/
def set_mime_type (env : Env) (path : CStr) (req : request_info) : request_info :=
  if strstr path ".html".toList ≠ none then { req with mime_type := some "text/html".toList }
  else if strstr path ".css".toList ≠ none then { req with mime_type := some "text/css".toList }
  else if strstr path ".js".toList ≠ none then
    { req with mime_type := some "text/javascript".toList }
  else if strstr path ".mp4".toList ≠ none then { req with mime_type := some "video/mp4".toList }
  else if strstr path ".jpg".toList ≠ none then { req with mime_type := some "image/jpeg".toList }
  else if strstr path ".png".toList ≠ none then { req with mime_type := some "image/png".toList }
  else { req with mime_type := env.magic_file path }

/-- The anchor `send_list` prints for the entry `name` of the directory `path`. -/
def anchor (env : Env) (path name : CStr) : CStr :=
  "<a href=\"".toList ++ path.drop env.root_site.length ++ name ++ "\">".toList ++ name
    ++ "</a></br>".toList

/-- The body `send_list` builds in `buff` from the entries `readdir` enumerates. -/
def listing (env : Env) (path : CStr) (entries : List CStr) : CStr :=
  HTML_HEADER
    ++ ((entries.filter (fun name => name.head? ≠ some '.' ∧ name.head? ≠ some '-')).map
          (anchor env path)).flatten
    ++ HTML_FOOTER

/-- The function `send_list`. -/
def send_list (env : Env) (path : CStr) (req : request_info) (sys : Sys) : Out :=
  let sys := sys.note (Event.send_list path) none
  match env.opendir path with
  | Except.error e => send_error env 404 req (sys.note (Event.opendir path) (some e))
  | Except.ok entries =>
    send_page env (listing env path entries) req (sys.note (Event.opendir path) none)

/-! ## get -/

/-- The loop `while (file != NULL)` of `get` (lines 615-647), run for at most `fuel` rounds;
`ws` is `write_status` and `errno` the value the single write left. -/
def get_loop : Nat → request_info → Int → Nat → Nat → Ret × request_info
  | 0, req, _, _, _ => (Ret.noFuel, req)
  | fuel + 1, req, ws, errno, file_size =>
    let req : request_info :=
      if 0 < ws then { req with progress := addSz req.progress ws.toNat } else req
    if errno = EWOULDBLOCK ∨ errno = EAGAIN then (Ret.val 0, req)
    else if errno = SIGPIPE then (Ret.val 3, req)
    else if errno ≠ 0 then (Ret.val 3, req)
    else if req.progress = file_size then (Ret.val 1, req)
    else get_loop fuel req ws errno file_size

/-- Lines 601-652 of `get`: stage 2, the body. -/
def get_body (env : Env) (fuel : Nat) (path : CStr) (file_size : Nat) (req : request_info)
    (sys : Sys) : Out :=
  if req.stage = 2 then
    if req.req_type = some verb.HEAD then { ret := Ret.val 1, conn := req, sys := sys }
    else
      let sys := sys.note (Event.fopen path) (env.fopen path)
      let o := sys.next
      let sys := sys.call (Event.write_all_to_socket_from_file path (env.fopen path = none)
        (subSz (subSz req.range_end req.range_start) req.progress)
        (addSz req.range_start req.progress))
      if env.fopen path = none then
        let r := get_loop fuel req o.ret sys.errno file_size
        { ret := r.1, conn := r.2, sys := sys }
      else { ret := Ret.val (if req.progress = file_size then 1 else 0), conn := req, sys := sys }
  else { ret := Ret.val 0, conn := req, sys := sys }

/-- Lines 579-584 of `get`: a zero `range_end` becomes the file size, then `range_end` is cut
down to the file size. -/
def clamp_range (req : request_info) (file_size : Nat) : request_info :=
  let req : request_info :=
    if req.range_end = 0 then { req with range_end := file_size } else req
  { req with range_end := if req.range_end ≤ file_size then req.range_end else file_size }

/-- Lines 569-599 of `get`: size, range window, MIME type and stage 1, the head. -/
def get_file (env : Env) (fuel : Nat) (path : CStr) (req : request_info) (sys : Sys) : Out :=
  match env.stat path with
  | Except.error e => { ret := Ret.val 3, conn := req, sys := sys.note (Event.stat path) (some e) }
  | Except.ok file_size =>
    let sys := sys.note (Event.stat path) none
    let req := set_mime_type env path (clamp_range req file_size)
    if req.stage = 1 then
      let o := send_status_n env 200 req (subSz req.range_end req.range_start) sys
      if o.ret ≠ Ret.val 1 then o
      else
        get_body env fuel path file_size
          { o.conn with stage := addSz o.conn.stage 1, progress := 0 } o.sys
    else get_body env fuel path file_size req sys

/-- Size of the array `path` of `get` (line 530): `MAX_PATHNAME_SIZE + strlen(root_site) + 1`. -/
def path_cap (env : Env) : Nat := env.MAX_PATHNAME_SIZE + env.root_site.length + 1

/-- A `strncat` that leaves the string `s` in the array `path` of `get`: the run goes on with
`next` when `s` and its terminating NUL fit the array, and has written beyond it otherwise. -/
def in_path (env : Env) (s : CStr) (req : request_info) (sys : Sys) (next : Out) : Out :=
  if s.length + 1 ≤ path_cap env then next else { ret := Ret.fault, conn := req, sys := sys }

/-- Lines 560-567 of `get`: the second and third existence test on the candidate `path`. -/
def get_resolve (env : Env) (fuel : Nat) (path : CStr) (req : request_info) (sys : Sys) : Out :=
  let sys := sys.note (Event.access path) (env.access path)
  if env.access path ≠ none
      ∧ strstr (path.drop env.root_site.length) "/index.html".toList ≠ none then
    send_list env (path.take ((strstr path "index.html".toList).getD 0)) req sys
  else
    let sys := sys.note (Event.access path) (env.access path)
    if env.access path ≠ none then send_error env 404 req sys
    else get_file env fuel path req sys

/-- Lines 554-567 of `get`: the three existence tests on the candidate `path`.  After a failed
first test on a name with `/index.php`, the string is cut at its first `.php` and `.html` is
appended to it in the array. -/
def get_lookup (env : Env) (fuel : Nat) (path : CStr) (req : request_info) (sys : Sys) : Out :=
  let sys := sys.note (Event.access path) (env.access path)
  if env.access path ≠ none
      ∧ strstr (path.drop env.root_site.length) "/index.php".toList ≠ none then
    in_path env (path.take ((strstr path ".php".toList).getD 0) ++ ".html".toList) req sys
      (get_resolve env fuel (path.take ((strstr path ".php".toList).getD 0) ++ ".html".toList)
        req sys)
  else get_resolve env fuel path req sys

/-- The function `get`.  The token `sscanf` stores behind the root is taken as it is; the index
name is appended to it in the array `path`. -/
def get (env : Env) (fuel : Nat) (req : request_info) (sys : Sys) : Out :=
  match sscanf_path (cstr (req.request_h.getD [])) with
  | none => send_error env 400 req sys
  | some token =>
    let path := env.root_site ++ token
    if strchr path '.' = none then
      if path.getLast? = some '/' then
        in_path env (path ++ "index.php".toList) req sys
          (get_lookup env fuel (path ++ "index.php".toList) req sys)
      else
        in_path env (path ++ "/index.php".toList) req sys
          (get_lookup env fuel (path ++ "/index.php".toList) req sys)
    else if strstr path "..".toList ≠ none then send_error env 403 req sys
    else get_lookup env fuel path req sys

/-! ## handle_request -/

/-- Lines 277-304 of `handle_request`: classify the method once, then run its handler. -/
def dispatch (env : Env) (fuel : Nat) (req : request_info) (sys : Sys) : Out :=
  let req : request_info :=
    if req.req_type = none then
      { req with req_type := some (check_verb (cstr (req.request_h.getD []))) }
    else req
  if req.req_type = some verb.V_UNKNOWN then v_unknown env req sys
  else if req.req_type = some verb.GET ∨ req.req_type = some verb.HEAD then get env fuel req sys
  else if req.response_h = none then send_error env 405 { req with response_h := some [] } sys
  else { ret := Ret.val 1, conn := req, sys := sys }

/-- Output of `printf("%.*s", n, s)`: at most `n` characters of `s`, and all of `s` when the
precision `n` is negative. -/
def fmt_prec (n : Int) (s : CStr) : CStr := if n < 0 then s else s.take n.toNat

/-- The value `header_sample_len` of line 266 for the head `h`: the offset of its first line
feed, cast to `int`, less one.  For a head without a line feed `strchr` returns NULL and the
difference is taken from the address of `request_h`. -/
def header_sample_len (env : Env) (h : CStr) : Int :=
  match strchr h '\n' with
  | some k => toInt32 (toInt32 (k : Int) - 1)
  | none => toInt32 (toInt32 (-(env.request_h_addr : Int)) - 1)

/-- The line `sprintf` formats into `message` (line 269).  `ip` points into the static buffer of
`inet_ntoa`, which holds a dotted quad: at most 15 characters. -/
def log_message (env : Env) (req : request_info) : CStr :=
  "[".toList ++ req.ip.take 15 ++ "] \"".toList
    ++ fmt_prec (header_sample_len env (cstr (req.request_h.getD [])))
        (cstr (req.request_h.getD []))
    ++ "\"\n".toList

/-- The access-log block of `handle_request` (lines 265-275): whether, with a log file
configured, the line and its terminating NUL exceed the 256 bytes of `message`. -/
def log_overruns (env : Env) (req : request_info) : Bool :=
  env.http_log && decide (256 < (log_message env req).length + 1)

/-- Lines 264-304 of `handle_request`: the access-log block, then the method. -/
def log_and_dispatch (env : Env) (fuel : Nat) (req : request_info) (sys : Sys) : Out :=
  if log_overruns env req then { ret := Ret.fault, conn := req, sys := sys }
  else dispatch env fuel req sys

/-- Lines 253-304 of `handle_request`, on the connection `req = client_requests[fd]`.  A result
of `get_header` other than the value 1 (an indeterminate value included) is handed on as it is. -/
def handle_conn (env : Env) (fuel : Nat) (req : request_info) (sys : Sys) : Out :=
  let sys : Sys := { sys with errno := 0 }
  if req.stage = 0 then
    let o := get_header env req sys
    if o.ret ≠ Ret.val 1 then o
    else log_and_dispatch env fuel { o.conn with stage := 1 } o.sys
  else log_and_dispatch env fuel req sys

/-- The function `handle_request` over the table `client_requests`: a descriptor outside the
table or with a NULL entry makes the first access invalid. -/
def handle_request (env : Env) (fuel : Nat) (client_requests : List (Option request_info))
    (fd : Nat) (sys : Sys) : Ret × List (Option request_info) × Sys :=
  match client_requests[fd]? with
  | none => (Ret.fault, client_requests, sys)
  | some none => (Ret.fault, client_requests, sys)
  | some (some req) =>
    let o := handle_conn env fuel req sys
    (o.ret, client_requests.set fd (some o.conn), o.sys)

/-! ## The directory part of an index candidate -/

/-- Lines 544-548 of `get`: the path before the appended index name, that is root ++ token,
with a `/` added unless it ends in one. -/
def index_dir (env : Env) (token : CStr) : CStr :=
  if (env.root_site ++ token).getLast? = some '/' then env.root_site ++ token
  else env.root_site ++ token ++ "/".toList

/-! ## Re-entry after a blocked write -/

/-- The event loop re-entering `send_status_n` for one connection: `handle_request` clears
`errno` on every entry, and a call that returns 0 (blocked) is followed by another one on the
next readiness event, at most `fuel` calls in all. -/
def resume_head (env : Env) (status file_size : Nat) : Nat → request_info → Sys → Out
  | 0, req, sys => { ret := Ret.noFuel, conn := req, sys := sys }
  | fuel + 1, req, sys =>
    if (send_status_n env status req file_size { sys with errno := 0 }).ret = Ret.val 0 then
      resume_head env status file_size fuel
        (send_status_n env status req file_size { sys with errno := 0 }).conn
        (send_status_n env status req file_size { sys with errno := 0 }).sys
    else send_status_n env status req file_size { sys with errno := 0 }

/-- Outcome of a write call that takes `k` bytes and then reports `EWOULDBLOCK`. -/
def blocks_after (k : Nat) : IOOutcome := { ret := k, errno := some EWOULDBLOCK, data := [] }

/-- The calls a run of `send_status_n` entries makes when the head `H` is in `response_h`, the
first entry finds `progress = p` and the entries move the counts `ks` in turn: each entry
offers `H` from the current `progress` to its end. -/
def head_calls (status file_size : Nat) (H : CStr) : Nat → List Nat → List Event
  | _, [] => []
  | p, k :: ks =>
    Event.send_status_n status file_size
      :: Event.write_all_to_socket H p (some (H.length - p))
      :: head_calls status file_size H (p + k) ks

/-- The bytes the peer receives when writes that each offer `H` from the current offset (first
`p`) move the counts `ks` in turn. -/
def accepted_bytes (H : CStr) : Nat → List Nat → CStr
  | _, [] => []
  | p, k :: ks => (H.drop p).take k ++ accepted_bytes H (p + k) ks

/-! ## Directory listing, in the words of the specification -/

/-- Following the specification's words: an entry whose name begins with `.` or `-` is skipped. -/
def skipped (name : CStr) : Bool := name.head? = some '.' || name.head? = some '-'

/-- Following the specification's words: one anchor per entry that is not skipped, in
enumeration order, `href` being the path under the root concatenated with the entry name,
each followed by a break. -/
def anchors_spec (under_root : CStr) : List CStr → CStr
  | [] => []
  | name :: rest =>
    if skipped name then anchors_spec under_root rest
    else "<a href=\"".toList ++ (under_root ++ name) ++ "\">".toList ++ name
      ++ "</a></br>".toList ++ anchors_spec under_root rest

/-- Number of entries that are not skipped. -/
def kept_count : List CStr → Nat
  | [] => 0
  | name :: rest => if skipped name then kept_count rest else kept_count rest + 1

/-- Number of anchors the loop of `send_list` prints: one per pass through the `sprintf` of
line 896. -/
def anchor_count (entries : List CStr) : Nat :=
  (entries.filter (fun name => name.head? ≠ some '.' ∧ name.head? ≠ some '-')).length

/-! ## Connection table and event facility -/

/-- The array `client_requests[100]` and the descriptors registered with `epollfd`. -/
structure Server where
  client_requests : List (Option request_info)
  registered : List Nat
  deriving DecidableEq, Repr

/-- The state at start-up: one hundred NULL entries, nothing registered. -/
def Server.init : Server := { client_requests := List.replicate 100 none, registered := [] }

/-- The call `epoll_ctl(epollfd, EPOLL_CTL_ADD, fd, ev)`: registering a registered descriptor
fails (`EEXIST`) and changes nothing. -/
def epoll_add (fd : Nat) (registered : List Nat) : List Nat :=
  if fd ∈ registered then registered else registered ++ [fd]

/-- The call `epoll_ctl(epollfd, EPOLL_CTL_DEL, fd, NULL)`. -/
def epoll_del (fd : Nat) (registered : List Nat) : List Nat :=
  registered.filter (fun x => x ≠ fd)

/-- The function `add_client`; `none` when `client_requests[fd]` lies outside the array. -/
def add_client (fd : Nat) (ip : CStr) (s : Server) : Option Server :=
  match s.client_requests[fd]? with
  | none => none
  | some none =>
    some { client_requests := s.client_requests.set fd (some (request_info.fresh fd ip))
           registered := epoll_add fd s.registered }
  | some (some _) => some { s with registered := epoll_add fd s.registered }

/-- The function `remove_client`; `none` when `client_requests[fd]` lies outside the array. -/
def remove_client (fd : Nat) (s : Server) : Option Server :=
  match s.client_requests[fd]? with
  | none => none
  | some none => some s
  | some (some _) =>
    some { client_requests := s.client_requests.set fd none
           registered := epoll_del fd s.registered }

/-- The function `accept_connections` with its recursion unrolled.  `accepts` holds the values
the coming `accept` calls return with the peer address (a call past the list returns -1);
`depth` counts the activations of `accept_connections` that are in their `while` loop: a
descriptor above 0 is handed to `add_client` and opens one more activation, any other value
ends the innermost one.  `none` when `add_client` leaves the array. -/
def accept_loop : Nat → List (Int × CStr) → Server → Option Server
  | _, [], s => some s
  | 0, _ :: _, s => some s
  | depth + 1, (fd, ip) :: rest, s =>
    if 0 < fd then
      match add_client fd.toNat ip s with
      | none => none
      | some s1 => accept_loop (depth + 2) rest s1
    else accept_loop depth rest s

/-- The function `accept_connections`. -/
def accept_connections (accepts : List (Int × CStr)) (s : Server) : Option Server :=
  accept_loop 1 accepts s

/-- A call of `add_client` or `remove_client`. -/
inductive TableOp where
  | add (fd : Nat) (ip : CStr)
  | remove (fd : Nat)
  deriving DecidableEq, Repr

/-- The descriptor a call is about. -/
def TableOp.fd : TableOp → Nat
  | TableOp.add fd _ => fd
  | TableOp.remove fd => fd

/-- One call of `add_client` or `remove_client`. -/
def TableOp.apply (op : TableOp) (s : Server) : Option Server :=
  match op with
  | TableOp.add fd ip => add_client fd ip s
  | TableOp.remove fd => remove_client fd s

/-- A sequence of `add_client` and `remove_client` calls, stopping at the first access outside
the array. -/
def run_ops : List TableOp → Server → Option Server
  | [], s => some s
  | op :: ops, s =>
    match op.apply s with
    | none => none
    | some s1 => run_ops ops s1

/-! ## Entries of one connection -/

/-- The connection after `handle_request` was entered for it once for each element of
`entries`, in turn, each entry with the configuration and file system of its moment and its own
world; `none` once an entry ended in an access through an invalid pointer.  (The event loop
enters again only after a status that is not positive; every sequence of entries is taken
here.) -/
def serve (fuel : Nat) : List (Env × Sys) → request_info → Option request_info
  | [], req => some req
  | (env, sys) :: rest, req =>
    if (handle_conn env fuel req sys).ret = Ret.fault then none
    else serve fuel rest (handle_conn env fuel req sys).conn

/-- Calls of `stat`. -/
def Event.isStat : Event → Bool
  | Event.stat _ => true
  | _ => false

/-- Calls of `send_status_n`. -/
def Event.isHead : Event → Bool
  | Event.send_status_n _ _ => true
  | _ => false

/-- Calls of `write_all_to_socket_from_file`. -/
def Event.isTransfer : Event → Bool
  | Event.write_all_to_socket_from_file _ _ _ _ => true
  | _ => false

/-- The calls a result added to the trace of the world `sys` it started from. -/
def added (sys : Sys) (o : Out) : List Event := o.sys.trace.drop sys.trace.length

/-! ## Predicates on results -/

/-- A result whose connection kept its method and the start of its window and did not go back
to stage 0. -/
def Keeps (req : request_info) (o : Out) : Prop :=
  o.conn.req_type = req.req_type ∧ o.conn.range_start = req.range_start
    ∧ (req.stage ≠ 0 → o.conn.stage ≠ 0)

/-- A result that added no call of `stat`. -/
def NoStat (sys : Sys) (o : Out) : Prop :=
  ∃ new, o.sys.trace = sys.trace ++ new ∧ ∀ e ∈ new, e.isStat = false

/-- A result that is the file stage of `get` on the connection `req`, entered after calls that
are neither `stat` nor `send_status_n` nor a file transfer. -/
def AtFile (env : Env) (fuel : Nat) (req : request_info) (sys : Sys) (o : Out) : Prop :=
  ∃ path sys1 pre, o = get_file env fuel path req sys1 ∧ sys1.trace = sys.trace ++ pre
    ∧ ∀ e ∈ pre, e.isStat = false ∧ e.isHead = false ∧ e.isTransfer = false

/-- What holds of a connection between two entries of `handle_request`: before the head is
complete it is in stage 0 with no method; afterwards it has a method, and a GET or HEAD
connection has the start of its window at 0. -/
def Settled (req : request_info) : Prop :=
  (req.stage = 0 ∧ req.req_type = none)
    ∨ (req.stage ≠ 0 ∧ req.req_type ≠ none
        ∧ (req.req_type = some verb.GET ∨ req.req_type = some verb.HEAD → req.range_start = 0))

/-- A result that kept `response_h` and added no call that hands bytes to the socket. -/
def Quiet (req : request_info) (sys : Sys) (o : Out) : Prop :=
  o.conn.response_h = req.response_h
    ∧ ∃ new, o.sys.trace = sys.trace ++ new ∧ ∀ e ∈ new, e.isWrite = false

/-- The table has its hundred slots, an entry is non-NULL exactly for the registered
descriptors, and no descriptor is registered twice. -/
def TableInv (s : Server) : Prop :=
  s.client_requests.length = 100
    ∧ (∀ fd, (∃ r, s.client_requests[fd]? = some (some r)) ↔ fd ∈ s.registered)
    ∧ s.registered.Nodup

/-- A result whose trace is the one of `sys` with calls added. -/
def Extends (sys : Sys) (o : Out) : Prop := ∃ new, o.sys.trace = sys.trace ++ new

/-- The read of `get_header` goes through without I/O error (`read_status` is not -1 and `errno`
is 0 afterwards) and leaves in `request_h` the non-empty head `h`, shorter than 2^31 bytes,
whose first space is at offset `i` and whose second space is `j` bytes further: `j` is the
length of the path token between them. -/
def ReadsHead (env : Env) (req : request_info) (sys : Sys) (h : CStr) (i j : Nat) : Prop :=
  sys.next.ret ≠ -1 ∧ (sys_after_read env req sys).errno = 0
    ∧ cstr (read_buffer env req sys) = h ∧ h ≠ [] ∧ h.length < 2 ^ 31
    ∧ strchr h ' ' = some i ∧ strchr (h.drop (i + 1)) ' ' = some j

/-- The lines of a head, cut at every line feed. -/
def head_lines : CStr → List CStr
  | [] => [[]]
  | c :: cs =>
    if c = '\n' then [] :: head_lines cs
    else
      match head_lines cs with
      | [] => [[c]]
      | l :: ls => (c :: l) :: ls

/-- Following the specification's words ("a `Host:` header must be present"): some line after
the request line begins with `Host:`. -/
def has_host_line (h : CStr) : Bool :=
  (head_lines h).tail.any (fun l => "Host:".toList.isPrefixOf l)

/-! ## Example configuration -/

/-- A configuration for the worked examples: document root `/srv` holding the 1024-byte file
`/srv/big.bin` and nothing else, `MAX_PATHNAME_SIZE = 64`, no log file. -/
def example_env : Env :=
  { MAX_HEADER_SIZE := 4096
    MAX_PATHNAME_SIZE := 64
    root_site := "/srv".toList
    security_headers := "X-Frame-Options: SAMEORIGIN\n\n".toList
    date := "Thu, 01 Jan 1970 00:00:00 GMT".toList
    access := fun p => if p = "/srv/big.bin".toList then none else some 2
    stat := fun p => if p = "/srv/big.bin".toList then Except.ok 1024 else Except.error 2
    fopen := fun p => if p = "/srv/big.bin".toList then none else some 2
    opendir := fun _ => Except.error 2
    magic_file := fun _ => some "application/octet-stream".toList
    http_log := false
    request_h_addr := 6295552 }

/-- The world in which `errno` is 0, nothing was called yet and the I/O calls to come have the
outcomes `io`. -/
def example_sys (io : List IOOutcome) : Sys := { errno := 0, io := io, trace := [] }

/-- Outcome of a `read_header` call that delivers the whole of `s` and leaves `errno` alone. -/
def delivers (s : CStr) : IOOutcome := { ret := s.length, errno := none, data := s }

/-- Outcome of a write call that takes `n` bytes and leaves `errno` alone. -/
def takes (n : Nat) : IOOutcome := { ret := n, errno := none, data := [] }

/-- A connection past stage 0 whose request buffer holds `s`. -/
def example_conn (s : CStr) : request_info :=
  { request_info.fresh 5 "10.0.0.1".toList with stage := 1, request_h := some s }

/-- A head with a path of 65 bytes, one more than `MAX_PATHNAME_SIZE` of `example_env`, closed by
two line feeds. -/
def long_path_head : CStr :=
  "GET /".toList ++ List.replicate 64 'a' ++ " HTTP/1.1\nHost: x\n\n".toList

/-- A GET connection in stage 1 for `/big.bin` with the window 0, 0 that `Range: bytes=0-0`
and a missing Range header both leave. -/
def whole_conn : request_info :=
  { example_conn "GET /big.bin HTTP/1.1\r\nHost: x\r\n\r\n".toList with
    req_type := some verb.GET }

/-- A GET connection for `/big.bin` back in `get` at stage 2 with nothing of the body sent yet
and the window 0, 1024 of the whole file. -/
def body_conn : request_info :=
  { example_conn "GET /big.bin HTTP/1.1\r\nHost: x\r\n\r\n".toList with
    req_type := some verb.GET, stage := 2, range_end := 1024,
    response_h := some "HTTP/1.1 200 OK\n\n".toList }

/-- A GET connection for `/big.bin` back in `get` at stage 2 with nothing of the body sent yet
and the window 10, 19. -/
def range_body_conn : request_info :=
  { body_conn with range_start := 10, range_end := 19 }

/-- The configuration `example_env` with a log file configured. -/
def logging_env : Env := { example_env with http_log := true }

/-- A head whose method is not one of the nine. -/
def unknown_head : CStr := "FROBNICATE / HTTP/1.1\r\nHost: x\r\n\r\n".toList

/-- The connection a fresh one becomes in the entry that reads `unknown_head` under
`logging_env` and finds the write of the response head blocked. -/
def unknown_conn : request_info :=
  (handle_conn logging_env 8 (request_info.fresh 5 "10.0.0.1".toList)
    (example_sys [delivers unknown_head, blocks_after 0])).conn

/-- A head whose path has 64 bytes, the most `get_header` admits under `example_env`, and no
dot. -/
def long_dir_head : CStr :=
  "GET /".toList ++ List.replicate 63 'a' ++ " HTTP/1.1\r\nHost: x\r\n\r\n".toList

/-- A head whose first line has 271 bytes. -/
def long_line_head : CStr :=
  "FROBNICATE / HTTP/1.1".toList ++ List.replicate 250 'a' ++ "\r\nHost: x\r\n\r\n".toList

/-- The head of a plain request for `/big.bin`. -/
def big_head : CStr := "GET /big.bin HTTP/1.1\r\nHost: x\r\n\r\n".toList

/-- The connection a fresh one becomes in the entry that reads `big_head` and finds the write
of the response head blocked. -/
def blocked_conn : request_info :=
  (handle_conn example_env 8 (request_info.fresh 5 "10.0.0.1".toList)
    (example_sys [delivers big_head, blocks_after 0])).conn

/-- A configuration whose document root `/srv` holds the directory `/srv/docs/` with the
entries `.`, `..`, `a.txt` and `.hidden`, and neither `index.php` nor `index.html` in it. -/
def docs_env : Env :=
  { example_env with
    access := fun _ => some 2
    stat := fun _ => Except.error 2
    fopen := fun _ => some 2
    opendir := fun p =>
      if p = "/srv/docs/".toList then
        Except.ok [".".toList, "..".toList, "a.txt".toList, ".hidden".toList]
      else Except.error 2 }

/-- A configuration whose document root `/srv` holds the directory `/srv/v1.2/`. -/
def dotted_dir_env : Env :=
  { example_env with
    access := fun p => if p = "/srv/v1.2/".toList then none else some 2
    stat := fun p => if p = "/srv/v1.2/".toList then Except.ok 4096 else Except.error 2
    fopen := fun p => if p = "/srv/v1.2/".toList then none else some 2 }

/-- A GET connection in stage 1 for the path `/v1.2/`, which ends in `/` and has a dot. -/
def dotted_dir_conn : request_info :=
  { example_conn "GET /v1.2/ HTTP/1.1\r\nHost: x\r\n\r\n".toList with
    req_type := some verb.GET }

/-- A GET connection in stage 1 for the path `/docs/`. -/
def docs_conn : request_info :=
  { example_conn "GET /docs/ HTTP/1.1\r\nHost: x\r\n\r\n".toList with
    req_type := some verb.GET }

/-! ## Helper lemmas -/

/-- Comparing the first `strlen t` characters is testing for the prefix `t`. -/
theorem strncmp_eq_iff (s t : CStr) : strncmp_eq s t t.length = true ↔ t <+: s := by
  unfold strncmp_eq
  rw [List.take_length, decide_eq_true_eq, List.prefix_iff_eq_take]
  exact eq_comm

/-- Two strings of which neither begins with the other are never both a prefix of one string. -/
theorem prefix_exclusive {a b h : CStr} (hab : (a.isPrefixOf b || b.isPrefixOf a) = false) :
    a <+: h → b <+: h → False := by
  intro pa pb
  rw [Bool.or_eq_false_iff] at hab
  rcases le_total a.length b.length with hl | hl
  · have := List.prefix_of_prefix_length_le pa pb hl
    rw [← List.isPrefixOf_iff_prefix] at this
    simp [this] at hab
  · have := List.prefix_of_prefix_length_le pb pa hl
    rw [← List.isPrefixOf_iff_prefix] at this
    simp [this] at hab

/-- A chain of eight tests with pairwise exclusive conditions picks the verb of the one that holds. -/
theorem pick_verb (p0 p1 p2 p3 p4 p5 p6 p7 : Prop)
    [Decidable p0] [Decidable p1] [Decidable p2] [Decidable p3] [Decidable p4] [Decidable p5]
    [Decidable p6] [Decidable p7]
    (x01 : p0 → ¬p1) (x02 : p0 → ¬p2) (x03 : p0 → ¬p3) (x04 : p0 → ¬p4) (x05 : p0 → ¬p5)
    (x06 : p0 → ¬p6) (x07 : p0 → ¬p7) (x12 : p1 → ¬p2) (x13 : p1 → ¬p3) (x14 : p1 → ¬p4)
    (x15 : p1 → ¬p5) (x16 : p1 → ¬p6) (x17 : p1 → ¬p7) (x23 : p2 → ¬p3) (x24 : p2 → ¬p4)
    (x25 : p2 → ¬p5) (x26 : p2 → ¬p6) (x27 : p2 → ¬p7) (x34 : p3 → ¬p4) (x35 : p3 → ¬p5)
    (x36 : p3 → ¬p6) (x37 : p3 → ¬p7) (x45 : p4 → ¬p5) (x46 : p4 → ¬p6) (x47 : p4 → ¬p7)
    (x56 : p5 → ¬p6) (x57 : p5 → ¬p7) (x67 : p6 → ¬p7) (v : verb)
    (hv : v = if p0 then verb.GET else if p1 then verb.HEAD else if p2 then verb.POST
      else if p3 then verb.PUT else if p4 then verb.DELETE else if p5 then verb.CONNECT
      else if p6 then verb.OPTIONS else if p7 then verb.TRACE else verb.V_UNKNOWN) :
    (v = verb.GET ↔ p0) ∧ (v = verb.HEAD ↔ p1) ∧ (v = verb.POST ↔ p2) ∧ (v = verb.PUT ↔ p3)
    ∧ (v = verb.DELETE ↔ p4) ∧ (v = verb.CONNECT ↔ p5) ∧ (v = verb.OPTIONS ↔ p6)
    ∧ (v = verb.TRACE ↔ p7)
    ∧ (v = verb.V_UNKNOWN ↔ ¬p0 ∧ ¬p1 ∧ ¬p2 ∧ ¬p3 ∧ ¬p4 ∧ ¬p5 ∧ ¬p6 ∧ ¬p7) := by
  subst hv
  by_cases c0 : p0
  · simp [c0, x01 c0, x02 c0, x03 c0, x04 c0, x05 c0, x06 c0, x07 c0]
  by_cases c1 : p1
  · simp [c0, c1, x12 c1, x13 c1, x14 c1, x15 c1, x16 c1, x17 c1]
  by_cases c2 : p2
  · simp [c0, c1, c2, x23 c2, x24 c2, x25 c2, x26 c2, x27 c2]
  by_cases c3 : p3
  · simp [c0, c1, c2, c3, x34 c3, x35 c3, x36 c3, x37 c3]
  by_cases c4 : p4
  · simp [c0, c1, c2, c3, c4, x45 c4, x46 c4, x47 c4]
  by_cases c5 : p5
  · simp [c0, c1, c2, c3, c4, c5, x56 c5, x57 c5]
  by_cases c6 : p6
  · simp [c0, c1, c2, c3, c4, c5, c6, x67 c6]
  by_cases c7 : p7
  · simp [c0, c1, c2, c3, c4, c5, c6, c7]
  · simp [c0, c1, c2, c3, c4, c5, c6, c7]

/-- `strstr` finds `needle` exactly when it occurs in `s`. -/
theorem strstr_isSome_iff (s needle : CStr) : strstr s needle ≠ none ↔ needle <:+: s := by
  induction s with
  | nil =>
    cases needle <;> simp [strstr]
  | cons x xs ih =>
    rw [List.infix_cons_iff, ← ih]
    by_cases hp : needle.isPrefixOf (x :: xs) = true
    · simp [strstr, hp, List.isPrefixOf_iff_prefix.mp hp]
    · have hn : ¬ needle <+: x :: xs := fun hh => hp (List.isPrefixOf_iff_prefix.mpr hh)
      simp [strstr, hp, hn]

/-- `strchr` finds `c` exactly when it occurs in `s`. -/
theorem strchr_isSome_iff (s : CStr) (c : Char) : strchr s c ≠ none ↔ c ∈ s := by
  induction s with
  | nil => simp [strchr]
  | cons x xs ih =>
    by_cases hx : x = c
    · simp [strchr, hx]
    · have hx2 : ¬ c = x := fun hh => hx hh.symm
      simp only [strchr, hx, if_false, List.mem_cons, hx2, false_or, ← ih]
      cases strchr xs c <;> simp

/-- Writing a body adds one call, not a file-system one. -/
theorem send_body_trace (buff : CStr) (req : request_info) (sys : Sys) :
    ∃ new, (send_body buff req sys).sys.trace = sys.trace ++ new ∧ ∀ e ∈ new, e.isFs = false := by
  refine ⟨[Event.write_all_to_socket buff req.progress
    (if req.progress = 0 then some buff.length else none)], ?_, by simp [Event.isFs]⟩
  unfold send_body
  simp only [Sys.call]
  split <;> rfl

/-- `send_status_n` adds two calls, neither a file-system one. -/
theorem send_status_n_trace (env : Env) (status : Nat) (req : request_info) (n : Nat) (sys : Sys) :
    ∃ new, (send_status_n env status req n sys).sys.trace = sys.trace ++ new
      ∧ ∀ e ∈ new, e.isFs = false := by
  unfold send_status_n
  simp only [Sys.call, Sys.note]
  split <;> exact ⟨_, List.append_assoc _ _ _, by simp [Event.isFs]⟩

/-- Sending a synthesized page makes no file-system call. -/
theorem send_page_trace (env : Env) (buff : CStr) (req : request_info) (sys : Sys) :
    ∃ new, (send_page env buff req sys).sys.trace = sys.trace ++ new ∧ ∀ e ∈ new, e.isFs = false := by
  unfold send_page
  obtain ⟨n1, h1, f1⟩ := send_status_n_trace env 200 req buff.length sys
  by_cases a : req.stage = 1
  · rw [if_pos a]
    dsimp only
    split_ifs with b c
    · exact ⟨n1, h1, f1⟩
    · obtain ⟨n2, h2, f2⟩ := send_body_trace buff
        { (send_status_n env 200 req buff.length sys).conn with
          stage := addSz (send_status_n env 200 req buff.length sys).conn.stage 1, progress := 0 }
        (send_status_n env 200 req buff.length sys).sys
      refine ⟨n1 ++ n2, ?_, ?_⟩
      · rw [h2, h1, List.append_assoc]
      · intro e he
        rcases List.mem_append.mp he with h | h
        · exact f1 e h
        · exact f2 e h
    · exact ⟨n1, h1, f1⟩
  · rw [if_neg a]
    split_ifs with b
    · exact send_body_trace buff req sys
    · exact ⟨[], by simp, by simp⟩

/-- `send_error` records itself and then makes no file-system call. -/
theorem send_error_trace (env : Env) (status : Nat) (req : request_info) (sys : Sys) :
    ∃ new, (send_error env status req sys).sys.trace = sys.trace ++ Event.send_error status :: new
      ∧ ∀ e ∈ new, e.isFs = false := by
  obtain ⟨n, h, f⟩ := send_page_trace env (error_page status) req
    (sys.note (Event.send_error status) none)
  refine ⟨n, ?_, f⟩
  unfold send_error
  rw [h]
  simp [Sys.note]

/-- The shared tail of the writers changes no field other than `progress`. -/
theorem after_io_fields (req : request_info) (o : IOOutcome) (sys : Sys) :
    (after_io req o sys).1.response_h = req.response_h
    ∧ (after_io req o sys).1.stage = req.stage
    ∧ (after_io req o sys).1.request_h = req.request_h
    ∧ (after_io req o sys).1.range_start = req.range_start
    ∧ (after_io req o sys).1.range_end = req.range_end
    ∧ (after_io req o sys).1.req_type = req.req_type := by
  unfold after_io
  dsimp only
  split_ifs <;> simp

/-- `send_status_n` leaves in `response_h` the head it formats when the buffer was empty. -/
theorem send_status_n_response_h (env : Env) (status : Nat) (req : request_info) (n : Nat)
    (sys : Sys) (hempty : req.response_h.getD [] = []) :
    (send_status_n env status req n sys).conn.response_h = some (response_head env status req n)
    ∧ (send_status_n env status req n sys).conn.stage = req.stage := by
  unfold send_status_n
  dsimp only
  split <;> simp [(after_io_fields _ _ _).1, (after_io_fields _ _ _).2.1, hempty]

/-- Writing a body leaves `response_h` alone. -/
theorem send_body_response_h (buff : CStr) (req : request_info) (sys : Sys) :
    (send_body buff req sys).conn.response_h = req.response_h := by
  unfold send_body
  dsimp only
  split <;> simp [(after_io_fields _ _ _).1]

/-- At stage 1 a synthesized page is sent under the head formatted for status 200. -/
theorem send_page_response_h (env : Env) (buff : CStr) (req : request_info) (sys : Sys)
    (hstage : req.stage = 1) (hempty : req.response_h.getD [] = []) :
    (send_page env buff req sys).conn.response_h
      = some (response_head env 200 req buff.length) := by
  have h1 := send_status_n_response_h env 200 req buff.length sys hempty
  unfold send_page
  rw [if_pos hstage]
  dsimp only
  split_ifs with b c
  · exact h1.1
  · rw [send_body_response_h]; exact h1.1
  · exact h1.1

/-- The head formatted for status 200 opens with the line `HTTP/1.1 200 OK`. -/
theorem response_head_opens_200 (env : Env) (req : request_info) (n : Nat) :
    "HTTP/1.1 200 OK\n".toList <+: response_head env 200 req n := by
  have e : status_line 200 ++ "\n".toList = "HTTP/1.1 200 OK\n".toList := by decide
  unfold response_head
  rw [← e]
  simp only [List.append_assoc]
  exact ⟨_, rfl⟩

/-- At a stage other than 1 and 2 `send_error` formats nothing, writes nothing and reaches the
end of the function without a `return`. -/
theorem send_error_other_stage (env : Env) (status : Nat) (req : request_info) (sys : Sys)
    (h1 : req.stage ≠ 1) (h2 : req.stage ≠ 2) :
    send_error env status req sys
      = { ret := Ret.noReturn, conn := req, sys := sys.note (Event.send_error status) none } := by
  simp [send_error, send_page, h1, h2]

/-- The checks of `get_header` on a connection in stage 0 are quiet. -/
theorem check_header_quiet (env : Env) (h : CStr) (req : request_info) (sys : Sys)
    (hstage : req.stage = 0) : Quiet req sys (check_header env h req sys) := by
  have q1 : ∀ ret, Quiet req sys { ret := ret, conn := req, sys := sys } :=
    fun ret => ⟨rfl, [], by simp, by simp⟩
  have q2 : ∀ status, Quiet req sys (send_error env status req sys) := by
    intro status
    rw [send_error_other_stage env status req sys (by omega) (by omega)]
    exact ⟨rfl, [Event.send_error status], rfl, by simp [Event.isWrite]⟩
  have q3 : Quiet req sys (accept_header h req sys) := ⟨rfl, [], by simp [accept_header], by simp⟩
  unfold check_header
  repeat' split
  all_goals first | exact q1 _ | exact q2 _ | exact q3

/-- In stage 0 `get_header` keeps `response_h` and adds no call that writes to the socket. -/
theorem get_header_quiet (env : Env) (req : request_info) (sys : Sys) (hstage : req.stage = 0) :
    Quiet req sys (get_header env req sys) := by
  have hfields := after_io_fields { req with request_h := some (read_buffer env req sys) }
    sys.next (sys_after_read env req sys)
  have hq := check_header_quiet env (cstr (read_buffer env req sys))
    (conn_after_read env req sys) (sys_after_read env req sys)
    (by unfold conn_after_read; rw [hfields.2.1]; exact hstage)
  have hread : ∀ e ∈ [Event.read_header req.progress (subSz env.MAX_HEADER_SIZE req.progress)],
      e.isWrite = false := by simp [Event.isWrite]
  unfold get_header
  by_cases hret : sys.next.ret = -1
  · rw [if_pos hret, send_error_other_stage env 413 _ _ (by simp [hstage]) (by simp [hstage])]
    exact ⟨rfl, [_, _], List.append_assoc _ _ _, by simp [Event.isWrite]⟩
  · rw [if_neg hret]
    split
    · exact ⟨hfields.1, [_], rfl, hread⟩
    · obtain ⟨hr, new, ht, hn⟩ := hq
      refine ⟨hr.trans hfields.1,
        Event.read_header req.progress (subSz env.MAX_HEADER_SIZE req.progress) :: new, ?_, ?_⟩
      · rw [ht]; simp [sys_after_read, Sys.call]
      · intro e he
        rcases List.mem_cons.mp he with rfl | h
        · rfl
        · exact hn e h

/-- An offset `strchr` returns lies inside the string. -/
theorem strchr_lt (s : CStr) (c : Char) (k : Nat) (h : strchr s c = some k) : k < s.length := by
  induction s generalizing k with
  | nil => simp [strchr] at h
  | cons x xs ih =>
    by_cases hx : x = c
    · simp [strchr, hx] at h
      subst h
      simp
    · simp only [strchr, hx, if_false, Option.map_eq_some'] at h
      obtain ⟨a, ha, rfl⟩ := h
      have := ih a ha
      simp
      omega

/-- The cast to `int` keeps a length below 2^31. -/
theorem toInt32_small (j : Nat) (hj : j < 2 ^ 31) : toInt32 (j : Int) = (j : Int) := by
  unfold toInt32
  omega

/-- After a read without I/O error `get_header` is the chain of its three checks on the head. -/
theorem get_header_checks (env : Env) (req : request_info) (sys : Sys) (h : CStr) (i j : Nat)
    (hr : ReadsHead env req sys h i j) :
    get_header env req sys =
      if "\n\n".toList <:+: h ∨ ¬ "HTTP/".toList <+: h.drop (i + 1 + j + 1) then
        send_error env 400 (conn_after_read env req sys) (sys_after_read env req sys)
      else if env.MAX_PATHNAME_SIZE < j then
        send_error env 414 (conn_after_read env req sys) (sys_after_read env req sys)
      else if ¬ "Host:".toList <:+: h then
        send_error env 400 (conn_after_read env req sys) (sys_after_read env req sys)
      else accept_header h (conn_after_read env req sys) (sys_after_read env req sys) := by
  obtain ⟨hret, herr, hh, hne, hlen, hi, hj⟩ := hr
  have hio : (after_io { req with request_h := some (read_buffer env req sys) } sys.next
      (sys_after_read env req sys)).2 = none := by
    simp [after_io, herr, EWOULDBLOCK, EAGAIN, SIGPIPE]
  have hjlt : j < 2 ^ 31 := by
    have h1 := strchr_lt _ _ _ hj
    rw [List.length_drop] at h1
    omega
  have hcast : toInt32 (((i + 1 + j + 1 : Nat) : Int) - ((i + 1 : Nat) : Int) - 1) = (j : Int) := by
    have : (((i + 1 + j + 1 : Nat) : Int) - ((i + 1 : Nat) : Int) - 1) = (j : Int) := by
      push_cast; ring
    rw [this, toInt32_small j hjlt]
  have hproto : strncmp_eq (h.drop (i + 1 + j + 1)) "HTTP/".toList 5 = true
      ↔ "HTTP/".toList <+: h.drop (i + 1 + j + 1) := strncmp_eq_iff _ "HTTP/".toList
  have hlen0 : h.length ≠ 0 := fun h0 => hne (List.length_eq_zero.mp h0)
  unfold get_header
  rw [if_neg hret, hio]
  dsimp only
  rw [hh]
  unfold check_header
  rw [if_neg hlen0, hi]
  dsimp only
  rw [hj]
  dsimp only
  rw [hcast]
  have e1 : strstr h "\n\n".toList ≠ none ↔ "\n\n".toList <:+: h := strstr_isSome_iff _ _
  have e2 : strncmp_eq (h.drop (i + 1 + j + 1)) "HTTP/".toList 5 = false
      ↔ ¬ "HTTP/".toList <+: h.drop (i + 1 + j + 1) := by
    rw [← hproto, Bool.not_eq_true]
  have e3 : (j : Int) > (env.MAX_PATHNAME_SIZE : Int) ↔ env.MAX_PATHNAME_SIZE < j := by
    constructor <;> intro hh <;> omega
  have e4 : strstr h "Host:".toList = none ↔ ¬ "Host:".toList <:+: h := by
    rw [← strstr_isSome_iff, not_not]
  simp only [e1, e2, e3, e4]

/-- A literal of a format matches only a string that begins with it. -/
theorem match_lit_none (lit s : CStr) (h : ¬ lit <+: s) : match_lit lit s = none := by
  induction lit generalizing s with
  | nil => exact absurd (List.nil_prefix) h
  | cons l ls ih =>
    cases s with
    | nil => rfl
    | cons x xs =>
      by_cases hx : l = x
      · subst hx
        simp only [match_lit, if_true]
        exact ih xs (fun hp => h ((List.cons_prefix_cons).mpr ⟨rfl, hp⟩))
      · simp [match_lit, hx]

/-- The pair `sscanf` leaves when the head does not begin with `Range:` is the pair it found. -/
theorem sscanf_range_no_match (h : CStr) (rs re : Nat) (hn : ¬ "Range:".toList <+: h) :
    sscanf_range h rs re = (rs, re) := by
  unfold sscanf_range
  rw [match_lit_none _ _ hn]

/-- What `accept_header` returns. -/
theorem accept_header_ret (h : CStr) (req : request_info) (sys : Sys) :
    (accept_header h req sys).ret = Ret.val 1 ∧ (accept_header h req sys).conn.stage = 1
      ∧ (accept_header h req sys).conn.progress = 0 ∧ (accept_header h req sys).sys = sys :=
  ⟨rfl, rfl, rfl, rfl⟩

/-- Two `send_error` calls with different statuses give different results. -/
theorem send_error_status_injective (env : Env) (a b : Nat) (req : request_info) (sys : Sys)
    (hab : a ≠ b) : send_error env a req sys ≠ send_error env b req sys := by
  intro heq
  obtain ⟨n1, h1, _⟩ := send_error_trace env a req sys
  obtain ⟨n2, h2, _⟩ := send_error_trace env b req sys
  rw [heq, h2] at h1
  have := List.append_cancel_left h1
  injection this with h3 _
  injection h3 with h4
  exact hab h4.symm

/-- Subtraction on `size_t` is subtraction when nothing wraps. -/
theorem subSz_eq (a b : Nat) (hb : b ≤ a) (ha : a < 2 ^ 64) : subSz a b = a - b := by
  unfold subSz SIZE_MOD
  rw [Nat.mod_eq_of_lt (by omega : b < 2 ^ 64)]
  rw [show a + 2 ^ 64 - b = (a - b) + 2 ^ 64 by omega, Nat.add_mod_right]
  exact Nat.mod_eq_of_lt (by omega)

/-- Adding 0 on `size_t`. -/
theorem addSz_zero (a : Nat) (ha : a < 2 ^ 64) : addSz a 0 = a := by
  unfold addSz SIZE_MOD
  exact Nat.mod_eq_of_lt (by simpa using ha)

/-- `set_mime_type` changes `mime_type` only. -/
theorem set_mime_type_fields (env : Env) (path : CStr) (req : request_info) :
    (set_mime_type env path req).range_start = req.range_start
    ∧ (set_mime_type env path req).range_end = req.range_end
    ∧ (set_mime_type env path req).stage = req.stage
    ∧ (set_mime_type env path req).req_type = req.req_type
    ∧ (set_mime_type env path req).progress = req.progress := by
  unfold set_mime_type
  split_ifs <;> exact ⟨rfl, rfl, rfl, rfl, rfl⟩

/-- The body loop changes `progress` only. -/
theorem get_loop_fields (fuel : Nat) (req : request_info) (ws : Int) (errno size : Nat) :
    (get_loop fuel req ws errno size).2.range_end = req.range_end
    ∧ (get_loop fuel req ws errno size).2.range_start = req.range_start := by
  induction fuel generalizing req with
  | zero => exact ⟨rfl, rfl⟩
  | succ k ih =>
    unfold get_loop
    dsimp only
    split_ifs <;> first
      | exact ⟨rfl, rfl⟩
      | (refine ⟨(ih _).1.trans ?_, (ih _).2.trans ?_⟩ <;> rfl)

/-- `send_status_n` keeps the range, the stage and the method, and records its two calls. -/
theorem send_status_n_fields (env : Env) (status : Nat) (req : request_info) (n : Nat)
    (sys : Sys) :
    (send_status_n env status req n sys).conn.range_end = req.range_end
    ∧ (send_status_n env status req n sys).conn.range_start = req.range_start
    ∧ (send_status_n env status req n sys).conn.stage = req.stage
    ∧ (send_status_n env status req n sys).conn.req_type = req.req_type
    ∧ ∃ head, (send_status_n env status req n sys).sys.trace
        = sys.trace ++ [Event.send_status_n status n,
            Event.write_all_to_socket head req.progress (some (subSz head.length req.progress))] := by
  unfold send_status_n
  dsimp only
  split <;>
    exact ⟨(after_io_fields _ _ _).2.2.2.2.1, (after_io_fields _ _ _).2.2.2.1,
      (after_io_fields _ _ _).2.1, (after_io_fields _ _ _).2.2.2.2.2, _,
      List.append_assoc _ _ _⟩

/-- `send_status_n` returns 1 when the write leaves `errno` at 0. -/
theorem send_status_n_done (env : Env) (status : Nat) (req : request_info) (n : Nat)
    (sys : Sys) (hw : sys.next.errno.getD sys.errno = 0) :
    (send_status_n env status req n sys).ret = Ret.val 1 := by
  unfold send_status_n
  dsimp only
  have : ∀ r o (y : Sys), y.errno = 0 → (after_io r o y).2 = none := by
    intro r o y hy
    simp [after_io, hy, EWOULDBLOCK, EAGAIN, SIGPIPE]
  rw [this _ _ _ (by simpa [Sys.call, Sys.note, Sys.next] using hw)]

/-- Stage 2 of `get` for a GET request: the file is opened and one transfer is asked for. -/
theorem get_body_trace (env : Env) (fuel : Nat) (path : CStr) (size : Nat) (req : request_info)
    (sys : Sys) (hstage : req.stage = 2) (hverb : req.req_type ≠ some verb.HEAD) :
    (get_body env fuel path size req sys).sys.trace
      = sys.trace ++ [Event.fopen path,
          Event.write_all_to_socket_from_file path (decide (env.fopen path = none))
            (subSz (subSz req.range_end req.range_start) req.progress)
            (addSz req.range_start req.progress)]
    ∧ (get_body env fuel path size req sys).conn.range_end = req.range_end := by
  unfold get_body
  rw [if_pos hstage, if_neg hverb]
  dsimp only
  split_ifs <;>
    exact ⟨by simp [Sys.call, Sys.note], by first | rfl | exact (get_loop_fields _ _ _ _ _).1⟩

/-- Stage 2 of `get` never changes `range_end`. -/
theorem get_body_range_end (env : Env) (fuel : Nat) (path : CStr) (size : Nat)
    (req : request_info) (sys : Sys) :
    (get_body env fuel path size req sys).conn.range_end = req.range_end := by
  unfold get_body
  dsimp only
  split_ifs <;> first | rfl | exact (get_loop_fields _ _ _ _ _).1

/-- What `clamp_range` leaves. -/
theorem clamp_range_fields (req : request_info) (n : Nat) :
    (clamp_range req n).range_end = (if req.range_end = 0 then n else min req.range_end n)
    ∧ (clamp_range req n).range_start = req.range_start
    ∧ (clamp_range req n).stage = req.stage
    ∧ (clamp_range req n).req_type = req.req_type
    ∧ (clamp_range req n).progress = req.progress := by
  unfold clamp_range
  by_cases h0 : req.range_end = 0
  · simp [h0]
  · by_cases h1 : req.range_end ≤ n
    · simp [h0, h1]
    · simp [h0, h1]
      omega

/-- The end of the window after lines 579-584 of `get`: the size for 0, else the smaller of
the parsed end and the size. -/
theorem get_file_range_end_eq (env : Env) (fuel : Nat) (path : CStr) (req : request_info)
    (sys : Sys) (n : Nat) (hstat : env.stat path = Except.ok n) :
    (get_file env fuel path req sys).conn.range_end
      = if req.range_end = 0 then n else min req.range_end n := by
  have key : (set_mime_type env path (clamp_range req n)).range_end
      = if req.range_end = 0 then n else min req.range_end n :=
    (set_mime_type_fields env path _).2.1.trans (clamp_range_fields req n).1
  generalize (if req.range_end = 0 then n else min req.range_end n) = tgt at key ⊢
  unfold get_file
  rw [hstat]
  dsimp only
  split_ifs
  · exact (send_status_n_fields _ _ _ _ _).1.trans key
  · exact (get_body_range_end _ _ _ _ _ _).trans ((send_status_n_fields _ _ _ _ _).1.trans key)
  · exact (get_body_range_end _ _ _ _ _ _).trans key

/-- A GET in stage 1 whose head goes out in one write: `get` announces `e - s` bytes and asks for
the transfer of `e - s` bytes from offset `s`, where `e` is the end of the window after
clamping and `s` its start. -/
theorem get_file_served (env : Env) (fuel : Nat) (path : CStr) (req : request_info) (sys : Sys)
    (n e : Nat) (hstat : env.stat path = Except.ok n) (hstage : req.stage = 1)
    (he : e = if req.range_end = 0 then n else min req.range_end n)
    (hs : req.range_start ≤ e) (hn : n < 2 ^ 64)
    (hverb : req.req_type ≠ some verb.HEAD) (hw : sys.next.errno.getD sys.errno = 0) :
    ∃ head, (get_file env fuel path req sys).sys.trace
      = sys.trace ++ [Event.stat path, Event.send_status_n 200 (e - req.range_start),
          Event.write_all_to_socket head req.progress (some (subSz head.length req.progress)),
          Event.fopen path,
          Event.write_all_to_socket_from_file path (decide (env.fopen path = none))
            (e - req.range_start) req.range_start] := by
  have hc := clamp_range_fields req n
  have hm := set_mime_type_fields env path (clamp_range req n)
  have hen : e ≤ n := by
    rw [he]; split_ifs <;> omega
  have r_end : (set_mime_type env path (clamp_range req n)).range_end = e := by
    rw [hm.2.1, hc.1, he]
  have r_start : (set_mime_type env path (clamp_range req n)).range_start = req.range_start := by
    rw [hm.1, hc.2.1]
  have r_stage : (set_mime_type env path (clamp_range req n)).stage = 1 := by
    rw [hm.2.2.1, hc.2.2.1, hstage]
  have r_verb : (set_mime_type env path (clamp_range req n)).req_type = req.req_type := by
    rw [hm.2.2.2.1, hc.2.2.2.1]
  have r_prog : (set_mime_type env path (clamp_range req n)).progress = req.progress := by
    rw [hm.2.2.2.2, hc.2.2.2.2]
  have hsub : subSz e req.range_start = e - req.range_start := subSz_eq _ _ hs (by omega)
  have hf := send_status_n_fields env 200 (set_mime_type env path (clamp_range req n))
    (subSz e req.range_start) (sys.note (Event.stat path) none)
  have hd := send_status_n_done env 200 (set_mime_type env path (clamp_range req n))
    (subSz e req.range_start) (sys.note (Event.stat path) none) (by simpa [Sys.note, Sys.next] using hw)
  obtain ⟨f1, f2, f3, f4, head, f5⟩ := hf
  refine ⟨head, ?_⟩
  unfold get_file
  rw [hstat]
  dsimp only
  rw [if_pos r_stage, r_end, r_start, if_neg (by rw [hd]; simp)]
  have hb := get_body_trace env fuel path n
    { (send_status_n env 200 (set_mime_type env path (clamp_range req n))
        (subSz e req.range_start) (sys.note (Event.stat path) none)).conn with
      stage := addSz (send_status_n env 200 (set_mime_type env path (clamp_range req n))
        (subSz e req.range_start) (sys.note (Event.stat path) none)).conn.stage 1,
      progress := 0 }
    (send_status_n env 200 (set_mime_type env path (clamp_range req n))
        (subSz e req.range_start) (sys.note (Event.stat path) none)).sys
    (by simp [f3, r_stage, addSz, SIZE_MOD]) (by simp [f4, r_verb, hverb])
  refine hb.1.trans ?_
  dsimp only
  rw [f5, f1, f2, r_end, r_start, r_prog, hsub,
    subSz_eq _ _ (Nat.zero_le _) (by omega), addSz_zero _ (by omega)]
  simp [Sys.note]

/-- For a token with a dot and without "..", naming an existing path, `get` makes its three
`access` tests on root ++ token and goes on to the file stage with that path. -/
theorem get_existing_dotted (env : Env) (fuel : Nat) (req : request_info) (sys : Sys)
    (token : CStr) (htok : sscanf_path (cstr (req.request_h.getD [])) = some token)
    (hdot : '.' ∈ env.root_site ++ token) (hnd : ¬ "..".toList <:+: env.root_site ++ token)
    (hacc : env.access (env.root_site ++ token) = none) :
    get env fuel req sys
      = get_file env fuel (env.root_site ++ token) req
          { sys with trace := sys.trace ++ [Event.access (env.root_site ++ token),
              Event.access (env.root_site ++ token), Event.access (env.root_site ++ token)] } := by
  have h1 : ¬ strchr (env.root_site ++ token) '.' = none := (strchr_isSome_iff _ _).mpr hdot
  have h2 : ¬ strstr (env.root_site ++ token) "..".toList ≠ none :=
    fun hh => hnd ((strstr_isSome_iff _ _).mp hh)
  unfold get
  rw [htok]
  dsimp only
  rw [if_neg h1, if_neg h2]
  unfold get_lookup get_resolve
  simp [hacc, Sys.note]

/-- What `"%.*s"` prints of the empty string. -/
theorem fmt_prec_nil (n : Int) : fmt_prec n [] = [] := by
  unfold fmt_prec
  split_ifs <;> simp

/-- The log line of a connection whose head is empty fits the array `message`. -/
theorem log_fits_empty (env : Env) (req : request_info)
    (h : cstr (req.request_h.getD []) = []) : log_overruns env req = false := by
  have h1 : "[".toList.length = 1 := rfl
  have h2 : "] \"".toList.length = 3 := rfl
  have h3 : "\"\n".toList.length = 2 := rfl
  have h4 : (req.ip.take 15).length ≤ 15 := by
    rw [List.length_take]
    exact Nat.min_le_left _ _
  unfold log_overruns log_message
  rw [h, fmt_prec_nil, Bool.and_eq_false_imp]
  intro _
  rw [decide_eq_false_iff_not]
  simp only [List.length_append, h1, h2, h3, List.length_nil]
  omega

/-- A head that begins with `Range:` has none of the nine methods. -/
theorem check_verb_of_range (h : CStr) (hp : "Range:".toList <+: h) :
    check_verb h = verb.V_UNKNOWN := by
  obtain ⟨t, rfl⟩ := hp
  show check_verb ('R' :: 'a' :: 'n' :: 'g' :: 'e' :: ':' :: t) = verb.V_UNKNOWN
  simp [check_verb, strncmp_eq]

/-- The shared tail of the writers returns 0 or 3 when it returns. -/
theorem after_io_ret (req : request_info) (o : IOOutcome) (sys : Sys) (r : Ret)
    (h : (after_io req o sys).2 = some r) : r ≠ Ret.val 1 ∧ r ≠ Ret.fault := by
  unfold after_io at h
  dsimp only at h
  split_ifs at h <;> simp at h <;> subst h <;> simp

/-- For a head classified GET or HEAD the accepted connection has the window 0, 0. -/
theorem accept_header_window (h : CStr) (req : request_info) (sys : Sys)
    (hv : check_verb h = verb.GET ∨ check_verb h = verb.HEAD) :
    (accept_header h req sys).conn.range_start = 0
      ∧ (accept_header h req sys).conn.range_end = 0 := by
  have hn : ¬ "Range:".toList <+: h := by
    intro hp
    rw [check_verb_of_range h hp] at hv
    rcases hv with hv | hv <;> cases hv
  unfold accept_header
  dsimp only
  split_ifs
  · rw [sscanf_range_no_match h 0 0 hn]
    exact ⟨rfl, rfl⟩
  · exact ⟨rfl, rfl⟩

/-- The checks of `get_header` on a connection in stage 0 whose buffer holds the head `h`. -/
theorem check_header_conn (env : Env) (h : CStr) (req : request_info) (sys : Sys)
    (hstage : req.stage = 0) (hh : cstr (req.request_h.getD []) = h) :
    (check_header env h req sys).conn.req_type = req.req_type
    ∧ ((check_header env h req sys).ret ≠ Ret.val 1 →
        (check_header env h req sys).conn.stage = 0)
    ∧ ((check_header env h req sys).ret = Ret.val 1 →
        (check_verb (cstr ((check_header env h req sys).conn.request_h.getD [])) = verb.GET
          ∨ check_verb (cstr ((check_header env h req sys).conn.request_h.getD [])) = verb.HEAD) →
        (check_header env h req sys).conn.range_start = 0
          ∧ (check_header env h req sys).conn.range_end = 0) := by
  have q1 : ∀ o : Out, o = { ret := Ret.fault, conn := req, sys := sys } →
      o.conn.req_type = req.req_type ∧ (o.ret ≠ Ret.val 1 → o.conn.stage = 0)
      ∧ (o.ret = Ret.val 1 →
        (check_verb (cstr (o.conn.request_h.getD [])) = verb.GET
          ∨ check_verb (cstr (o.conn.request_h.getD [])) = verb.HEAD) →
        o.conn.range_start = 0 ∧ o.conn.range_end = 0) := by
    intro o ho
    subst ho
    exact ⟨rfl, fun _ => hstage, fun hr => by cases hr⟩
  have q2 : ∀ status, ∀ o : Out, o = send_error env status req sys →
      o.conn.req_type = req.req_type ∧ (o.ret ≠ Ret.val 1 → o.conn.stage = 0)
      ∧ (o.ret = Ret.val 1 →
        (check_verb (cstr (o.conn.request_h.getD [])) = verb.GET
          ∨ check_verb (cstr (o.conn.request_h.getD [])) = verb.HEAD) →
        o.conn.range_start = 0 ∧ o.conn.range_end = 0) := by
    intro status o ho
    rw [send_error_other_stage env status req sys (by omega) (by omega)] at ho
    subst ho
    exact ⟨rfl, fun _ => hstage, fun hr => by cases hr⟩
  have q3 : ∀ o : Out, o = accept_header h req sys →
      o.conn.req_type = req.req_type ∧ (o.ret ≠ Ret.val 1 → o.conn.stage = 0)
      ∧ (o.ret = Ret.val 1 →
        (check_verb (cstr (o.conn.request_h.getD [])) = verb.GET
          ∨ check_verb (cstr (o.conn.request_h.getD [])) = verb.HEAD) →
        o.conn.range_start = 0 ∧ o.conn.range_end = 0) := by
    intro o ho
    subst ho
    refine ⟨rfl, fun hr => absurd rfl hr, fun _ hv => ?_⟩
    have e : (accept_header h req sys).conn.request_h = req.request_h := rfl
    rw [e, hh] at hv
    exact accept_header_window h req sys hv
  have q4 : h.length = 0 → ∀ o : Out, o = { ret := Ret.val 1, conn := req, sys := sys } →
      o.conn.req_type = req.req_type ∧ (o.ret ≠ Ret.val 1 → o.conn.stage = 0)
      ∧ (o.ret = Ret.val 1 →
        (check_verb (cstr (o.conn.request_h.getD [])) = verb.GET
          ∨ check_verb (cstr (o.conn.request_h.getD [])) = verb.HEAD) →
        o.conn.range_start = 0 ∧ o.conn.range_end = 0) := by
    intro h0 o ho
    subst ho
    refine ⟨rfl, fun _ => hstage, fun _ hv => ?_⟩
    rw [hh, List.length_eq_zero.mp h0] at hv
    rcases hv with hv | hv <;> exact absurd hv (by decide)
  unfold check_header
  repeat' split
  all_goals first
    | exact q1 _ rfl
    | exact q2 _ _ rfl
    | exact q3 _ rfl
    | exact q4 (by assumption) _ rfl

/-- What `get_header` leaves of a connection in stage 0: the method as it was; the stage at 0
unless it returns 1; and, when it returns 1 on a head classified GET or HEAD, the window 0, 0. -/
theorem get_header_conn (env : Env) (req : request_info) (sys : Sys) (hstage : req.stage = 0) :
    (get_header env req sys).conn.req_type = req.req_type
    ∧ ((get_header env req sys).ret ≠ Ret.val 1 → (get_header env req sys).conn.stage = 0)
    ∧ ((get_header env req sys).ret = Ret.val 1 →
        (check_verb (cstr ((get_header env req sys).conn.request_h.getD [])) = verb.GET
          ∨ check_verb (cstr ((get_header env req sys).conn.request_h.getD [])) = verb.HEAD) →
        (get_header env req sys).conn.range_start = 0
          ∧ (get_header env req sys).conn.range_end = 0) := by
  have hf := after_io_fields { req with request_h := some (read_buffer env req sys) }
    sys.next (sys_after_read env req sys)
  have c_stage : (conn_after_read env req sys).stage = 0 := by
    unfold conn_after_read; rw [hf.2.1]; exact hstage
  have c_type : (conn_after_read env req sys).req_type = req.req_type := by
    unfold conn_after_read; rw [hf.2.2.2.2.2]
  have c_buf : cstr ((conn_after_read env req sys).request_h.getD [])
      = cstr (read_buffer env req sys) := by
    unfold conn_after_read; rw [hf.2.2.1]; rfl
  have hc := check_header_conn env (cstr (read_buffer env req sys)) (conn_after_read env req sys)
    (sys_after_read env req sys) c_stage c_buf
  unfold get_header
  by_cases hret : sys.next.ret = -1
  · rw [if_pos hret, send_error_other_stage env 413 _ _ (by simp [hstage]) (by simp [hstage])]
    exact ⟨rfl, fun _ => hstage, fun hr => by cases hr⟩
  · rw [if_neg hret]
    split
    · next r hr =>
      exact ⟨c_type, fun _ => c_stage, fun h1 => absurd (by simpa using h1) (after_io_ret _ _ _ r hr).1⟩
    · exact ⟨hc.1.trans c_type, hc.2.1, hc.2.2⟩

/-- Lines 277-304 on a connection past stage 0 that has no method yet. -/
theorem dispatch_classifies (env : Env) (fuel : Nat) (req : request_info) (sys : Sys)
    (htype : req.req_type = none) :
    dispatch env fuel req sys
      = dispatch env fuel
          { req with req_type := some (check_verb (cstr (req.request_h.getD []))) } sys := by
  unfold dispatch
  simp [htype]

/-- With a log file configured, an entry past stage 0 whose log line does not fit the array
`message` writes beyond it before the method is looked at. -/
theorem log_overrun_faults (env : Env) (fuel : Nat) (req : request_info) (sys : Sys)
    (hs : req.stage ≠ 0) (hl : log_overruns env req = true) :
    handle_conn env fuel req sys
      = { ret := Ret.fault, conn := req, sys := { sys with errno := 0 } } := by
  unfold handle_conn
  dsimp only
  rw [if_neg hs, log_and_dispatch, if_pos hl]

set_option maxRecDepth 8000 in
/-- A fresh connection that reads a head with a first line of 271 bytes while a log file is
configured: `get_header` admits it, and the `sprintf` of the log line writes beyond
`message[256]` before the method is classified. -/
theorem long_first_line_overruns :
    (get_header logging_env (request_info.fresh 5 "10.0.0.1".toList)
        (example_sys [delivers long_line_head])).ret = Ret.val 1
    ∧ (handle_conn logging_env 8 (request_info.fresh 5 "10.0.0.1".toList)
        (example_sys [delivers long_line_head])).ret = Ret.fault
    ∧ (handle_conn logging_env 8 (request_info.fresh 5 "10.0.0.1".toList)
        (example_sys [delivers long_line_head])).conn.req_type = none := by
  exact ⟨by decide, by decide, by decide⟩

/-! ## C1: paths containing ".." -/

/-- C2 (fails in the code): for a connection at stage 1 with an empty response buffer and any
status `s` of the reason table other than 200, `send_error(fd, s, conn)` leaves in `response_h`
the head formatted for status 200: it opens with `HTTP/1.1 200 OK` and not with the status line
of `s`. -/
theorem send_error_status_line_is_200 (env : Env) (s : Nat) (req : request_info) (sys : Sys)
    (hstage : req.stage = 1) (hempty : req.response_h.getD [] = [])
    (hs : s ∈ [204, 400, 401, 403, 404, 405, 413, 414, 431]) :
    (send_error env s req sys).conn.response_h
        = some (response_head env 200 req (error_page s).length)
      ∧ "HTTP/1.1 200 OK\n".toList <+: response_head env 200 req (error_page s).length
      ∧ ¬ status_line s <+: response_head env 200 req (error_page s).length := by
  refine ⟨?_, response_head_opens_200 _ _ _, ?_⟩
  · unfold send_error
    exact send_page_response_h env _ req _ hstage hempty
  · intro hp
    simp only [List.mem_cons, List.mem_singleton, List.not_mem_nil, or_false] at hs
    rcases hs with rfl | rfl | rfl | rfl | rfl | rfl | rfl | rfl | rfl <;>
      exact prefix_exclusive (by decide) hp (response_head_opens_200 _ _ _)

/-- C2 at `s = 403`: the head sent is the one for 200. -/
theorem send_error_status_line_is_200_witness :
    (example_conn "GET /../etc/passwd HTTP/1.1\r\nHost: x\r\n\r\n".toList).stage = 1
    ∧ (example_conn "GET /../etc/passwd HTTP/1.1\r\nHost: x\r\n\r\n".toList).response_h.getD [] = []
    ∧ 403 ∈ [204, 400, 401, 403, 404, 405, 413, 414, 431]
    ∧ ((send_error example_env 403
          (example_conn "GET /../etc/passwd HTTP/1.1\r\nHost: x\r\n\r\n".toList)
          (example_sys [takes 200, takes 83])).conn.response_h
        = some (response_head example_env 200
            (example_conn "GET /../etc/passwd HTTP/1.1\r\nHost: x\r\n\r\n".toList)
            (error_page 403).length)
      ∧ "HTTP/1.1 200 OK\n".toList <+: response_head example_env 200
            (example_conn "GET /../etc/passwd HTTP/1.1\r\nHost: x\r\n\r\n".toList)
            (error_page 403).length
      ∧ ¬ status_line 403 <+: response_head example_env 200
            (example_conn "GET /../etc/passwd HTTP/1.1\r\nHost: x\r\n\r\n".toList)
            (error_page 403).length) :=
  ⟨by decide, by decide, by decide,
    send_error_status_line_is_200 example_env 403
      (example_conn "GET /../etc/passwd HTTP/1.1\r\nHost: x\r\n\r\n".toList)
      (example_sys [takes 200, takes 83]) (by decide) (by decide) (by decide)⟩

/-! ## C3: rejections of get_header in stage 0 -/

/-- C3 (fails in the code): on a connection in stage 0 `send_error` formats no head, writes
nothing and ends without a `return`; so the 413 rejection of `get_header` yields exactly that,
and whatever `get_header` does in stage 0, `response_h` is unchanged and no call that hands bytes
to the socket is added to the trace. -/
theorem send_error_stage0_silent (env : Env) (req : request_info) (sys : Sys)
    (hstage : req.stage = 0) :
    (∀ status, send_error env status req sys
        = { ret := Ret.noReturn, conn := req, sys := sys.note (Event.send_error status) none })
    ∧ (sys.next.ret = -1 →
        get_header env req sys
          = { ret := Ret.noReturn
              conn := { req with request_h := some (read_buffer env req sys) }
              sys := (sys_after_read env req sys).note (Event.send_error 413) none })
    ∧ (get_header env req sys).conn.response_h = req.response_h
    ∧ (∀ e ∈ (get_header env req sys).sys.trace, e.isWrite = true → e ∈ sys.trace) := by
  refine ⟨fun status => send_error_other_stage env status req sys (by omega) (by omega), ?_, ?_⟩
  · intro hret
    unfold get_header
    simp only [hret, if_true]
    exact send_error_other_stage env 413 _ _ (by simp [hstage]) (by simp [hstage])
  · obtain ⟨hr, new, ht, hn⟩ := get_header_quiet env req sys hstage
    refine ⟨hr, ?_⟩
    intro e he hw
    rw [ht] at he
    rcases List.mem_append.mp he with h | h
    · exact h
    · rw [hn e h] at hw; cases hw

/-- C3 at a fresh connection whose header read reports "too large". -/
theorem send_error_stage0_silent_witness :
    (request_info.fresh 5 "10.0.0.1".toList).stage = 0
    ∧ (example_sys [{ ret := -1, errno := none, data := [] }]).next.ret = -1
    ∧ get_header example_env (request_info.fresh 5 "10.0.0.1".toList)
          (example_sys [{ ret := -1, errno := none, data := [] }])
        = { ret := Ret.noReturn
            conn := { request_info.fresh 5 "10.0.0.1".toList with request_h := some [] }
            sys := { errno := 0, io := [],
                     trace := [Event.read_header 0 4096, Event.send_error 413] } }
    ∧ (get_header example_env (request_info.fresh 5 "10.0.0.1".toList)
          (example_sys [{ ret := -1, errno := none, data := [] }])).conn.response_h = none :=
  ⟨by decide, by decide,
    ((send_error_stage0_silent example_env (request_info.fresh 5 "10.0.0.1".toList)
      (example_sys [{ ret := -1, errno := none, data := [] }]) (by decide)).2.1 (by decide)).trans
      (by decide),
    (send_error_stage0_silent example_env (request_info.fresh 5 "10.0.0.1".toList)
      (example_sys [{ ret := -1, errno := none, data := [] }]) (by decide)).2.2.1⟩

/-! ## C4: the blank-line test -/

/-- C4 (fails in the code): for a head read without I/O error whose first line is
METHOD SP PATH SP HTTP/... with a path of at most `MAX_PATHNAME_SIZE` bytes and which contains
`Host:`, `get_header` takes the 400 branch when the terminator of two line feeds IS in the
buffer, and accepts the head (returns 1 with stage 1 and progress 0) when it is NOT: the
opposite of the claim. -/
theorem blank_line_check_inverted (env : Env) (req : request_info) (sys : Sys) (h : CStr)
    (i j : Nat) (hr : ReadsHead env req sys h i j)
    (hproto : "HTTP/".toList <+: h.drop (i + 1 + j + 1))
    (hpath : j ≤ env.MAX_PATHNAME_SIZE) (hhost : "Host:".toList <:+: h) :
    ("\n\n".toList <:+: h →
        get_header env req sys
          = send_error env 400 (conn_after_read env req sys) (sys_after_read env req sys))
    ∧ (¬ "\n\n".toList <:+: h →
        get_header env req sys
            = accept_header h (conn_after_read env req sys) (sys_after_read env req sys)
          ∧ (get_header env req sys).ret = Ret.val 1
          ∧ (get_header env req sys).conn.stage = 1
          ∧ (get_header env req sys).conn.progress = 0) := by
  have hc := get_header_checks env req sys h i j hr
  constructor
  · intro hb
    rw [hc, if_pos (Or.inl hb)]
  · intro hb
    have e : get_header env req sys
        = accept_header h (conn_after_read env req sys) (sys_after_read env req sys) := by
      rw [hc, if_neg (by tauto), if_neg (by omega), if_neg (by tauto)]
    rw [e]
    exact ⟨rfl, rfl, rfl, rfl⟩

/-- C4 at the head `GET / HTTP/1.1\nHost: x\n\n`, closed by two line feeds: the 400 branch. -/
theorem blank_line_check_inverted_witness :
    ReadsHead example_env (request_info.fresh 5 "10.0.0.1".toList)
        (example_sys [delivers "GET / HTTP/1.1\nHost: x\n\n".toList])
        "GET / HTTP/1.1\nHost: x\n\n".toList 3 1
    ∧ "HTTP/".toList <+: "GET / HTTP/1.1\nHost: x\n\n".toList.drop (3 + 1 + 1 + 1)
    ∧ 1 ≤ example_env.MAX_PATHNAME_SIZE
    ∧ "Host:".toList <:+: "GET / HTTP/1.1\nHost: x\n\n".toList
    ∧ "\n\n".toList <:+: "GET / HTTP/1.1\nHost: x\n\n".toList
    ∧ get_header example_env (request_info.fresh 5 "10.0.0.1".toList)
          (example_sys [delivers "GET / HTTP/1.1\nHost: x\n\n".toList])
        = send_error example_env 400
            (conn_after_read example_env (request_info.fresh 5 "10.0.0.1".toList)
              (example_sys [delivers "GET / HTTP/1.1\nHost: x\n\n".toList]))
            (sys_after_read example_env (request_info.fresh 5 "10.0.0.1".toList)
              (example_sys [delivers "GET / HTTP/1.1\nHost: x\n\n".toList])) :=
  ⟨by unfold ReadsHead; decide, by decide, by decide, by decide, by decide,
    (blank_line_check_inverted example_env (request_info.fresh 5 "10.0.0.1".toList)
      (example_sys [delivers "GET / HTTP/1.1\nHost: x\n\n".toList])
      "GET / HTTP/1.1\nHost: x\n\n".toList 3 1 (by unfold ReadsHead; decide) (by decide)
      (by decide) (by decide)).1 (by decide)⟩

/-! ## C5: check_verb -/

/-- C5: `check_verb h` is GET, HEAD, POST, PUT, DELETE, CONNECT, OPTIONS or TRACE exactly when
`h` begins with that name in upper case followed by a space, and V_UNKNOWN exactly when it begins
with none of them; heads beginning "get " or "FROBNICATE " give V_UNKNOWN.  `handle_request`
hands a head that classifies as V_UNKNOWN to `v_unknown`, the handler that calls `send_error`
with 400: on the entry in which `get_header` returns 1 for a connection in stage 0 with no
method yet, and on a later entry of a connection whose method is V_UNKNOWN, each time once the
access-log block before the classification (lines 265-275) is passed. -/
theorem check_verb_classifies (env : Env) (fuel : Nat) (table : List (Option request_info))
    (fd : Nat) (req : request_info) (sys : Sys) (h : CStr) :
    (check_verb h = verb.GET ↔ "GET ".toList <+: h)
    ∧ (check_verb h = verb.HEAD ↔ "HEAD ".toList <+: h)
    ∧ (check_verb h = verb.POST ↔ "POST ".toList <+: h)
    ∧ (check_verb h = verb.PUT ↔ "PUT ".toList <+: h)
    ∧ (check_verb h = verb.DELETE ↔ "DELETE ".toList <+: h)
    ∧ (check_verb h = verb.CONNECT ↔ "CONNECT ".toList <+: h)
    ∧ (check_verb h = verb.OPTIONS ↔ "OPTIONS ".toList <+: h)
    ∧ (check_verb h = verb.TRACE ↔ "TRACE ".toList <+: h)
    ∧ (check_verb h = verb.V_UNKNOWN ↔
        ¬ "GET ".toList <+: h ∧ ¬ "HEAD ".toList <+: h ∧ ¬ "POST ".toList <+: h ∧ ¬ "PUT ".toList <+: h ∧
        ¬ "DELETE ".toList <+: h ∧ ¬ "CONNECT ".toList <+: h ∧ ¬ "OPTIONS ".toList <+: h ∧ ¬ "TRACE ".toList <+: h)
    ∧ check_verb "get / HTTP/1.1\r\nHost: x\r\n\r\n".toList = verb.V_UNKNOWN
    ∧ check_verb "FROBNICATE / HTTP/1.1\r\nHost: x\r\n\r\n".toList = verb.V_UNKNOWN
    ∧ (table[fd]? = some (some req) → req.stage = 0 → req.req_type = none →
        (get_header env req { sys with errno := 0 }).ret = Ret.val 1 →
        cstr ((get_header env req { sys with errno := 0 }).conn.request_h.getD []) = h →
        log_overruns env { (get_header env req { sys with errno := 0 }).conn with stage := 1 }
          = false →
        check_verb h = verb.V_UNKNOWN →
        handle_conn env fuel req sys
            = v_unknown env
                { (get_header env req { sys with errno := 0 }).conn with
                  stage := 1, req_type := some verb.V_UNKNOWN }
                (get_header env req { sys with errno := 0 }).sys
          ∧ handle_request env fuel table fd sys
            = ((handle_conn env fuel req sys).ret,
                table.set fd (some (handle_conn env fuel req sys).conn),
                (handle_conn env fuel req sys).sys)
          ∧ v_unknown env
                { (get_header env req { sys with errno := 0 }).conn with
                  stage := 1, req_type := some verb.V_UNKNOWN }
                (get_header env req { sys with errno := 0 }).sys
            = send_error env 400
                { (get_header env req { sys with errno := 0 }).conn with
                  stage := 1, req_type := some verb.V_UNKNOWN }
                (get_header env req { sys with errno := 0 }).sys)
    ∧ (table[fd]? = some (some req) → req.stage ≠ 0 → req.req_type = some verb.V_UNKNOWN →
        log_overruns env req = false →
        handle_conn env fuel req sys = v_unknown env req { sys with errno := 0 }
          ∧ handle_request env fuel table fd sys
            = ((handle_conn env fuel req sys).ret,
                table.set fd (some (handle_conn env fuel req sys).conn),
                (handle_conn env fuel req sys).sys)
          ∧ v_unknown env req { sys with errno := 0 }
            = send_error env 400 req { sys with errno := 0 }) := by
  have e0 : strncmp_eq h "GET ".toList 4 = true ↔ "GET ".toList <+: h :=
    strncmp_eq_iff h "GET ".toList
  have e1 : strncmp_eq h "HEAD ".toList 5 = true ↔ "HEAD ".toList <+: h :=
    strncmp_eq_iff h "HEAD ".toList
  have e2 : strncmp_eq h "POST ".toList 5 = true ↔ "POST ".toList <+: h :=
    strncmp_eq_iff h "POST ".toList
  have e3 : strncmp_eq h "PUT ".toList 4 = true ↔ "PUT ".toList <+: h :=
    strncmp_eq_iff h "PUT ".toList
  have e4 : strncmp_eq h "DELETE ".toList 7 = true ↔ "DELETE ".toList <+: h :=
    strncmp_eq_iff h "DELETE ".toList
  have e5 : strncmp_eq h "CONNECT ".toList 8 = true ↔ "CONNECT ".toList <+: h :=
    strncmp_eq_iff h "CONNECT ".toList
  have e6 : strncmp_eq h "OPTIONS ".toList 8 = true ↔ "OPTIONS ".toList <+: h :=
    strncmp_eq_iff h "OPTIONS ".toList
  have e7 : strncmp_eq h "TRACE ".toList 6 = true ↔ "TRACE ".toList <+: h :=
    strncmp_eq_iff h "TRACE ".toList
  have P := pick_verb
    (strncmp_eq h "GET ".toList 4 = true)
    (strncmp_eq h "HEAD ".toList 5 = true)
    (strncmp_eq h "POST ".toList 5 = true)
    (strncmp_eq h "PUT ".toList 4 = true)
    (strncmp_eq h "DELETE ".toList 7 = true)
    (strncmp_eq h "CONNECT ".toList 8 = true)
    (strncmp_eq h "OPTIONS ".toList 8 = true)
    (strncmp_eq h "TRACE ".toList 6 = true)
    (fun a b => prefix_exclusive (by decide) (e0.1 a) (e1.1 b))
    (fun a b => prefix_exclusive (by decide) (e0.1 a) (e2.1 b))
    (fun a b => prefix_exclusive (by decide) (e0.1 a) (e3.1 b))
    (fun a b => prefix_exclusive (by decide) (e0.1 a) (e4.1 b))
    (fun a b => prefix_exclusive (by decide) (e0.1 a) (e5.1 b))
    (fun a b => prefix_exclusive (by decide) (e0.1 a) (e6.1 b))
    (fun a b => prefix_exclusive (by decide) (e0.1 a) (e7.1 b))
    (fun a b => prefix_exclusive (by decide) (e1.1 a) (e2.1 b))
    (fun a b => prefix_exclusive (by decide) (e1.1 a) (e3.1 b))
    (fun a b => prefix_exclusive (by decide) (e1.1 a) (e4.1 b))
    (fun a b => prefix_exclusive (by decide) (e1.1 a) (e5.1 b))
    (fun a b => prefix_exclusive (by decide) (e1.1 a) (e6.1 b))
    (fun a b => prefix_exclusive (by decide) (e1.1 a) (e7.1 b))
    (fun a b => prefix_exclusive (by decide) (e2.1 a) (e3.1 b))
    (fun a b => prefix_exclusive (by decide) (e2.1 a) (e4.1 b))
    (fun a b => prefix_exclusive (by decide) (e2.1 a) (e5.1 b))
    (fun a b => prefix_exclusive (by decide) (e2.1 a) (e6.1 b))
    (fun a b => prefix_exclusive (by decide) (e2.1 a) (e7.1 b))
    (fun a b => prefix_exclusive (by decide) (e3.1 a) (e4.1 b))
    (fun a b => prefix_exclusive (by decide) (e3.1 a) (e5.1 b))
    (fun a b => prefix_exclusive (by decide) (e3.1 a) (e6.1 b))
    (fun a b => prefix_exclusive (by decide) (e3.1 a) (e7.1 b))
    (fun a b => prefix_exclusive (by decide) (e4.1 a) (e5.1 b))
    (fun a b => prefix_exclusive (by decide) (e4.1 a) (e6.1 b))
    (fun a b => prefix_exclusive (by decide) (e4.1 a) (e7.1 b))
    (fun a b => prefix_exclusive (by decide) (e5.1 a) (e6.1 b))
    (fun a b => prefix_exclusive (by decide) (e5.1 a) (e7.1 b))
    (fun a b => prefix_exclusive (by decide) (e6.1 a) (e7.1 b))
    (check_verb h) rfl
  rw [e0, e1, e2, e3, e4, e5, e6, e7] at P
  obtain ⟨q0, q1, q2, q3, q4, q5, q6, q7, q8⟩ := P
  refine ⟨q0, q1, q2, q3, q4, q5, q6, q7, q8, by decide, by decide, ?_, ?_⟩
  · intro ht hs hr h1 hh hl hv
    have c1 := (get_header_conn env req { sys with errno := 0 } hs).1
    refine ⟨?_, by simp [handle_request, ht], rfl⟩
    unfold handle_conn
    dsimp only
    rw [if_pos hs, if_neg (not_not.mpr h1), log_and_dispatch, hl, if_neg Bool.false_ne_true,
      dispatch_classifies env fuel
        { (get_header env req { sys with errno := 0 }).conn with stage := 1 }
        (get_header env req { sys with errno := 0 }).sys (c1.trans hr)]
    dsimp only
    rw [hh, hv]
    simp [dispatch]
  · intro ht hs hr hl
    refine ⟨?_, by simp [handle_request, ht], rfl⟩
    unfold handle_conn
    dsimp only
    rw [if_neg hs, log_and_dispatch, hl, if_neg Bool.false_ne_true]
    simp [dispatch, hr]

set_option maxRecDepth 8000 in
/-- C5 at a fresh connection that reads a head beginning with `FROBNICATE `, with a log file
configured, and at the later entry of that connection after a blocked write. -/
theorem check_verb_classifies_witness :
    (List.replicate 5 none ++ [some (request_info.fresh 5 "10.0.0.1".toList)])[5]?
      = some (some (request_info.fresh 5 "10.0.0.1".toList))
    ∧ (get_header logging_env (request_info.fresh 5 "10.0.0.1".toList)
        { example_sys [delivers unknown_head, takes 200, takes 85] with errno := 0 }).ret
      = Ret.val 1
    ∧ log_message logging_env
        { (get_header logging_env (request_info.fresh 5 "10.0.0.1".toList)
            { example_sys [delivers unknown_head, takes 200, takes 85] with errno := 0 }).conn
          with stage := 1 }
      = "[10.0.0.1] \"FROBNICATE / HTTP/1.1\"\n".toList
    ∧ check_verb unknown_head = verb.V_UNKNOWN
    ∧ handle_conn logging_env 8 (request_info.fresh 5 "10.0.0.1".toList)
        (example_sys [delivers unknown_head, takes 200, takes 85])
      = v_unknown logging_env
          { (get_header logging_env (request_info.fresh 5 "10.0.0.1".toList)
              { example_sys [delivers unknown_head, takes 200, takes 85] with errno := 0 }).conn
            with stage := 1, req_type := some verb.V_UNKNOWN }
          (get_header logging_env (request_info.fresh 5 "10.0.0.1".toList)
            { example_sys [delivers unknown_head, takes 200, takes 85] with errno := 0 }).sys
    ∧ (List.replicate 5 none ++ [some unknown_conn])[5]? = some (some unknown_conn)
    ∧ unknown_conn.stage = 1
    ∧ unknown_conn.req_type = some verb.V_UNKNOWN
    ∧ handle_conn logging_env 8 unknown_conn (example_sys [takes 200, takes 85])
      = v_unknown logging_env unknown_conn { example_sys [takes 200, takes 85] with errno := 0 } :=
  ⟨by decide, by decide, by decide, by decide,
    ((check_verb_classifies logging_env 8
      (List.replicate 5 none ++ [some (request_info.fresh 5 "10.0.0.1".toList)]) 5
      (request_info.fresh 5 "10.0.0.1".toList)
      (example_sys [delivers unknown_head, takes 200, takes 85]) unknown_head).2.2.2.2.2.2.2.2.2.2.2.1
      (by decide) (by decide) (by decide) (by decide) (by decide) (by decide) (by decide)).1,
    by decide, by decide, by decide,
    ((check_verb_classifies logging_env 8 (List.replicate 5 none ++ [some unknown_conn]) 5
      unknown_conn (example_sys [takes 200, takes 85]) []).2.2.2.2.2.2.2.2.2.2.2.2
      (by decide) (by decide) (by decide) (by decide)).1⟩

/-! ## C6: the Host check -/

/-- C6, counterexample: the head `GET /Host: HTTP/1.1` has no header line named Host, yet
`get_header` returns 1 and calls nothing but `read_header` (no `send_error`). -/
theorem host_in_path_accepted :
    has_host_line "GET /Host: HTTP/1.1\r\n\r\n".toList = false
    ∧ (get_header example_env (request_info.fresh 5 "10.0.0.1".toList)
        (example_sys [delivers "GET /Host: HTTP/1.1\r\n\r\n".toList])).ret = Ret.val 1
    ∧ (get_header example_env (request_info.fresh 5 "10.0.0.1".toList)
        (example_sys [delivers "GET /Host: HTTP/1.1\r\n\r\n".toList])).sys.trace
      = [Event.read_header 0 4096] := by
  decide

/-- C6 (amended): for a head that passes the request-line checks, `get_header` takes the 400
branch when the text `Host:` occurs nowhere in the head, and accepts the head when `Host:`
occurs anywhere in it (as a header line, inside the request path or inside another value). -/
theorem host_check_is_textual (env : Env) (req : request_info) (sys : Sys) (h : CStr)
    (i j : Nat) (hr : ReadsHead env req sys h i j)
    (hproto : "HTTP/".toList <+: h.drop (i + 1 + j + 1))
    (hnb : ¬ "\n\n".toList <:+: h) (hpath : j ≤ env.MAX_PATHNAME_SIZE) :
    (¬ "Host:".toList <:+: h →
        get_header env req sys
          = send_error env 400 (conn_after_read env req sys) (sys_after_read env req sys))
    ∧ ("Host:".toList <:+: h →
        get_header env req sys
            = accept_header h (conn_after_read env req sys) (sys_after_read env req sys)
          ∧ (get_header env req sys).ret = Ret.val 1) := by
  have hc := get_header_checks env req sys h i j hr
  constructor
  · intro hh
    rw [hc, if_neg (by tauto), if_neg (by omega), if_pos hh]
  · intro hh
    have e : get_header env req sys
        = accept_header h (conn_after_read env req sys) (sys_after_read env req sys) := by
      rw [hc, if_neg (by tauto), if_neg (by omega), if_neg (by tauto)]
    rw [e]
    exact ⟨rfl, rfl⟩

/-- C6 (amended) at the head `GET /Host: HTTP/1.1`: accepted. -/
theorem host_check_is_textual_witness :
    ReadsHead example_env (request_info.fresh 5 "10.0.0.1".toList)
        (example_sys [delivers "GET /Host: HTTP/1.1\r\n\r\n".toList])
        "GET /Host: HTTP/1.1\r\n\r\n".toList 3 6
    ∧ "HTTP/".toList <+: "GET /Host: HTTP/1.1\r\n\r\n".toList.drop (3 + 1 + 6 + 1)
    ∧ ¬ "\n\n".toList <:+: "GET /Host: HTTP/1.1\r\n\r\n".toList
    ∧ 6 ≤ example_env.MAX_PATHNAME_SIZE
    ∧ "Host:".toList <:+: "GET /Host: HTTP/1.1\r\n\r\n".toList
    ∧ (get_header example_env (request_info.fresh 5 "10.0.0.1".toList)
          (example_sys [delivers "GET /Host: HTTP/1.1\r\n\r\n".toList])).ret = Ret.val 1 :=
  ⟨by unfold ReadsHead; decide, by decide, by decide, by decide, by decide,
    ((host_check_is_textual example_env (request_info.fresh 5 "10.0.0.1".toList)
      (example_sys [delivers "GET /Host: HTTP/1.1\r\n\r\n".toList])
      "GET /Host: HTTP/1.1\r\n\r\n".toList 3 6 (by unfold ReadsHead; decide) (by decide)
      (by decide) (by decide)).2 (by decide)).2⟩

/-! ## C7: the path-length check -/

/-- C7 (fails in the code for heads closed by two line feeds): for a head with two spaces and
the `HTTP/` prefix, when the buffer holds no two consecutive line feeds the 414 branch is taken
exactly for a path token longer than `MAX_PATHNAME_SIZE` (a path of exactly that length goes on
to the Host check); when it does hold them, `get_header` takes the 400 branch whatever the length
of the path, so never the 414 branch. -/
theorem path_length_check (env : Env) (req : request_info) (sys : Sys) (h : CStr)
    (i j : Nat) (hr : ReadsHead env req sys h i j)
    (hproto : "HTTP/".toList <+: h.drop (i + 1 + j + 1)) :
    (¬ "\n\n".toList <:+: h →
        (env.MAX_PATHNAME_SIZE < j →
          get_header env req sys
            = send_error env 414 (conn_after_read env req sys) (sys_after_read env req sys))
        ∧ (j ≤ env.MAX_PATHNAME_SIZE →
          get_header env req sys
            = if ¬ "Host:".toList <:+: h then
                send_error env 400 (conn_after_read env req sys) (sys_after_read env req sys)
              else accept_header h (conn_after_read env req sys) (sys_after_read env req sys)))
    ∧ ("\n\n".toList <:+: h →
        get_header env req sys
            = send_error env 400 (conn_after_read env req sys) (sys_after_read env req sys)
          ∧ get_header env req sys
            ≠ send_error env 414 (conn_after_read env req sys) (sys_after_read env req sys)) := by
  have hc := get_header_checks env req sys h i j hr
  constructor
  · intro hb
    constructor
    · intro hj
      rw [hc, if_neg (by tauto), if_pos hj]
    · intro hj
      rw [hc, if_neg (by tauto), if_neg (by omega)]
  · intro hb
    have e : get_header env req sys
        = send_error env 400 (conn_after_read env req sys) (sys_after_read env req sys) := by
      rw [hc, if_pos (Or.inl hb)]
    exact ⟨e, e ▸ send_error_status_injective env 400 414 _ _ (by decide)⟩

set_option maxRecDepth 8000 in
/-- C7 at a path of 65 bytes, `MAX_PATHNAME_SIZE` being 64, in a head closed by two line feeds:
the 400 branch, not the 414 branch. -/
theorem path_length_check_witness :
    ReadsHead example_env (request_info.fresh 5 "10.0.0.1".toList)
        (example_sys [delivers long_path_head]) long_path_head 3 65
    ∧ "HTTP/".toList <+: long_path_head.drop (3 + 1 + 65 + 1)
    ∧ "\n\n".toList <:+: long_path_head
    ∧ example_env.MAX_PATHNAME_SIZE < 65
    ∧ (get_header example_env (request_info.fresh 5 "10.0.0.1".toList)
          (example_sys [delivers long_path_head])
        = send_error example_env 400
            (conn_after_read example_env (request_info.fresh 5 "10.0.0.1".toList)
              (example_sys [delivers long_path_head]))
            (sys_after_read example_env (request_info.fresh 5 "10.0.0.1".toList)
              (example_sys [delivers long_path_head]))
      ∧ get_header example_env (request_info.fresh 5 "10.0.0.1".toList)
          (example_sys [delivers long_path_head])
        ≠ send_error example_env 414
            (conn_after_read example_env (request_info.fresh 5 "10.0.0.1".toList)
              (example_sys [delivers long_path_head]))
            (sys_after_read example_env (request_info.fresh 5 "10.0.0.1".toList)
              (example_sys [delivers long_path_head]))) :=
  ⟨by unfold ReadsHead; decide, by decide, by decide, by decide,
    (path_length_check example_env (request_info.fresh 5 "10.0.0.1".toList)
      (example_sys [delivers long_path_head]) long_path_head 3 65
      (by unfold ReadsHead; decide) (by decide)).2 (by decide)⟩

/-! ## C8: the Range header -/

/-- C8 (fails in the code): `sscanf` is applied to the start of the head, so for every accepted
head that does not itself begin with `Range:` (as every head beginning with a method does)
`get_header` leaves `range_start = 0` and `range_end = 0`, also when the head has a line
`Range: bytes=a-b`. -/
theorem range_header_not_parsed (env : Env) (req : request_info) (sys : Sys) (h : CStr)
    (i j : Nat) (hr : ReadsHead env req sys h i j)
    (hproto : "HTTP/".toList <+: h.drop (i + 1 + j + 1))
    (hnb : ¬ "\n\n".toList <:+: h) (hpath : j ≤ env.MAX_PATHNAME_SIZE)
    (hhost : "Host:".toList <:+: h) (hnr : ¬ "Range:".toList <+: h) :
    (get_header env req sys).ret = Ret.val 1
    ∧ (get_header env req sys).conn.range_start = 0
    ∧ (get_header env req sys).conn.range_end = 0 := by
  have hc := get_header_checks env req sys h i j hr
  rw [hc, if_neg (by tauto), if_neg (by omega), if_neg (by tauto)]
  unfold accept_header
  dsimp only
  rw [sscanf_range_no_match h 0 0 hnr]
  simp

/-- C8 at the head of the specification's range scenario: the window stays 0, 0. -/
theorem range_header_not_parsed_witness :
    ReadsHead example_env (request_info.fresh 5 "10.0.0.1".toList)
        (example_sys [delivers
          "GET /big.bin HTTP/1.1\r\nHost: x\r\nRange: bytes=10-19\r\n\r\n".toList])
        "GET /big.bin HTTP/1.1\r\nHost: x\r\nRange: bytes=10-19\r\n\r\n".toList 3 8
    ∧ "HTTP/".toList <+:
        "GET /big.bin HTTP/1.1\r\nHost: x\r\nRange: bytes=10-19\r\n\r\n".toList.drop
          (3 + 1 + 8 + 1)
    ∧ ¬ "\n\n".toList <:+:
        "GET /big.bin HTTP/1.1\r\nHost: x\r\nRange: bytes=10-19\r\n\r\n".toList
    ∧ 8 ≤ example_env.MAX_PATHNAME_SIZE
    ∧ "Host:".toList <:+:
        "GET /big.bin HTTP/1.1\r\nHost: x\r\nRange: bytes=10-19\r\n\r\n".toList
    ∧ ¬ "Range:".toList <+:
        "GET /big.bin HTTP/1.1\r\nHost: x\r\nRange: bytes=10-19\r\n\r\n".toList
    ∧ "Range: bytes=10-19\r\n".toList <:+:
        "GET /big.bin HTTP/1.1\r\nHost: x\r\nRange: bytes=10-19\r\n\r\n".toList
    ∧ ((get_header example_env (request_info.fresh 5 "10.0.0.1".toList)
          (example_sys [delivers
            "GET /big.bin HTTP/1.1\r\nHost: x\r\nRange: bytes=10-19\r\n\r\n".toList])).ret
        = Ret.val 1
      ∧ (get_header example_env (request_info.fresh 5 "10.0.0.1".toList)
          (example_sys [delivers
            "GET /big.bin HTTP/1.1\r\nHost: x\r\nRange: bytes=10-19\r\n\r\n".toList])).conn.range_start
        = 0
      ∧ (get_header example_env (request_info.fresh 5 "10.0.0.1".toList)
          (example_sys [delivers
            "GET /big.bin HTTP/1.1\r\nHost: x\r\nRange: bytes=10-19\r\n\r\n".toList])).conn.range_end
        = 0) :=
  ⟨by unfold ReadsHead; decide, by decide, by decide, by decide, by decide, by decide, by decide,
    range_header_not_parsed example_env (request_info.fresh 5 "10.0.0.1".toList)
      (example_sys [delivers
        "GET /big.bin HTTP/1.1\r\nHost: x\r\nRange: bytes=10-19\r\n\r\n".toList])
      "GET /big.bin HTTP/1.1\r\nHost: x\r\nRange: bytes=10-19\r\n\r\n".toList 3 8
      (by unfold ReadsHead; decide) (by decide) (by decide) (by decide) (by decide)
      (by decide)⟩

/-! ## C9: the window that is served -/

/-- C10: when `get` reaches the file stage for `path`, whose size `stat` gives as `n`, the
connection is left with `range_end = n` if the parsed `range_end` was 0 and `min(range_end, n)`
otherwise, hence `range_end <= n`; and a GET connection in stage 1 with the window 0, 0 (what
`Range: bytes=0-0` and a missing Range header both mean) whose head goes out in one write is
served the entire resource: Content-Length `n`, and a transfer of `n` bytes from offset 0. -/
theorem get_range_end_clamped (env : Env) (fuel : Nat) (req : request_info) (sys : Sys)
    (path : CStr) (sys1 : Sys) (n : Nat)
    (hres : get env fuel req sys = get_file env fuel path req sys1)
    (hstat : env.stat path = Except.ok n) :
    (get env fuel req sys).conn.range_end = (if req.range_end = 0 then n else min req.range_end n)
    ∧ (get env fuel req sys).conn.range_end ≤ n
    ∧ (req.range_end = 0 → req.range_start = 0 → n < 2 ^ 64 → req.stage = 1 →
        req.req_type ≠ some verb.HEAD → sys1.next.errno.getD sys1.errno = 0 →
        ∃ head, (get env fuel req sys).sys.trace
          = sys1.trace ++ [Event.stat path, Event.send_status_n 200 n,
              Event.write_all_to_socket head req.progress (some (subSz head.length req.progress)),
              Event.fopen path,
              Event.write_all_to_socket_from_file path (decide (env.fopen path = none)) n 0]) := by
  have h1 := get_file_range_end_eq env fuel path req sys1 n hstat
  rw [hres]
  refine ⟨h1, ?_, ?_⟩
  · rw [h1]
    split_ifs
    · exact le_refl n
    · exact min_le_right _ _
  · intro hr0 hs0 hn hstage hverb hw
    have := get_file_served env fuel path req sys1 n n hstat hstage (by rw [if_pos hr0])
      (by omega) hn hverb hw
    rw [hs0] at this
    exact this

/-- C10 at the window 0, 0 on the 1024-byte file: the end becomes 1024 and the 1024 bytes from
offset 0 are announced and asked for. -/
theorem get_range_end_clamped_witness :
    get example_env 8 whole_conn (example_sys [takes 130, takes 1024])
        = get_file example_env 8 "/srv/big.bin".toList whole_conn
            { example_sys [takes 130, takes 1024] with
              trace := [Event.access "/srv/big.bin".toList, Event.access "/srv/big.bin".toList,
                Event.access "/srv/big.bin".toList] }
    ∧ example_env.stat "/srv/big.bin".toList = Except.ok 1024
    ∧ (get example_env 8 whole_conn (example_sys [takes 130, takes 1024])).conn.range_end = 1024
    ∧ ∃ head, (get example_env 8 whole_conn (example_sys [takes 130, takes 1024])).sys.trace
      = [Event.access "/srv/big.bin".toList, Event.access "/srv/big.bin".toList,
          Event.access "/srv/big.bin".toList]
        ++ [Event.stat "/srv/big.bin".toList, Event.send_status_n 200 1024,
          Event.write_all_to_socket head 0 (some (subSz head.length 0)),
          Event.fopen "/srv/big.bin".toList,
          Event.write_all_to_socket_from_file "/srv/big.bin".toList true 1024 0] :=
  ⟨get_existing_dotted example_env 8 whole_conn (example_sys [takes 130, takes 1024])
      "/big.bin".toList (by decide) (by decide) (by decide) (by decide),
    rfl,
    (get_range_end_clamped example_env 8 whole_conn (example_sys [takes 130, takes 1024])
      "/srv/big.bin".toList
      { example_sys [takes 130, takes 1024] with
        trace := [Event.access "/srv/big.bin".toList, Event.access "/srv/big.bin".toList,
          Event.access "/srv/big.bin".toList] }
      1024
      (get_existing_dotted example_env 8 whole_conn (example_sys [takes 130, takes 1024])
        "/big.bin".toList (by decide) (by decide) (by decide) (by decide))
      rfl).1,
    (get_range_end_clamped example_env 8 whole_conn (example_sys [takes 130, takes 1024])
      "/srv/big.bin".toList
      { example_sys [takes 130, takes 1024] with
        trace := [Event.access "/srv/big.bin".toList, Event.access "/srv/big.bin".toList,
          Event.access "/srv/big.bin".toList] }
      1024
      (get_existing_dotted example_env 8 whole_conn (example_sys [takes 130, takes 1024])
        "/big.bin".toList (by decide) (by decide) (by decide) (by decide))
      rfl).2.2 (by decide) (by decide) (by decide) (by decide) (by decide) (by decide)⟩

/-! ## Helper lemmas for the later stages -/

/-- Stage 2 of `get` only adds calls to the trace and never changes `range_start`. -/
theorem get_body_extends (env : Env) (fuel : Nat) (path : CStr) (size : Nat)
    (req : request_info) (sys : Sys) :
    (∃ new, (get_body env fuel path size req sys).sys.trace = sys.trace ++ new)
    ∧ (get_body env fuel path size req sys).conn.range_start = req.range_start := by
  unfold get_body
  dsimp only
  split_ifs
  · exact ⟨⟨[], by simp⟩, rfl⟩
  · exact ⟨⟨_, List.append_assoc _ _ _⟩, (get_loop_fields _ _ _ _ _).2⟩
  · exact ⟨⟨_, List.append_assoc _ _ _⟩, rfl⟩
  · exact ⟨⟨_, List.append_assoc _ _ _⟩, rfl⟩
  · exact ⟨⟨[], by simp⟩, rfl⟩

/-- With `errno` 0, nothing moved and `progress` short of the file size, a round of the body
loop changes nothing: the loop is still running after any number of rounds. -/
theorem get_loop_stuck (fuel : Nat) (req : request_info) (ws : Int) (size : Nat)
    (hws : ws ≤ 0) (hp : req.progress ≠ size) :
    get_loop fuel req ws 0 size = (Ret.noFuel, req) := by
  induction fuel with
  | zero => rfl
  | succ k ih =>
    unfold get_loop
    have h0 : ¬ 0 < ws := by omega
    simp only [h0, if_false, EWOULDBLOCK, EAGAIN, SIGPIPE]
    simp [hp, ih]

/-- Entered in stage 2 for a request other than HEAD whose file opens, `get_file` is the body
loop run on the outcome of the one transfer call. -/
theorem get_file_stage2 (env : Env) (fuel : Nat) (path : CStr) (req : request_info) (sys : Sys)
    (n : Nat) (hstat : env.stat path = Except.ok n) (hstage : req.stage = 2)
    (hverb : req.req_type ≠ some verb.HEAD) (hopen : env.fopen path = none) :
    (get_file env fuel path req sys).ret
        = (get_loop fuel (set_mime_type env path (clamp_range req n)) sys.next.ret
            (sys.next.errno.getD sys.errno) n).1
    ∧ (get_file env fuel path req sys).conn
        = (get_loop fuel (set_mime_type env path (clamp_range req n)) sys.next.ret
            (sys.next.errno.getD sys.errno) n).2 := by
  have hc := clamp_range_fields req n
  have hm := set_mime_type_fields env path (clamp_range req n)
  have r_stage : (set_mime_type env path (clamp_range req n)).stage = 2 := by
    rw [hm.2.2.1, hc.2.2.1, hstage]
  have r_verb : (set_mime_type env path (clamp_range req n)).req_type ≠ some verb.HEAD := by
    rw [hm.2.2.2.1, hc.2.2.2.1]; exact hverb
  unfold get_file
  rw [hstat]
  dsimp only
  rw [if_neg (by rw [r_stage]; decide)]
  unfold get_body
  rw [if_pos r_stage, if_neg r_verb]
  dsimp only
  rw [if_pos hopen]
  simp [Sys.note, Sys.call, Sys.next, hopen]

/-- Two rounds of the body loop with `errno` 0 add the count of the one transfer twice. -/
theorem get_loop_two_rounds (req : request_info) (ws size : Nat) (hpos : 0 < ws)
    (hmiss : req.progress + ws ≠ size) (hbig : req.progress + 2 * ws < 2 ^ 64) :
    (get_loop 2 req (ws : Int) 0 size).2.progress = req.progress + 2 * ws := by
  have h0 : (0 : Int) < (ws : Int) := by omega
  have a1 : addSz req.progress ws = req.progress + ws := by
    unfold addSz SIZE_MOD; exact Nat.mod_eq_of_lt (by omega)
  have a2 : addSz (req.progress + ws) ws = req.progress + 2 * ws := by
    unfold addSz SIZE_MOD; rw [Nat.mod_eq_of_lt (by omega)]; omega
  unfold get_loop
  simp only [h0, if_true, EWOULDBLOCK, EAGAIN, SIGPIPE, Int.toNat_ofNat, a1]
  simp only [show ¬ ((0 : Nat) = 11 ∨ (0 : Nat) = 11) by decide, show ¬ (0 : Nat) = 13 by decide,
    if_false, ne_eq, not_true_eq_false, hmiss]
  unfold get_loop
  simp only [h0, if_true, EWOULDBLOCK, EAGAIN, SIGPIPE, Int.toNat_ofNat, a2]
  simp only [show ¬ ((0 : Nat) = 11 ∨ (0 : Nat) = 11) by decide, show ¬ (0 : Nat) = 13 by decide,
    if_false, ne_eq, not_true_eq_false]
  split_ifs <;> rfl

/-- In stage 1 a synthesized page starts with `send_status_n(fd, 200, ..., strlen(buff))` and
the write of the head from `progress`. -/
theorem send_page_stage1_trace (env : Env) (buff : CStr) (req : request_info) (sys : Sys)
    (hstage : req.stage = 1) :
    ∃ head rest, (send_page env buff req sys).sys.trace
      = sys.trace ++ Event.send_status_n 200 buff.length
        :: Event.write_all_to_socket head req.progress (some (subSz head.length req.progress))
        :: rest := by
  obtain ⟨_, _, _, _, head, f5⟩ := send_status_n_fields env 200 req buff.length sys
  refine ⟨head, ?_⟩
  unfold send_page
  rw [if_pos hstage]
  dsimp only
  split_ifs with b c
  · exact ⟨[], by rw [f5]⟩
  · obtain ⟨n2, h2, _⟩ := send_body_trace buff
      { (send_status_n env 200 req buff.length sys).conn with
        stage := addSz (send_status_n env 200 req buff.length sys).conn.stage 1, progress := 0 }
      (send_status_n env 200 req buff.length sys).sys
    exact ⟨n2, by rw [h2, f5]; simp⟩
  · exact ⟨[], by rw [f5]⟩

/-- The read of `get_header` that goes through without error and leaves an empty buffer makes
`get_header` return 1 with the stage still 0. -/
theorem get_header_empty (env : Env) (req : request_info) (sys : Sys)
    (hret : sys.next.ret ≠ -1) (herr : (sys_after_read env req sys).errno = 0)
    (hempty : cstr (read_buffer env req sys) = []) :
    get_header env req sys
      = { ret := Ret.val 1, conn := conn_after_read env req sys,
          sys := sys_after_read env req sys } := by
  have hio : (after_io { req with request_h := some (read_buffer env req sys) } sys.next
      (sys_after_read env req sys)).2 = none := by
    simp [after_io, herr, EWOULDBLOCK, EAGAIN, SIGPIPE]
  unfold get_header
  rw [if_neg hret, hio]
  dsimp only
  rw [hempty]
  simp [check_header]

/-- The body loop leaves `response_h` alone. -/
theorem get_loop_response_h (fuel : Nat) (req : request_info) (ws : Int) (errno size : Nat) :
    (get_loop fuel req ws errno size).2.response_h = req.response_h := by
  induction fuel generalizing req with
  | zero => rfl
  | succ k ih =>
    unfold get_loop
    dsimp only
    split_ifs <;> first
      | rfl
      | (refine (ih _).trans ?_; rfl)

/-- Stage 2 of `get` leaves `response_h` alone. -/
theorem get_body_response_h (env : Env) (fuel : Nat) (path : CStr) (size : Nat)
    (req : request_info) (sys : Sys) :
    (get_body env fuel path size req sys).conn.response_h = req.response_h := by
  unfold get_body
  dsimp only
  split_ifs <;> first | rfl | exact get_loop_response_h _ _ _ _ _

/-- Clamping the range and setting the MIME type leave `response_h` alone. -/
theorem resolved_response_h (env : Env) (path : CStr) (req : request_info) (n : Nat) :
    (set_mime_type env path (clamp_range req n)).response_h = req.response_h := by
  have h1 : (clamp_range req n).response_h = req.response_h := by
    unfold clamp_range; split_ifs <;> rfl
  rw [← h1]
  unfold set_mime_type
  split_ifs <;> rfl

/-- In stage 1, with an empty response buffer, the file stage of `get` leaves in `response_h`
the head formatted for the clamped window. -/
theorem get_file_response_h (env : Env) (fuel : Nat) (path : CStr) (req : request_info)
    (sys : Sys) (n : Nat) (hstat : env.stat path = Except.ok n) (hstage : req.stage = 1)
    (hempty : req.response_h.getD [] = []) :
    (get_file env fuel path req sys).conn.response_h
      = some (response_head env 200 (set_mime_type env path (clamp_range req n))
          (subSz (set_mime_type env path (clamp_range req n)).range_end
            (set_mime_type env path (clamp_range req n)).range_start)) := by
  have hc := clamp_range_fields req n
  have hm := set_mime_type_fields env path (clamp_range req n)
  have r_stage : (set_mime_type env path (clamp_range req n)).stage = 1 := by
    rw [hm.2.2.1, hc.2.2.1, hstage]
  have hs := (send_status_n_response_h env 200 (set_mime_type env path (clamp_range req n))
    (subSz (set_mime_type env path (clamp_range req n)).range_end
      (set_mime_type env path (clamp_range req n)).range_start)
    (sys.note (Event.stat path) none) (by rw [resolved_response_h]; exact hempty)).1
  unfold get_file
  rw [hstat]
  dsimp only
  rw [if_pos r_stage]
  split_ifs
  · exact hs
  · rw [get_body_response_h]
    exact hs

/-- The filter of `send_list` keeps exactly the entries that are not skipped. -/
theorem not_skipped_iff (name : CStr) :
    decide (name.head? ≠ some '.' ∧ name.head? ≠ some '-') = !skipped name := by
  unfold skipped
  by_cases h1 : name.head? = some '.' <;> by_cases h2 : name.head? = some '-' <;> simp [h1, h2]

/-- The anchors the loop of `send_list` prints are those of the specification. -/
theorem anchors_eq_spec (env : Env) (path : CStr) (entries : List CStr) :
    ((entries.filter (fun name => name.head? ≠ some '.' ∧ name.head? ≠ some '-')).map
        (anchor env path)).flatten
      = anchors_spec (path.drop env.root_site.length) entries := by
  induction entries with
  | nil => rfl
  | cons name rest ih =>
    rw [List.filter_cons, not_skipped_iff]
    by_cases hs : skipped name = true
    · simp only [hs, Bool.not_true, if_false, anchors_spec, if_true]
      exact ih
    · simp only [Bool.not_eq_true] at hs
      simp only [hs, Bool.not_false, if_true, anchors_spec, List.map_cons, List.flatten_cons, ih,
        anchor, List.append_assoc, Bool.false_eq_true, if_false]

/-- The loop of `send_list` prints one anchor per entry that is not skipped. -/
theorem anchor_count_eq (entries : List CStr) : anchor_count entries = kept_count entries := by
  unfold anchor_count
  induction entries with
  | nil => rfl
  | cons name rest ih =>
    rw [List.filter_cons, not_skipped_iff]
    by_cases hs : skipped name = true
    · simp only [hs, Bool.not_true, if_false, kept_count, if_true]
      exact ih
    · simp only [Bool.not_eq_true] at hs
      simp only [hs, Bool.not_false, if_true, kept_count, List.length_cons, ih,
        Bool.false_eq_true, if_false]

/-- A synthesized page in stage 1 whose head goes out in one write: `send_status_n` with the
length of the body, the write of the head, and the write of the whole body from offset 0. -/
theorem send_page_done_trace (env : Env) (buff : CStr) (req : request_info) (sys : Sys)
    (hstage : req.stage = 1) (hw : sys.next.errno.getD sys.errno = 0) :
    ∃ head, (send_page env buff req sys).sys.trace
      = sys.trace ++ [Event.send_status_n 200 buff.length,
          Event.write_all_to_socket head req.progress (some (subSz head.length req.progress)),
          Event.write_all_to_socket buff 0 (some buff.length)] := by
  obtain ⟨_, _, f3, _, head, f5⟩ := send_status_n_fields env 200 req buff.length sys
  have hd := send_status_n_done env 200 req buff.length sys hw
  refine ⟨head, ?_⟩
  unfold send_page
  rw [if_pos hstage]
  dsimp only
  rw [if_neg (by rw [hd]; simp), if_pos (by rw [f3, hstage]; rfl)]
  unfold send_body
  dsimp only
  split <;> (simp only [Sys.call, f5, if_true]; simp)

/-- A step of `strstr` past a position where the needle does not start. -/
theorem strstr_cons_skip (x : Char) (xs needle : CStr)
    (h : needle.isPrefixOf (x :: xs) = false) :
    strstr (x :: xs) needle = (strstr xs needle).map (· + 1) := by
  simp [strstr, h]

/-- `strstr` stops where the needle starts. -/
theorem strstr_here (s needle : CStr) (h : needle <+: s) : strstr s needle = some 0 := by
  have hp := List.isPrefixOf_iff_prefix.mpr h
  cases s with
  | nil =>
    have : needle = [] := List.prefix_nil.mp h
    simp [strstr, this]
  | cons y ys => simp [strstr, hp]

/-- `strstr` finds a needle right after a stretch in which the character at the needle's
offset `k` never occurs, when that character occurs nowhere before offset `k` in the needle. -/
theorem strstr_after (a needle b : CStr) (c : Char) (k : Nat)
    (hk : c ∈ needle.take (k + 1)) (hnk : c ∉ needle.take k) (hc : c ∉ a) :
    strstr (a ++ needle ++ b) needle = some a.length := by
  induction a with
  | nil =>
    rw [List.nil_append]
    exact strstr_here _ _ (List.prefix_append _ _)
  | cons x xs ih =>
    have hx : c ≠ x := fun h => hc (by rw [h]; exact List.mem_cons_self _ _)
    have hxs : c ∉ xs := fun h => hc (List.mem_cons_of_mem _ h)
    have hp : needle.isPrefixOf (x :: (xs ++ needle ++ b)) = false := by
      rw [Bool.eq_false_iff]
      intro hpre
      have hpre := List.isPrefixOf_iff_prefix.mp hpre
      have h6 : needle.take (k + 1) = (x :: (xs ++ needle ++ b)).take (k + 1) := by
        have := List.prefix_iff_eq_take.mp hpre
        conv_lhs => rw [this]
        rw [List.take_take]
        congr 1
        have : k + 1 ≤ needle.length := by
          by_contra hlt
          have e1 : needle.take (k + 1) = needle := List.take_of_length_le (by omega)
          have e2 : needle.take k = needle := List.take_of_length_le (by omega)
          rw [e1] at hk
          rw [e2] at hnk
          exact hnk hk
        omega
      have hmem : c ∈ (x :: (xs ++ needle ++ b)).take (k + 1) := by
        rw [← h6]; exact hk
      rw [List.take_succ_cons, List.mem_cons, List.append_assoc,
        List.take_append_eq_append_take, List.mem_append, List.take_append_eq_append_take,
        List.mem_append] at hmem
      rcases hmem with h | h | h | h
      · exact hx h
      · exact hxs (List.mem_of_mem_take h)
      · have : List.take (k - xs.length) needle
            = List.take (k - xs.length) (needle.take k) := by
          rw [List.take_take, min_eq_left (by omega)]
        rw [this] at h
        exact hnk (List.mem_of_mem_take h)
      · by_cases hlen : k - xs.length - needle.length = 0
        · rw [hlen] at h
          simp at h
        · have e2 : needle.take k = needle := List.take_of_length_le (by omega)
          have e1 : needle.take (k + 1) = needle := List.take_of_length_le (by omega)
          rw [e1] at hk
          rw [e2] at hnk
          exact hnk hk
    rw [List.cons_append, List.cons_append, strstr_cons_skip _ _ _ hp, ih hxs]
    rfl

/-- The three existence tests of `get` on a candidate `dir ++ "index.php"` whose directory part
`dir` lies under the root, ends in `/` and has no dot: the candidate itself, then
`dir ++ "index.html"` once that name is stored in the array, then the listing of `dir`. -/
theorem get_lookup_index (env : Env) (fuel : Nat) (u : CStr) (req : request_info) (sys : Sys)
    (hdot : '.' ∉ env.root_site ++ u ++ "/".toList) :
    get_lookup env fuel (env.root_site ++ u ++ "/".toList ++ "index.php".toList) req sys
      = if env.access (env.root_site ++ u ++ "/".toList ++ "index.php".toList) = none then
          get_file env fuel (env.root_site ++ u ++ "/".toList ++ "index.php".toList) req
            (((sys.note (Event.access (env.root_site ++ u ++ "/".toList ++ "index.php".toList))
                none).note
                (Event.access (env.root_site ++ u ++ "/".toList ++ "index.php".toList)) none).note
              (Event.access (env.root_site ++ u ++ "/".toList ++ "index.php".toList)) none)
        else
          in_path env (env.root_site ++ u ++ "/".toList ++ "index.html".toList) req
            (sys.note (Event.access (env.root_site ++ u ++ "/".toList ++ "index.php".toList))
              (env.access (env.root_site ++ u ++ "/".toList ++ "index.php".toList)))
            (if env.access (env.root_site ++ u ++ "/".toList ++ "index.html".toList) = none then
              get_file env fuel (env.root_site ++ u ++ "/".toList ++ "index.html".toList) req
                (((sys.note (Event.access (env.root_site ++ u ++ "/".toList ++ "index.php".toList))
                    (env.access (env.root_site ++ u ++ "/".toList ++ "index.php".toList))).note
                    (Event.access (env.root_site ++ u ++ "/".toList ++ "index.html".toList))
                    none).note
                  (Event.access (env.root_site ++ u ++ "/".toList ++ "index.html".toList)) none)
            else
              send_list env (env.root_site ++ u ++ "/".toList) req
                ((sys.note (Event.access (env.root_site ++ u ++ "/".toList ++ "index.php".toList))
                    (env.access (env.root_site ++ u ++ "/".toList ++ "index.php".toList))).note
                  (Event.access (env.root_site ++ u ++ "/".toList ++ "index.html".toList))
                  (env.access (env.root_site ++ u ++ "/".toList ++ "index.html".toList)))) := by
  have d1 : (env.root_site ++ u ++ "/".toList ++ "index.php".toList).drop env.root_site.length
      = u ++ "/index.php".toList := by
    rw [List.append_assoc, List.append_assoc, List.drop_left]
    rfl
  have d2 : (env.root_site ++ u ++ "/".toList ++ "index.html".toList).drop env.root_site.length
      = u ++ "/index.html".toList := by
    rw [List.append_assoc, List.append_assoc, List.drop_left]
    rfl
  have F1 : strstr ((env.root_site ++ u ++ "/".toList ++ "index.php".toList).drop
      env.root_site.length) "/index.php".toList ≠ none := by
    rw [d1]
    exact (strstr_isSome_iff _ _).mpr (List.suffix_append _ _).isInfix
  have F3 : strstr ((env.root_site ++ u ++ "/".toList ++ "index.html".toList).drop
      env.root_site.length) "/index.html".toList ≠ none := by
    rw [d2]
    exact (strstr_isSome_iff _ _).mpr (List.suffix_append _ _).isInfix
  have hdot5 : '.' ∉ env.root_site ++ u ++ "/".toList ++ "index".toList := by
    intro h
    rcases List.mem_append.mp h with h | h
    · exact hdot h
    · exact absurd h (by decide)
  have F2 : strstr (env.root_site ++ u ++ "/".toList ++ "index.php".toList) ".php".toList
      = some (env.root_site ++ u ++ "/".toList ++ "index".toList).length := by
    have := strstr_after (env.root_site ++ u ++ "/".toList ++ "index".toList) ".php".toList []
      '.' 0 (by decide) (by decide) hdot5
    rw [List.append_nil] at this
    rw [← this]
    congr 1
    simp only [List.append_assoc]
    rfl
  have T2 : (env.root_site ++ u ++ "/".toList ++ "index.php".toList).take
        (env.root_site ++ u ++ "/".toList ++ "index".toList).length ++ ".html".toList
      = env.root_site ++ u ++ "/".toList ++ "index.html".toList := by
    have e : env.root_site ++ u ++ "/".toList ++ "index.php".toList
        = (env.root_site ++ u ++ "/".toList ++ "index".toList) ++ ".php".toList := by
      simp only [List.append_assoc]; rfl
    rw [e, List.take_left]
    simp only [List.append_assoc]
    rfl
  have F4 : strstr (env.root_site ++ u ++ "/".toList ++ "index.html".toList) "index.html".toList
      = some (env.root_site ++ u ++ "/".toList).length := by
    have := strstr_after (env.root_site ++ u ++ "/".toList) "index.html".toList []
      '.' 5 (by decide) (by decide) hdot
    rw [List.append_nil] at this
    exact this
  unfold get_lookup
  dsimp only
  by_cases h1 : env.access (env.root_site ++ u ++ "/".toList ++ "index.php".toList) = none
  · rw [if_pos h1, if_neg (fun hh => hh.1 h1)]
    unfold get_resolve
    dsimp only
    rw [if_neg (fun hh => hh.1 h1), if_neg (fun hh => hh h1), h1]
  · rw [if_neg h1, if_pos ⟨h1, F1⟩, F2, Option.getD_some, T2]
    congr 1
    unfold get_resolve
    dsimp only
    by_cases h2 : env.access (env.root_site ++ u ++ "/".toList ++ "index.html".toList) = none
    · rw [if_pos h2, if_neg (fun hh => hh.1 h2), if_neg (fun hh => hh h2), h2]
    · rw [if_neg h2, if_pos ⟨h2, F3⟩, F4, Option.getD_some, List.take_left]

/-- The token `sscanf` stores is not empty. -/
theorem sscanf_path_ne_nil (h token : CStr) (ht : sscanf_path h = some token) : token ≠ [] := by
  unfold sscanf_path at ht
  split_ifs at ht with h1 h2
  injection ht with ht
  rw [← ht]
  exact h2

/-- The directory part of an index candidate is the root, something, and a final `/`. -/
theorem index_dir_shape (env : Env) (token : CStr) (hne : token ≠ []) :
    ∃ u, index_dir env token = env.root_site ++ u ++ "/".toList := by
  unfold index_dir
  split_ifs with h
  · have hl : token.getLast? = some '/' := by
      rw [List.getLast?_append_of_ne_nil _ hne] at h
      exact h
    refine ⟨token.dropLast, ?_⟩
    have := List.dropLast_append_getLast? '/' (by rw [hl]; exact rfl)
    rw [List.append_assoc]
    congr 1
    exact this.symm
  · exact ⟨token, rfl⟩

/-- With no dot in root ++ token, `get` appends the index name in the array, tests `index.php`,
then stores and tests `index.html`, then lists the directory. -/
theorem get_index_chain (env : Env) (fuel : Nat) (req : request_info) (sys : Sys)
    (token : CStr) (htok : sscanf_path (cstr (req.request_h.getD [])) = some token)
    (hnodot : '.' ∉ env.root_site ++ token) :
    get env fuel req sys
      = in_path env (index_dir env token ++ "index.php".toList) req sys
          (if env.access (index_dir env token ++ "index.php".toList) = none then
            get_file env fuel (index_dir env token ++ "index.php".toList) req
              (((sys.note (Event.access (index_dir env token ++ "index.php".toList)) none).note
                  (Event.access (index_dir env token ++ "index.php".toList)) none).note
                (Event.access (index_dir env token ++ "index.php".toList)) none)
          else
            in_path env (index_dir env token ++ "index.html".toList) req
              (sys.note (Event.access (index_dir env token ++ "index.php".toList))
                (env.access (index_dir env token ++ "index.php".toList)))
              (if env.access (index_dir env token ++ "index.html".toList) = none then
                get_file env fuel (index_dir env token ++ "index.html".toList) req
                  (((sys.note (Event.access (index_dir env token ++ "index.php".toList))
                      (env.access (index_dir env token ++ "index.php".toList))).note
                      (Event.access (index_dir env token ++ "index.html".toList)) none).note
                    (Event.access (index_dir env token ++ "index.html".toList)) none)
              else
                send_list env (index_dir env token) req
                  ((sys.note (Event.access (index_dir env token ++ "index.php".toList))
                      (env.access (index_dir env token ++ "index.php".toList))).note
                    (Event.access (index_dir env token ++ "index.html".toList))
                    (env.access (index_dir env token ++ "index.html".toList))))) := by
  have hne := sscanf_path_ne_nil _ _ htok
  have hstr : strchr (env.root_site ++ token) '.' = none := by
    by_contra h
    exact hnodot ((strchr_isSome_iff _ _).mp h)
  have hget : get env fuel req sys
      = in_path env (index_dir env token ++ "index.php".toList) req sys
          (get_lookup env fuel (index_dir env token ++ "index.php".toList) req sys) := by
    unfold get
    rw [htok]
    dsimp only
    rw [if_pos hstr]
    unfold index_dir
    split_ifs with h
    · rfl
    · rw [List.append_assoc (env.root_site ++ token)]
      rfl
  obtain ⟨u, hu⟩ := index_dir_shape env token hne
  have hdot : '.' ∉ env.root_site ++ u ++ "/".toList := by
    rw [← hu]
    unfold index_dir
    split_ifs
    · exact hnodot
    · intro h
      rcases List.mem_append.mp h with h | h
      · exact hnodot h
      · exact absurd h (by decide)
  rw [hget, hu, get_lookup_index env fuel u req sys hdot]

/-- A string that fits the array `path` with its NUL is stored and the run goes on. -/
theorem in_path_fits (env : Env) (s : CStr) (req : request_info) (sys : Sys) (next : Out)
    (h : s.length + 1 ≤ path_cap env) : in_path env s req sys next = next := by
  unfold in_path
  rw [if_pos h]

/-- With no dot in root ++ token and a directory part too long for `index.php` and a NUL to
follow it in the array `path`, `strncat` writes beyond the array before anything is tested. -/
theorem get_index_overrun (env : Env) (fuel : Nat) (req : request_info) (sys : Sys)
    (token : CStr) (htok : sscanf_path (cstr (req.request_h.getD [])) = some token)
    (hnodot : '.' ∉ env.root_site ++ token)
    (hlong : path_cap env < (index_dir env token ++ "index.php".toList).length + 1) :
    get env fuel req sys = { ret := Ret.fault, conn := req, sys := sys } := by
  rw [get_index_chain env fuel req sys token htok hnodot]
  unfold in_path
  rw [if_neg (by omega)]

set_option maxRecDepth 8000 in
/-- A fresh connection that reads a dot-free path of 64 bytes: `get_header` admits it, and the
`strncat` of `/index.php` in `get` writes beyond `path[69]` before anything is tested. -/
theorem long_index_path_overruns :
    (get_header example_env (request_info.fresh 5 "10.0.0.1".toList)
        (example_sys [delivers long_dir_head])).ret = Ret.val 1
    ∧ (handle_conn example_env 8 (request_info.fresh 5 "10.0.0.1".toList)
        (example_sys [delivers long_dir_head])).ret = Ret.fault
    ∧ (handle_conn example_env 8 (request_info.fresh 5 "10.0.0.1".toList)
        (example_sys [delivers long_dir_head])).sys.trace = [Event.read_header 0 4096] := by
  exact ⟨by decide, by decide, by decide⟩

/-- A write beyond the array `path` adds no call. -/
theorem in_path_extends (env : Env) (s : CStr) (req : request_info) (sys sys0 : Sys) (next : Out)
    (h0 : ∃ new, sys.trace = sys0.trace ++ new) (h : Extends sys0 next) :
    Extends sys0 (in_path env s req sys next) := by
  unfold in_path
  split_ifs
  · exact h
  · exact h0

/-- Adding calls to a world that already added some. -/
theorem Extends.after {sys sys1 : Sys} {o : Out} (h1 : ∃ new, sys1.trace = sys.trace ++ new)
    (h : Extends sys1 o) : Extends sys o := by
  obtain ⟨a, ha⟩ := h1
  obtain ⟨b, hb⟩ := h
  exact ⟨a ++ b, by rw [hb, ha, List.append_assoc]⟩

/-- `send_error` only adds calls. -/
theorem send_error_extends (env : Env) (status : Nat) (req : request_info) (sys : Sys) :
    Extends sys (send_error env status req sys) := by
  obtain ⟨new, h, _⟩ := send_error_trace env status req sys
  exact ⟨_, h⟩

/-- `send_list` only adds calls. -/
theorem send_list_extends (env : Env) (path : CStr) (req : request_info) (sys : Sys) :
    Extends sys (send_list env path req sys) := by
  unfold send_list
  dsimp only
  split
  · exact Extends.after ⟨_, List.append_assoc _ _ _⟩ (send_error_extends _ _ _ _)
  · obtain ⟨new, h, _⟩ := send_page_trace env _ req
      ((sys.note (Event.send_list path) none).note (Event.opendir path) none)
    exact Extends.after ⟨_, List.append_assoc _ _ _⟩ ⟨new, h⟩

/-- The file stage of `get` only adds calls. -/
theorem get_file_extends (env : Env) (fuel : Nat) (path : CStr) (req : request_info)
    (sys : Sys) : Extends sys (get_file env fuel path req sys) := by
  unfold get_file
  split
  · exact ⟨[_], rfl⟩
  · dsimp only
    obtain ⟨n1, h1, _⟩ := send_status_n_trace env 200 (set_mime_type env path (clamp_range req _))
      (subSz (set_mime_type env path (clamp_range req _)).range_end
        (set_mime_type env path (clamp_range req _)).range_start)
      (sys.note (Event.stat path) none)
    split_ifs
    · exact Extends.after ⟨[_], rfl⟩ ⟨n1, h1⟩
    · exact Extends.after ⟨[_], rfl⟩
        (Extends.after ⟨n1, h1⟩ (get_body_extends _ _ _ _ _ _).1)
    · exact Extends.after ⟨[_], rfl⟩ (get_body_extends _ _ _ _ _ _).1

/-- The second and third existence test only add calls. -/
theorem get_resolve_extends (env : Env) (fuel : Nat) (path : CStr) (req : request_info)
    (sys : Sys) : Extends sys (get_resolve env fuel path req sys) := by
  unfold get_resolve
  dsimp only
  split_ifs
  · exact Extends.after ⟨[_], rfl⟩ (send_list_extends _ _ _ _)
  · exact Extends.after ⟨_, List.append_assoc _ _ _⟩ (send_error_extends _ _ _ _)
  · exact Extends.after ⟨_, List.append_assoc _ _ _⟩ (get_file_extends _ _ _ _ _)

/-- The first call of the existence tests is `access` on the candidate. -/
theorem get_lookup_first (env : Env) (fuel : Nat) (path : CStr) (req : request_info)
    (sys : Sys) :
    ∃ rest, (get_lookup env fuel path req sys).sys.trace
      = sys.trace ++ Event.access path :: rest := by
  have key : ∀ o : Out, Extends (sys.note (Event.access path) (env.access path)) o →
      ∃ rest, o.sys.trace = sys.trace ++ Event.access path :: rest := by
    intro o ⟨new, h⟩
    exact ⟨new, by rw [h]; simp [Sys.note]⟩
  apply key
  unfold get_lookup
  dsimp only
  split_ifs
  · exact in_path_extends _ _ _ _ _ _ ⟨[], by simp⟩ (get_resolve_extends _ _ _ _ _)
  · exact get_resolve_extends _ _ _ _ _

/-- A token with a dot and without ".." is looked up as it is. -/
theorem get_dotted (env : Env) (fuel : Nat) (req : request_info) (sys : Sys)
    (token : CStr) (htok : sscanf_path (cstr (req.request_h.getD [])) = some token)
    (hdot : '.' ∈ token) (hnd : ¬ "..".toList <:+: env.root_site ++ token) :
    get env fuel req sys = get_lookup env fuel (env.root_site ++ token) req sys := by
  have h1 : ¬ strchr (env.root_site ++ token) '.' = none :=
    (strchr_isSome_iff _ _).mpr (List.mem_append.mpr (Or.inr hdot))
  have h2 : ¬ strstr (env.root_site ++ token) "..".toList ≠ none :=
    fun hh => hnd ((strstr_isSome_iff _ _).mp hh)
  unfold get
  rw [htok]
  dsimp only
  rw [if_neg h1, if_neg h2]

/-- One entry of `send_status_n` with the head `H` already in `response_h`: it offers `H` from
`progress`, adds the count moved, and returns 0 when the write reports `EWOULDBLOCK`. -/
theorem send_status_n_blocked (env : Env) (status fs : Nat) (req : request_info) (sys : Sys)
    (H : CStr) (k : Nat) (rest : List IOOutcome)
    (hH : H ≠ []) (hresp : req.response_h = some H) (hlen : H.length < 2 ^ 64)
    (hk : req.progress + k ≤ H.length) (hio : sys.io = blocks_after k :: rest) :
    send_status_n env status req fs { sys with errno := 0 }
      = { ret := Ret.val 0
          conn := { req with progress := req.progress + k }
          sys := { errno := EWOULDBLOCK, io := rest
                   trace := sys.trace ++ [Event.send_status_n status fs,
                     Event.write_all_to_socket H req.progress (some (H.length - req.progress))] } } := by
  have hl : ¬ H.length < 1 := by
    cases H with
    | nil => exact absurd rfl hH
    | cons a b => simp
  have hsub : subSz H.length req.progress = H.length - req.progress :=
    subSz_eq _ _ (by omega) hlen
  have hadd : addSz req.progress k = req.progress + k := by
    unfold addSz SIZE_MOD; exact Nat.mod_eq_of_lt (by omega)
  unfold send_status_n
  simp only [Sys.note, Sys.next, Sys.call, hio, hresp, Option.getD_some, hl, if_false,
    List.headD_cons, blocks_after, List.tail_cons, hsub, after_io, EWOULDBLOCK, EAGAIN]
  by_cases hk0 : 0 < k
  · simp [hk0, hadd, hresp]
  · have : k = 0 := by omega
    subst this
    simp [hresp]

/-- One entry of `send_status_n` with the head `H` already in `response_h` whose write goes
through: it offers `H` from `progress`, adds the count moved, and returns 1. -/
theorem send_status_n_completes (env : Env) (status fs : Nat) (req : request_info) (sys : Sys)
    (H : CStr) (k : Nat) (rest : List IOOutcome)
    (hH : H ≠ []) (hresp : req.response_h = some H) (hlen : H.length < 2 ^ 64)
    (hk : req.progress + k ≤ H.length) (hio : sys.io = takes k :: rest) :
    send_status_n env status req fs { sys with errno := 0 }
      = { ret := Ret.val 1
          conn := { req with progress := req.progress + k }
          sys := { errno := 0, io := rest
                   trace := sys.trace ++ [Event.send_status_n status fs,
                     Event.write_all_to_socket H req.progress (some (H.length - req.progress))] } } := by
  have hl : ¬ H.length < 1 := by
    cases H with
    | nil => exact absurd rfl hH
    | cons a b => simp
  have hsub : subSz H.length req.progress = H.length - req.progress :=
    subSz_eq _ _ (by omega) hlen
  have hadd : addSz req.progress k = req.progress + k := by
    unfold addSz SIZE_MOD; exact Nat.mod_eq_of_lt (by omega)
  unfold send_status_n
  simp only [Sys.note, Sys.next, Sys.call, hio, hresp, Option.getD_some, hl, if_false,
    List.headD_cons, takes, List.tail_cons, hsub, after_io, EWOULDBLOCK, EAGAIN, SIGPIPE]
  by_cases hk0 : 0 < k
  · simp [hk0, hadd, hresp]
  · have : k = 0 := by omega
    subst this
    simp [hresp]

/-- The counts moved by writes that each offer the head from the current offset add up to the
head from the first offset. -/
theorem accepted_bytes_eq (H : CStr) (cs : List Nat) (p : Nat) (h : p + cs.sum = H.length) :
    accepted_bytes H p cs = H.drop p := by
  induction cs generalizing p with
  | nil =>
    simp only [List.sum_nil, Nat.add_zero] at h
    rw [accepted_bytes, h, List.drop_length]
  | cons k ks ih =>
    rw [accepted_bytes, ih (p + k) (by rw [List.sum_cons] at h; omega)]
    rw [← List.drop_drop, List.take_append_drop]

/-- A run of entries of `send_status_n` over a head `H` that is in `response_h`: the entries
that block move the counts `ks`, the last one moves `last`, and together they reach the end
of `H`. -/
theorem resume_head_run (env : Env) (status fs : Nat) (H : CStr) (hH : H ≠ [])
    (hlen : H.length < 2 ^ 64) (last : Nat) (rest : List IOOutcome) :
    ∀ (ks : List Nat) (req : request_info) (sys : Sys), req.response_h = some H →
      req.progress + ks.sum + last = H.length →
      sys.io = ks.map blocks_after ++ takes last :: rest →
      (resume_head env status fs (ks.length + 1) req sys).ret = Ret.val 1
      ∧ (resume_head env status fs (ks.length + 1) req sys).conn.response_h = some H
      ∧ (resume_head env status fs (ks.length + 1) req sys).conn.progress = H.length
      ∧ (resume_head env status fs (ks.length + 1) req sys).sys.trace
          = sys.trace ++ head_calls status fs H req.progress (ks ++ [last]) := by
  intro ks
  induction ks with
  | nil =>
    intro req sys hresp hsum hio
    have hs := send_status_n_completes env status fs req sys H last rest hH hresp hlen
      (by simp at hsum; omega) (by simpa using hio)
    simp only [List.length_nil, Nat.zero_add, resume_head, hs]
    simp at hsum
    simp [hresp, hsum, head_calls]
  | cons k ks ih =>
    intro req sys hresp hsum hio
    have hs := send_status_n_blocked env status fs req sys H k
      (ks.map blocks_after ++ takes last :: rest) hH hresp hlen
      (by rw [List.sum_cons] at hsum; omega) (by simpa using hio)
    have := ih { req with progress := req.progress + k }
      { errno := EWOULDBLOCK, io := ks.map blocks_after ++ takes last :: rest
        trace := sys.trace ++ [Event.send_status_n status fs,
          Event.write_all_to_socket H req.progress (some (H.length - req.progress))] }
      hresp (by rw [List.sum_cons] at hsum; simp only; omega) rfl
    rw [List.length_cons, resume_head, hs]
    simp only [if_true]
    obtain ⟨h1, h2, h3, h4⟩ := this
    refine ⟨h1, h2, h3, ?_⟩
    rw [h4]
    simp [head_calls]

/-- The head `send_status_n` formats is not empty. -/
theorem response_head_ne_nil (env : Env) (status : Nat) (req : request_info) (fs : Nat) :
    response_head env status req fs ≠ [] := by
  have hpos : 0 < (response_head env status req fs).length := by
    simp only [response_head, status_line, List.length_append]
    have : 0 < "HTTP/1.1 ".toList.length := by decide
    omega
  intro h
  rw [h] at hpos
  exact absurd hpos (by simp)

/-- With an empty response buffer `send_status_n` acts as if the head it formats were there. -/
theorem send_status_n_formats (env : Env) (status fs : Nat) (req : request_info) (sys : Sys)
    (hempty : req.response_h.getD [] = []) :
    send_status_n env status req fs sys
      = send_status_n env status
          { req with response_h := some (response_head env status req fs) } fs sys := by
  have hne := response_head_ne_nil env status req fs
  have hl : ¬ (response_head env status req fs).length < 1 := by
    cases h : response_head env status req fs with
    | nil => exact absurd h hne
    | cons a b => simp
  have e : response_head env status
      { req with response_h := some (response_head env status req fs) } fs
      = response_head env status req fs := rfl
  unfold send_status_n
  simp only [hempty, List.length_nil, Nat.lt_one_iff, if_true, Option.getD_some, e, hl, if_false]

/-- The start-up state satisfies the invariant. -/
theorem TableInv_init : TableInv Server.init := by
  refine ⟨by simp [Server.init], ?_, by simp [Server.init]⟩
  intro fd
  simp only [Server.init, List.not_mem_nil, iff_false, not_exists]
  intro r h
  rw [List.getElem?_replicate] at h
  split_ifs at h
  simp at h

/-- `add_client` on a descriptor below 100 keeps the invariant. -/
theorem add_client_inv (fd : Nat) (ip : CStr) (s : Server) (hfd : fd < 100)
    (hs : TableInv s) : ∃ s1, add_client fd ip s = some s1 ∧ TableInv s1 := by
  obtain ⟨hlen, hiff, hnd⟩ := hs
  have hlt : fd < s.client_requests.length := by omega
  have hget : s.client_requests[fd]? = some s.client_requests[fd] := List.getElem?_eq_getElem hlt
  unfold add_client
  rw [hget]
  cases hv : s.client_requests[fd] with
  | none =>
    have hnot : fd ∉ s.registered := by
      intro hmem
      obtain ⟨r, hr⟩ := (hiff fd).mpr hmem
      rw [hget, hv] at hr
      simp at hr
    refine ⟨_, rfl, by simp [hlen], ?_, ?_⟩
    · intro fd1
      simp only [epoll_add, hnot, if_false, List.mem_append, List.mem_singleton]
      by_cases he : fd = fd1
      · subst he
        simp [List.getElem?_set, hlt]
      · have he1 : ¬ fd1 = fd := fun h => he h.symm
        simp only [List.getElem?_set, he, if_false, he1, or_false]
        exact hiff fd1
    · simp only [epoll_add, hnot, if_false]
      exact List.Nodup.append hnd (List.nodup_singleton fd) (by simpa using hnot)
  | some r =>
    have hmem : fd ∈ s.registered := (hiff fd).mp ⟨r, by rw [hget, hv]⟩
    refine ⟨_, rfl, hlen, ?_, ?_⟩
    · intro fd1
      simp only [epoll_add, hmem, if_true]
      exact hiff fd1
    · simp only [epoll_add, hmem, if_true]
      exact hnd

/-- `remove_client` on a descriptor below 100 keeps the invariant. -/
theorem remove_client_inv (fd : Nat) (s : Server) (hfd : fd < 100)
    (hs : TableInv s) : ∃ s1, remove_client fd s = some s1 ∧ TableInv s1 := by
  obtain ⟨hlen, hiff, hnd⟩ := hs
  have hlt : fd < s.client_requests.length := by omega
  have hget : s.client_requests[fd]? = some s.client_requests[fd] := List.getElem?_eq_getElem hlt
  unfold remove_client
  rw [hget]
  cases hv : s.client_requests[fd] with
  | none => exact ⟨s, rfl, hlen, hiff, hnd⟩
  | some r =>
    refine ⟨_, rfl, by simp [hlen], ?_, ?_⟩
    · intro fd1
      simp only [epoll_del, List.mem_filter, decide_eq_true_eq]
      by_cases he : fd = fd1
      · subst he
        simp [List.getElem?_set, hlt]
      · have he1 : fd1 ≠ fd := fun h => he h.symm
        simp only [List.getElem?_set, he, if_false, ne_eq, he1, not_false_eq_true, and_true]
        exact hiff fd1
    · exact List.Nodup.filter _ hnd

/-- A sequence of calls on descriptors below 100 keeps the invariant and never leaves the
array. -/
theorem run_ops_inv (ops : List TableOp) (s : Server) (hfd : ∀ op ∈ ops, op.fd < 100)
    (hs : TableInv s) : ∃ s1, run_ops ops s = some s1 ∧ TableInv s1 := by
  induction ops generalizing s with
  | nil => exact ⟨s, rfl, hs⟩
  | cons op ops ih =>
    have hop : op.fd < 100 := hfd op (List.mem_cons_self _ _)
    have hstep : ∃ s1, op.apply s = some s1 ∧ TableInv s1 := by
      cases op with
      | add fd ip => exact add_client_inv fd ip s hop hs
      | remove fd => exact remove_client_inv fd s hop hs
    obtain ⟨s1, h1, hi1⟩ := hstep
    obtain ⟨s2, h2, hi2⟩ := ih s1 (fun o ho => hfd o (List.mem_cons_of_mem _ ho)) hi1
    exact ⟨s2, by rw [run_ops, h1]; exact h2, hi2⟩

/-! ## Helper lemmas for the invariant of the window -/

/-- A result that hands the connection back as it was. -/
theorem keeps_refl (req : request_info) (ret : Ret) (sys : Sys) :
    Keeps req { ret := ret, conn := req, sys := sys } := ⟨rfl, rfl, fun h => h⟩

/-- Keeping from a connection that itself kept. -/
theorem keeps_trans {a b : request_info} {o : Out} (h : Keeps b o)
    (h1 : b.req_type = a.req_type) (h2 : b.range_start = a.range_start)
    (h3 : a.stage ≠ 0 → b.stage ≠ 0) : Keeps a o :=
  ⟨h.1.trans h1, h.2.1.trans h2, fun ha => h.2.2 (h3 ha)⟩

/-- Writing a body keeps the method, the start of the window and the stage. -/
theorem send_body_keeps (buff : CStr) (req : request_info) (sys : Sys) :
    Keeps req (send_body buff req sys) := by
  have hf := after_io_fields req sys.next (sys.call (Event.write_all_to_socket buff req.progress
    (if req.progress = 0 then some buff.length else none)))
  unfold send_body
  dsimp only
  split <;> exact ⟨hf.2.2.2.2.2, hf.2.2.2.1, fun h => by rw [hf.2.1]; exact h⟩

/-- `send_status_n` keeps the method, the start of the window and the stage. -/
theorem send_status_n_keeps (env : Env) (status : Nat) (req : request_info) (n : Nat)
    (sys : Sys) : Keeps req (send_status_n env status req n sys) := by
  obtain ⟨_, h2, h3, h4, _⟩ := send_status_n_fields env status req n sys
  exact ⟨h4, h2, fun h => by rw [h3]; exact h⟩

/-- Sending a synthesized page keeps the method and the start of the window and does not go
back to stage 0. -/
theorem send_page_keeps (env : Env) (buff : CStr) (req : request_info) (sys : Sys) :
    Keeps req (send_page env buff req sys) := by
  have h1 := send_status_n_keeps env 200 req buff.length sys
  unfold send_page
  by_cases a : req.stage = 1
  · rw [if_pos a]
    dsimp only
    split_ifs with b c
    · exact h1
    · exact keeps_trans (send_body_keeps _ _ _) h1.1 h1.2.1 (fun _ => by simp [c])
    · exact ⟨h1.1, h1.2.1, fun _ => by
        have := (send_status_n_fields env 200 req buff.length sys).2.2.1
        simp [this, a, addSz, SIZE_MOD]⟩
  · rw [if_neg a]
    split_ifs with b
    · exact send_body_keeps _ _ _
    · exact keeps_refl _ _ _

/-- `send_error` keeps the method and the start of the window. -/
theorem send_error_keeps (env : Env) (status : Nat) (req : request_info) (sys : Sys) :
    Keeps req (send_error env status req sys) := send_page_keeps _ _ _ _

/-- `send_list` keeps the method and the start of the window. -/
theorem send_list_keeps (env : Env) (path : CStr) (req : request_info) (sys : Sys) :
    Keeps req (send_list env path req sys) := by
  unfold send_list
  dsimp only
  split
  · exact send_error_keeps _ _ _ _
  · exact send_page_keeps _ _ _ _

/-- The body loop keeps the method, the start of the window and the stage. -/
theorem get_loop_keeps (fuel : Nat) (req : request_info) (ws : Int) (errno size : Nat) (sys : Sys) :
    Keeps req { ret := (get_loop fuel req ws errno size).1,
                conn := (get_loop fuel req ws errno size).2, sys := sys } := by
  induction fuel generalizing req with
  | zero => exact keeps_refl _ _ _
  | succ k ih =>
    unfold get_loop
    dsimp only
    split_ifs <;> first
      | exact ⟨rfl, rfl, fun h => h⟩
      | exact keeps_trans (ih _) rfl rfl (fun h => h)

/-- Stage 2 of `get` keeps the method, the start of the window and the stage. -/
theorem get_body_keeps (env : Env) (fuel : Nat) (path : CStr) (size : Nat)
    (req : request_info) (sys : Sys) : Keeps req (get_body env fuel path size req sys) := by
  unfold get_body
  dsimp only
  split_ifs <;> first
    | exact keeps_refl _ _ _
    | exact get_loop_keeps _ _ _ _ _ _

/-- The file stage of `get` keeps the method and the start of the window and does not go back
to stage 0. -/
theorem get_file_keeps (env : Env) (fuel : Nat) (path : CStr) (req : request_info)
    (sys : Sys) : Keeps req (get_file env fuel path req sys) := by
  unfold get_file
  split
  · exact keeps_refl _ _ _
  · next n _ =>
    have hc := clamp_range_fields req n
    have hm := set_mime_type_fields env path (clamp_range req n)
    have k0 : ∀ o, Keeps (set_mime_type env path (clamp_range req n)) o → Keeps req o :=
      fun o h => keeps_trans h (hm.2.2.2.1.trans hc.2.2.2.1) (hm.1.trans hc.2.1)
        (fun hs => by rw [hm.2.2.1, hc.2.2.1]; exact hs)
    have k1 := send_status_n_keeps env 200 (set_mime_type env path (clamp_range req n))
      (subSz (set_mime_type env path (clamp_range req n)).range_end
        (set_mime_type env path (clamp_range req n)).range_start)
      (sys.note (Event.stat path) none)
    dsimp only
    split_ifs with a b
    · exact k0 _ k1
    · have hst := (send_status_n_fields env 200 (set_mime_type env path (clamp_range req n))
        (subSz (set_mime_type env path (clamp_range req n)).range_end
          (set_mime_type env path (clamp_range req n)).range_start)
        (sys.note (Event.stat path) none)).2.2.1
      exact k0 _ (keeps_trans (get_body_keeps _ _ _ _ _ _) k1.1 k1.2.1
        (fun _ => by simp [hst, a, addSz, SIZE_MOD]))
    · exact k0 _ (get_body_keeps _ _ _ _ _ _)

/-- The second and third existence test keep the method and the start of the window. -/
theorem get_resolve_keeps (env : Env) (fuel : Nat) (path : CStr) (req : request_info)
    (sys : Sys) : Keeps req (get_resolve env fuel path req sys) := by
  unfold get_resolve
  dsimp only
  split_ifs
  · exact send_list_keeps _ _ _ _
  · exact send_error_keeps _ _ _ _
  · exact get_file_keeps _ _ _ _ _

/-- Storing a name in the array `path` changes nothing of the connection. -/
theorem in_path_keeps (env : Env) (s : CStr) (req : request_info) (sys : Sys) (next : Out)
    (h : Keeps req next) : Keeps req (in_path env s req sys next) := by
  unfold in_path
  split_ifs
  · exact h
  · exact keeps_refl _ _ _

/-- The existence tests keep the method and the start of the window. -/
theorem get_lookup_keeps (env : Env) (fuel : Nat) (path : CStr) (req : request_info)
    (sys : Sys) : Keeps req (get_lookup env fuel path req sys) := by
  unfold get_lookup
  dsimp only
  split_ifs
  · exact in_path_keeps _ _ _ _ _ (get_resolve_keeps _ _ _ _ _)
  · exact get_resolve_keeps _ _ _ _ _

/-- `get` keeps the method and the start of the window and does not go back to stage 0. -/
theorem get_keeps (env : Env) (fuel : Nat) (req : request_info) (sys : Sys) :
    Keeps req (get env fuel req sys) := by
  unfold get
  split
  · exact send_error_keeps _ _ _ _
  · dsimp only
    split_ifs
    · exact in_path_keeps _ _ _ _ _ (get_lookup_keeps _ _ _ _ _)
    · exact in_path_keeps _ _ _ _ _ (get_lookup_keeps _ _ _ _ _)
    · exact send_error_keeps _ _ _ _
    · exact get_lookup_keeps _ _ _ _ _

/-- Lines 277-304 on a connection past stage 0 that has its method: the connection stays
settled. -/
theorem dispatch_settled (env : Env) (fuel : Nat) (req : request_info) (sys : Sys)
    (hstage : req.stage ≠ 0) (htype : req.req_type ≠ none)
    (hwin : req.req_type = some verb.GET ∨ req.req_type = some verb.HEAD → req.range_start = 0) :
    Settled (dispatch env fuel req sys).conn := by
  have key : ∀ o, Keeps req o → Settled o.conn := fun o h =>
    Or.inr ⟨h.2.2 hstage, by rw [h.1]; exact htype, fun hv => by
      rw [h.2.1]; exact hwin (by rw [← h.1]; exact hv)⟩
  unfold dispatch
  dsimp only
  rw [if_neg htype]
  split_ifs
  · exact key _ (send_error_keeps _ _ _ _)
  · exact key _ (get_keeps _ _ _ _)
  · exact key _ (keeps_trans (send_error_keeps _ _ _ _) rfl rfl (fun h => h))
  · exact key _ (keeps_refl _ _ _)

/-- An entry of `handle_request` that does not end in an invalid access leaves a settled
connection settled. -/
theorem handle_conn_settled (env : Env) (fuel : Nat) (req : request_info) (sys : Sys)
    (h : Settled req) (hret : (handle_conn env fuel req sys).ret ≠ Ret.fault) :
    Settled (handle_conn env fuel req sys).conn := by
  unfold handle_conn at hret ⊢
  dsimp only at hret ⊢
  rcases h with ⟨hs, ht⟩ | ⟨hs, ht, hw⟩
  · obtain ⟨c1, c2, c3⟩ := get_header_conn env req { sys with errno := 0 } hs
    rw [if_pos hs] at hret ⊢
    by_cases h1 : (get_header env req { sys with errno := 0 }).ret = Ret.val 1
    · rw [if_neg (not_not.mpr h1)] at hret ⊢
      unfold log_and_dispatch at hret ⊢
      split_ifs at hret ⊢ with hl
      · exact absurd rfl hret
      · rw [dispatch_classifies _ _ _ _ (by rw [← ht, ← c1])]
        exact dispatch_settled _ _ _ _ (by simp) (by simp) (fun hv => (c3 h1 (by
          rcases hv with hv | hv
          · exact Or.inl (Option.some.inj hv)
          · exact Or.inr (Option.some.inj hv))).1)
    · rw [if_pos h1]
      exact Or.inl ⟨c2 h1, c1.trans ht⟩
  · rw [if_neg hs] at hret ⊢
    unfold log_and_dispatch at hret ⊢
    split_ifs at hret ⊢ with hl
    · exact absurd rfl hret
    · exact dispatch_settled _ _ _ _ hs ht hw

/-- A fresh connection is settled, and stays so over every sequence of entries. -/
theorem serve_settled (fuel : Nat) (entries : List (Env × Sys)) (req0 req : request_info)
    (h0 : Settled req0) (hrun : serve fuel entries req0 = some req) : Settled req := by
  induction entries generalizing req0 with
  | nil =>
    simp only [serve, Option.some.injEq] at hrun
    exact hrun ▸ h0
  | cons e rest ih =>
    obtain ⟨env, sys⟩ := e
    simp only [serve] at hrun
    split_ifs at hrun with hf
    exact ih _ (handle_conn_settled env fuel req0 sys h0 hf) hrun

/-- A call that is not a file-system call is not `stat`. -/
theorem isStat_of_isFs (e : Event) (h : e.isFs = false) : e.isStat = false := by
  cases e <;> simp_all [Event.isFs, Event.isStat]

/-- `send_error` adds no call of `stat`. -/
theorem send_error_no_stat (env : Env) (status : Nat) (req : request_info) (sys : Sys) :
    NoStat sys (send_error env status req sys) := by
  obtain ⟨new, h, f⟩ := send_error_trace env status req sys
  refine ⟨_, h, ?_⟩
  intro e he
  rcases List.mem_cons.mp he with rfl | he
  · rfl
  · exact isStat_of_isFs e (f e he)

/-- Adding calls that are not `stat` before a result without `stat`. -/
theorem no_stat_after {sys sys1 : Sys} {o : Out} (pre : List Event)
    (h1 : sys1.trace = sys.trace ++ pre) (hp : ∀ e ∈ pre, e.isStat = false)
    (h : NoStat sys1 o) : NoStat sys o := by
  obtain ⟨new, hn, hf⟩ := h
  refine ⟨pre ++ new, by rw [hn, h1, List.append_assoc], ?_⟩
  intro e he
  rcases List.mem_append.mp he with he | he
  · exact hp e he
  · exact hf e he

/-- `send_list` adds no call of `stat`. -/
theorem send_list_no_stat (env : Env) (path : CStr) (req : request_info) (sys : Sys) :
    NoStat sys (send_list env path req sys) := by
  unfold send_list
  dsimp only
  split
  · exact no_stat_after [Event.send_list path, Event.opendir path] (by simp [Sys.note])
      (by simp [Event.isStat]) (send_error_no_stat _ _ _ _)
  · obtain ⟨new, h, f⟩ := send_page_trace env (listing env path ‹_›) req
      ((sys.note (Event.send_list path) none).note (Event.opendir path) none)
    exact no_stat_after [Event.send_list path, Event.opendir path] (by simp [Sys.note])
      (by simp [Event.isStat]) ⟨new, h, fun e he => isStat_of_isFs e (f e he)⟩

/-- Adding calls that are neither `stat` nor `send_status_n` nor a file transfer before the file stage. -/
theorem at_file_after {env : Env} {fuel : Nat} {req : request_info} {sys sys1 : Sys} {o : Out}
    (pre : List Event) (h1 : sys1.trace = sys.trace ++ pre)
    (hp : ∀ e ∈ pre, e.isStat = false ∧ e.isHead = false ∧ e.isTransfer = false)
    (h : AtFile env fuel req sys1 o) : AtFile env fuel req sys o := by
  obtain ⟨path, sys2, pre2, ho, ht, hf⟩ := h
  refine ⟨path, sys2, pre ++ pre2, ho, by rw [ht, h1, List.append_assoc], ?_⟩
  intro e he
  rcases List.mem_append.mp he with he | he
  · exact hp e he
  · exact hf e he

/-- The second and third existence test end without `stat` or in the file stage. -/
theorem get_resolve_cases (env : Env) (fuel : Nat) (path : CStr) (req : request_info)
    (sys : Sys) :
    NoStat sys (get_resolve env fuel path req sys)
      ∨ AtFile env fuel req sys (get_resolve env fuel path req sys) := by
  unfold get_resolve
  dsimp only
  split_ifs
  · exact Or.inl (no_stat_after [Event.access path] (by simp [Sys.note]) (by simp [Event.isStat])
      (send_list_no_stat _ _ _ _))
  · exact Or.inl (no_stat_after [Event.access path, Event.access path] (by simp [Sys.note])
      (by simp [Event.isStat]) (send_error_no_stat _ _ _ _))
  · exact Or.inr ⟨path, _, [Event.access path, Event.access path], rfl, by simp [Sys.note],
      by simp [Event.isStat, Event.isHead, Event.isTransfer]⟩

/-- The existence tests end without `stat` or in the file stage. -/
theorem get_lookup_cases (env : Env) (fuel : Nat) (path : CStr) (req : request_info)
    (sys : Sys) :
    NoStat sys (get_lookup env fuel path req sys)
      ∨ AtFile env fuel req sys (get_lookup env fuel path req sys) := by
  have key : ∀ p, NoStat sys (get_resolve env fuel p req
        (sys.note (Event.access path) (env.access path)))
      ∨ AtFile env fuel req sys (get_resolve env fuel p req
        (sys.note (Event.access path) (env.access path))) := by
    intro p
    rcases get_resolve_cases env fuel p req (sys.note (Event.access path) (env.access path))
      with h | h
    · exact Or.inl (no_stat_after [Event.access path] (by simp [Sys.note])
        (by simp [Event.isStat]) h)
    · exact Or.inr (at_file_after [Event.access path] (by simp [Sys.note])
        (by simp [Event.isStat, Event.isHead, Event.isTransfer]) h)
  unfold get_lookup
  dsimp only
  split_ifs
  · unfold in_path
    split_ifs
    · exact key _
    · exact Or.inl ⟨[Event.access path], by simp [Sys.note], by simp [Event.isStat]⟩
  · exact key _

/-- `get` ends without `stat` or in the file stage. -/
theorem get_cases (env : Env) (fuel : Nat) (req : request_info) (sys : Sys) :
    NoStat sys (get env fuel req sys) ∨ AtFile env fuel req sys (get env fuel req sys) := by
  unfold get
  split
  · exact Or.inl (send_error_no_stat _ _ _ _)
  · dsimp only
    split_ifs
    · unfold in_path
      split_ifs
      · exact get_lookup_cases _ _ _ _ _
      · exact Or.inl ⟨[], by simp, by simp⟩
    · unfold in_path
      split_ifs
      · exact get_lookup_cases _ _ _ _ _
      · exact Or.inl ⟨[], by simp, by simp⟩
    · exact Or.inl (send_error_no_stat _ _ _ _)
    · exact get_lookup_cases _ _ _ _ _

/-- Lines 277-304 on a connection that has its method end without `stat` or in the file stage
of a GET or HEAD connection. -/
theorem dispatch_cases (env : Env) (fuel : Nat) (req : request_info) (sys : Sys)
    (htype : req.req_type ≠ none) :
    NoStat sys (dispatch env fuel req sys)
      ∨ ((req.req_type = some verb.GET ∨ req.req_type = some verb.HEAD)
          ∧ AtFile env fuel req sys (dispatch env fuel req sys)) := by
  unfold dispatch
  dsimp only
  rw [if_neg htype]
  split_ifs with a b c
  · exact Or.inl (send_error_no_stat _ _ _ _)
  · rcases get_cases env fuel req sys with h | h
    · exact Or.inl h
    · exact Or.inr ⟨b, h⟩
  · exact Or.inl (send_error_no_stat _ _ _ _)
  · exact Or.inl ⟨[], by simp, by simp⟩

/-- The checks of `get_header` in stage 0 add neither `stat` nor `send_status_n` nor a file transfer. -/
theorem check_header_events (env : Env) (h : CStr) (req : request_info) (sys : Sys)
    (hstage : req.stage = 0) :
    ∃ new, (check_header env h req sys).sys.trace = sys.trace ++ new
      ∧ ∀ e ∈ new, e.isStat = false ∧ e.isHead = false ∧ e.isTransfer = false := by
  have q1 : ∀ ret, ∃ new, ({ ret := ret, conn := req, sys := sys } : Out).sys.trace
      = sys.trace ++ new ∧ ∀ e ∈ new, e.isStat = false ∧ e.isHead = false ∧ e.isTransfer = false :=
    fun _ => ⟨[], by simp, by simp⟩
  have q2 : ∀ status, ∃ new, (send_error env status req sys).sys.trace = sys.trace ++ new
      ∧ ∀ e ∈ new, e.isStat = false ∧ e.isHead = false ∧ e.isTransfer = false := by
    intro status
    rw [send_error_other_stage env status req sys (by omega) (by omega)]
    exact ⟨[Event.send_error status], rfl, by simp [Event.isStat, Event.isHead, Event.isTransfer]⟩
  have q3 : ∃ new, (accept_header h req sys).sys.trace = sys.trace ++ new
      ∧ ∀ e ∈ new, e.isStat = false ∧ e.isHead = false ∧ e.isTransfer = false :=
    ⟨[], by simp [accept_header], by simp⟩
  unfold check_header
  repeat' split
  all_goals first | exact q1 _ | exact q2 _ | exact q3

/-- In stage 0 `get_header` adds neither `stat` nor `send_status_n` nor a file transfer. -/
theorem get_header_events (env : Env) (req : request_info) (sys : Sys) (hstage : req.stage = 0) :
    ∃ new, (get_header env req sys).sys.trace = sys.trace ++ new
      ∧ ∀ e ∈ new, e.isStat = false ∧ e.isHead = false ∧ e.isTransfer = false := by
  have hfields := after_io_fields { req with request_h := some (read_buffer env req sys) }
    sys.next (sys_after_read env req sys)
  have hq := check_header_events env (cstr (read_buffer env req sys))
    (conn_after_read env req sys) (sys_after_read env req sys)
    (by unfold conn_after_read; rw [hfields.2.1]; exact hstage)
  unfold get_header
  by_cases hret : sys.next.ret = -1
  · rw [if_pos hret, send_error_other_stage env 413 _ _ (by simp [hstage]) (by simp [hstage])]
    exact ⟨[_, _], List.append_assoc _ _ _, by simp [Event.isStat, Event.isHead, Event.isTransfer]⟩
  · rw [if_neg hret]
    split
    · exact ⟨[_], rfl, by simp [Event.isStat, Event.isHead, Event.isTransfer]⟩
    · obtain ⟨new, ht, hn⟩ := hq
      refine ⟨Event.read_header req.progress (subSz env.MAX_HEADER_SIZE req.progress) :: new,
        ?_, ?_⟩
      · rw [ht]; simp [sys_after_read, Sys.call]
      · intro e he
        rcases List.mem_cons.mp he with rfl | h
        · exact ⟨rfl, rfl, rfl⟩
        · exact hn e h

/-- Stage 2 of `get` adds neither `stat` nor `send_status_n`, and a transfer it asks for has
the count `range_end - range_start - progress` and the offset `range_start + progress`. -/
theorem get_body_events (env : Env) (fuel : Nat) (path : CStr) (size : Nat)
    (req : request_info) (sys : Sys) :
    ∃ new, (get_body env fuel path size req sys).sys.trace = sys.trace ++ new
      ∧ (∀ e ∈ new, e.isStat = false ∧ e.isHead = false)
      ∧ ∀ p opened cnt off, Event.write_all_to_socket_from_file p opened cnt off ∈ new →
          cnt = subSz (subSz req.range_end req.range_start) req.progress
          ∧ off = addSz req.range_start req.progress := by
  have key : ∀ b : Bool,
      (∀ e ∈ [Event.fopen path, Event.write_all_to_socket_from_file path b
          (subSz (subSz req.range_end req.range_start) req.progress)
          (addSz req.range_start req.progress)], e.isStat = false ∧ e.isHead = false)
      ∧ ∀ p opened cnt off, Event.write_all_to_socket_from_file p opened cnt off
          ∈ [Event.fopen path, Event.write_all_to_socket_from_file path b
              (subSz (subSz req.range_end req.range_start) req.progress)
              (addSz req.range_start req.progress)] →
          cnt = subSz (subSz req.range_end req.range_start) req.progress
          ∧ off = addSz req.range_start req.progress := by
    intro b
    refine ⟨by simp [Event.isStat, Event.isHead], ?_⟩
    intro p opened cnt off hmem
    simp only [List.mem_cons, reduceCtorEq, false_or, List.mem_singleton,
      Event.write_all_to_socket_from_file.injEq, List.not_mem_nil, or_false] at hmem
    exact ⟨hmem.2.2.1, hmem.2.2.2⟩
  unfold get_body
  dsimp only
  split_ifs
  · exact ⟨[], by simp, by simp, by simp⟩
  · exact ⟨_, List.append_assoc _ _ _, (key _).1, (key _).2⟩
  · exact ⟨_, List.append_assoc _ _ _, (key _).1, (key _).2⟩
  · exact ⟨_, List.append_assoc _ _ _, (key _).1, (key _).2⟩
  · exact ⟨[], by simp, by simp, by simp⟩

/-- The file stage of `get` on a connection whose window starts at 0: its first call is `stat`
on the path and it calls `stat` no more; when `stat` gives the size `n`, the connection is left
with `range_start = 0` and `range_end <= n`, a length handed to `send_status_n` is that
`range_end`, and a transfer is asked for that `range_end` less the progress made, from the
offset of that progress. -/
theorem get_file_window (env : Env) (fuel : Nat) (path : CStr) (req : request_info) (sys : Sys)
    (hs : req.range_start = 0) :
    ∃ new, (get_file env fuel path req sys).sys.trace = sys.trace ++ Event.stat path :: new
      ∧ (∀ e ∈ new, e.isStat = false)
      ∧ ∀ n, env.stat path = Except.ok n → n < 2 ^ 64 →
          (get_file env fuel path req sys).conn.range_start = 0
          ∧ (get_file env fuel path req sys).conn.range_end ≤ n
          ∧ (∀ status len, Event.send_status_n status len ∈ new →
              len = (get_file env fuel path req sys).conn.range_end)
          ∧ ∀ p opened cnt off, Event.write_all_to_socket_from_file p opened cnt off ∈ new →
              ∃ prog, cnt = subSz (get_file env fuel path req sys).conn.range_end prog
                ∧ off = addSz 0 prog := by
  have hk := get_file_keeps env fuel path req sys
  cases hstat : env.stat path with
  | error e =>
    refine ⟨[], ?_, by simp, ?_⟩
    · unfold get_file; rw [hstat]; rfl
    · intro n hn; cases hn
  | ok m =>
    have hre := get_file_range_end_eq env fuel path req sys m hstat
    have hc := clamp_range_fields req m
    have hm := set_mime_type_fields env path (clamp_range req m)
    have hle : (get_file env fuel path req sys).conn.range_end ≤ m := by
      rw [hre]; split_ifs <;> omega
    have unf : get_file env fuel path req sys
        = (if (set_mime_type env path (clamp_range req m)).stage = 1 then
            if (send_status_n env 200 (set_mime_type env path (clamp_range req m))
                (subSz (set_mime_type env path (clamp_range req m)).range_end
                  (set_mime_type env path (clamp_range req m)).range_start)
                (sys.note (Event.stat path) none)).ret ≠ Ret.val 1 then
              send_status_n env 200 (set_mime_type env path (clamp_range req m))
                (subSz (set_mime_type env path (clamp_range req m)).range_end
                  (set_mime_type env path (clamp_range req m)).range_start)
                (sys.note (Event.stat path) none)
            else
              get_body env fuel path m
                { (send_status_n env 200 (set_mime_type env path (clamp_range req m))
                    (subSz (set_mime_type env path (clamp_range req m)).range_end
                      (set_mime_type env path (clamp_range req m)).range_start)
                    (sys.note (Event.stat path) none)).conn with
                  stage := addSz (send_status_n env 200 (set_mime_type env path (clamp_range req m))
                    (subSz (set_mime_type env path (clamp_range req m)).range_end
                      (set_mime_type env path (clamp_range req m)).range_start)
                    (sys.note (Event.stat path) none)).conn.stage 1,
                  progress := 0 }
                (send_status_n env 200 (set_mime_type env path (clamp_range req m))
                    (subSz (set_mime_type env path (clamp_range req m)).range_end
                      (set_mime_type env path (clamp_range req m)).range_start)
                    (sys.note (Event.stat path) none)).sys
          else get_body env fuel path m (set_mime_type env path (clamp_range req m))
            (sys.note (Event.stat path) none)) := by
      unfold get_file
      rw [hstat]
    have r_start : (set_mime_type env path (clamp_range req m)).range_start = 0 := by
      rw [hm.1, hc.2.1, hs]
    have r_end : (set_mime_type env path (clamp_range req m)).range_end
        = (get_file env fuel path req sys).conn.range_end := by
      rw [hre, hm.2.1, hc.1]
    have hlen : m < 2 ^ 64 →
        subSz (set_mime_type env path (clamp_range req m)).range_end
          (set_mime_type env path (clamp_range req m)).range_start
        = (get_file env fuel path req sys).conn.range_end := by
      intro hlt
      rw [r_start, r_end, subSz_eq _ _ (Nat.zero_le _) (by omega)]
      rfl
    generalize set_mime_type env path (clamp_range req m) = R at unf hlen r_start
    obtain ⟨L, hL⟩ : ∃ L, L = subSz R.range_end R.range_start := ⟨_, rfl⟩
    rw [← hL] at unf hlen
    obtain ⟨f1, f2, _, _, head, f5⟩ := send_status_n_fields env 200 R L
      (sys.note (Event.stat path) none)
    have fin : ∀ new, (get_file env fuel path req sys).sys.trace
          = sys.trace ++ Event.stat path :: new →
        (∀ e ∈ new, e.isStat = false) →
        (∀ status len, Event.send_status_n status len ∈ new → m < 2 ^ 64 →
          len = (get_file env fuel path req sys).conn.range_end) →
        (∀ p opened cnt off, Event.write_all_to_socket_from_file p opened cnt off ∈ new →
          m < 2 ^ 64 →
          ∃ prog, cnt = subSz (get_file env fuel path req sys).conn.range_end prog
            ∧ off = addSz 0 prog) →
        ∃ new, (get_file env fuel path req sys).sys.trace = sys.trace ++ Event.stat path :: new
          ∧ (∀ e ∈ new, e.isStat = false)
          ∧ ∀ n, Except.ok m = (Except.ok n : Except Nat Nat) → n < 2 ^ 64 →
              (get_file env fuel path req sys).conn.range_start = 0
              ∧ (get_file env fuel path req sys).conn.range_end ≤ n
              ∧ (∀ status len, Event.send_status_n status len ∈ new →
                  len = (get_file env fuel path req sys).conn.range_end)
              ∧ ∀ p opened cnt off, Event.write_all_to_socket_from_file p opened cnt off ∈ new →
                  ∃ prog, cnt = subSz (get_file env fuel path req sys).conn.range_end prog
                    ∧ off = addSz 0 prog := by
      intro new h1 h2 h3 h4
      refine ⟨new, h1, h2, ?_⟩
      intro n hn hlt
      cases hn
      exact ⟨hk.2.1.trans hs, hle, fun st len hmem => h3 st len hmem hlt,
        fun p o cnt off hmem => h4 p o cnt off hmem hlt⟩
    split_ifs at unf with a b
    · refine fin [Event.send_status_n 200 L,
          Event.write_all_to_socket head R.progress (some (subSz head.length R.progress))]
        (by rw [unf, f5]; simp [Sys.note]) (by simp [Event.isStat]) ?_ ?_
      · intro st len hmem hlt
        simp only [List.mem_cons, Event.send_status_n.injEq, List.mem_singleton, reduceCtorEq,
          or_false, List.not_mem_nil] at hmem
        rw [hmem.2, hlen hlt]
      · intro p o cnt off hmem _
        simp at hmem
    · obtain ⟨nb, hb, fb, gb⟩ := get_body_events env fuel path m
        { (send_status_n env 200 R L (sys.note (Event.stat path) none)).conn with
          stage := addSz (send_status_n env 200 R L (sys.note (Event.stat path) none)).conn.stage 1,
          progress := 0 }
        (send_status_n env 200 R L (sys.note (Event.stat path) none)).sys
      refine fin (Event.send_status_n 200 L
          :: Event.write_all_to_socket head R.progress (some (subSz head.length R.progress))
          :: nb)
        (by rw [unf, hb, f5]; simp [Sys.note]) ?_ ?_ ?_
      · intro e he
        simp only [List.mem_cons] at he
        rcases he with rfl | rfl | he
        · rfl
        · rfl
        · exact (fb e he).1
      · intro st len hmem hlt
        simp only [List.mem_cons, Event.send_status_n.injEq, reduceCtorEq, false_or] at hmem
        rcases hmem with hmem | hmem
        · rw [hmem.2, hlen hlt]
        · exact absurd (fb _ hmem).2 (by simp [Event.isHead])
      · intro p o cnt off hmem hlt
        simp only [List.mem_cons, reduceCtorEq, false_or] at hmem
        obtain ⟨g1, g2⟩ := gb p o cnt off hmem
        dsimp only at g1 g2
        rw [f1, f2, ← hL, hlen hlt] at g1
        rw [f2, r_start] at g2
        exact ⟨0, g1, g2⟩
    · obtain ⟨nb, hb, fb, gb⟩ := get_body_events env fuel path m R
        (sys.note (Event.stat path) none)
      refine fin nb (by rw [unf, hb]; simp [Sys.note]) (fun e he => (fb e he).1) ?_ ?_
      · intro st len hmem _
        exact absurd (fb _ hmem).2 (by simp [Event.isHead])
      · intro p o cnt off hmem hlt
        obtain ⟨g1, g2⟩ := gb p o cnt off hmem
        rw [← hL, hlen hlt] at g1
        rw [r_start] at g2
        exact ⟨R.progress, g1, g2⟩

/-- An entry of `handle_request` on a settled connection either adds no `stat` call or is the
file stage of `get` on a connection whose window starts at 0, entered after calls that are
neither `stat` nor `send_status_n` nor a file transfer. -/
theorem handle_conn_reaches (env : Env) (fuel : Nat) (req : request_info) (sys : Sys)
    (h : Settled req) :
    NoStat sys (handle_conn env fuel req sys)
      ∨ ∃ r, r.range_start = 0 ∧ AtFile env fuel r sys (handle_conn env fuel req sys) := by
  have e0 : ({ sys with errno := 0 } : Sys).trace = sys.trace ++ [] := by simp
  unfold handle_conn
  dsimp only
  rcases h with ⟨hs, ht⟩ | ⟨hs, ht, hw⟩
  · obtain ⟨c1, _, c3⟩ := get_header_conn env req { sys with errno := 0 } hs
    obtain ⟨new, hn, hf⟩ := get_header_events env req { sys with errno := 0 } hs
    rw [if_pos hs]
    by_cases h1 : (get_header env req { sys with errno := 0 }).ret = Ret.val 1
    · rw [if_neg (not_not.mpr h1)]
      unfold log_and_dispatch
      split_ifs with hl
      · exact Or.inl ⟨new, hn, fun e he => (hf e he).1⟩
      · rw [dispatch_classifies _ _ _ _ (by rw [← ht, ← c1])]
        rcases dispatch_cases env fuel
          { ({ (get_header env req { sys with errno := 0 }).conn with stage := 1 } : request_info)
            with req_type := some (check_verb (cstr (({ (get_header env req
              { sys with errno := 0 }).conn with stage := 1 } : request_info).request_h.getD []))) }
          (get_header env req { sys with errno := 0 }).sys (by simp) with hd | ⟨hv, hd⟩
        · exact Or.inl (no_stat_after new hn (fun e he => (hf e he).1) hd)
        · refine Or.inr ⟨_, ?_, at_file_after new hn hf hd⟩
          refine (c3 h1 ?_).1
          rcases hv with hv | hv
          · exact Or.inl (Option.some.inj hv)
          · exact Or.inr (Option.some.inj hv)
    · rw [if_pos h1]
      exact Or.inl ⟨new, hn, fun e he => (hf e he).1⟩
  · rw [if_neg hs]
    unfold log_and_dispatch
    split_ifs with hl
    · exact Or.inl ⟨[], e0, by simp⟩
    · rcases dispatch_cases env fuel req { sys with errno := 0 } ht with hd | ⟨hv, hd⟩
      · exact Or.inl (no_stat_after [] e0 (by simp) hd)
      · exact Or.inr ⟨req, hw hv, at_file_after [] e0 (by simp) hd⟩

/-! ## C11: the start of the window -/

/-- C11: over every sequence of entries of `handle_request` on a connection that started
fresh, whatever was read and parsed, an entry in which `get` resolves the resource (it calls
`stat` on `path`, which gives the size `n`) leaves the connection with
`range_start = 0 <= range_end <= n`; the `size_t` difference `range_end - range_start` does not
wrap, it is the length that entry hands to `send_status_n`, and the count that entry hands to
the file writer is that difference less the progress made. -/
theorem get_window_ordered (fuel : Nat) (fd : Nat) (ip : CStr) (entries : List (Env × Sys))
    (req : request_info) (env : Env) (sys : Sys) (path : CStr) (n : Nat)
    (hrun : serve fuel entries (request_info.fresh fd ip) = some req)
    (hres : Event.stat path ∈ added sys (handle_conn env fuel req sys))
    (hstat : env.stat path = Except.ok n) (hn : n < 2 ^ 64) :
    (handle_conn env fuel req sys).conn.range_start = 0
    ∧ (handle_conn env fuel req sys).conn.range_start
        ≤ (handle_conn env fuel req sys).conn.range_end
    ∧ (handle_conn env fuel req sys).conn.range_end ≤ n
    ∧ subSz (handle_conn env fuel req sys).conn.range_end
          (handle_conn env fuel req sys).conn.range_start
        = (handle_conn env fuel req sys).conn.range_end
          - (handle_conn env fuel req sys).conn.range_start
    ∧ (∀ status len, Event.send_status_n status len ∈ added sys (handle_conn env fuel req sys) →
        len = (handle_conn env fuel req sys).conn.range_end
          - (handle_conn env fuel req sys).conn.range_start)
    ∧ ∀ p opened cnt off,
        Event.write_all_to_socket_from_file p opened cnt off
          ∈ added sys (handle_conn env fuel req sys) →
        ∃ progress,
          cnt = subSz ((handle_conn env fuel req sys).conn.range_end
              - (handle_conn env fuel req sys).conn.range_start) progress
          ∧ off = addSz (handle_conn env fuel req sys).conn.range_start progress := by
  have hset : Settled req :=
    serve_settled fuel entries _ req (Or.inl ⟨rfl, rfl⟩) hrun
  unfold added at hres ⊢
  rcases handle_conn_reaches env fuel req sys hset with
    ⟨new, ht, hf⟩ | ⟨r, hr0, p, sys1, pre, ho, ht1, hp⟩
  · rw [ht, List.drop_left] at hres
    exact absurd (hf _ hres) (by simp [Event.isStat])
  · obtain ⟨new, htr, hns, hw⟩ := get_file_window env fuel p r sys1 hr0
    have htrace : (handle_conn env fuel req sys).sys.trace
        = sys.trace ++ (pre ++ Event.stat p :: new) := by
      rw [ho, htr, ht1, List.append_assoc]
    rw [htrace, List.drop_left] at hres ⊢
    have hp_eq : path = p := by
      rcases List.mem_append.mp hres with hm | hm
      · exact absurd (hp _ hm).1 (by simp [Event.isStat])
      · rcases List.mem_cons.mp hm with hm | hm
        · injection hm
        · exact absurd (hns _ hm) (by simp [Event.isStat])
    subst hp_eq
    obtain ⟨w1, w2, w3, w4⟩ := hw n hstat hn
    rw [ho]
    refine ⟨w1, by rw [w1]; exact Nat.zero_le _, w2, ?_, ?_, ?_⟩
    · rw [w1]
      exact subSz_eq _ _ (Nat.zero_le _) (by omega)
    · intro status len hmem
      rw [w1, Nat.sub_zero]
      rcases List.mem_append.mp hmem with hm | hm
      · exact absurd (hp _ hm).2.1 (by simp [Event.isHead])
      · rcases List.mem_cons.mp hm with hm | hm
        · cases hm
        · exact w3 status len hm
    · intro q opened cnt off hmem
      rw [w1, Nat.sub_zero]
      rcases List.mem_append.mp hmem with hm | hm
      · exact absurd (hp _ hm).2.2 (by simp [Event.isTransfer])
      · rcases List.mem_cons.mp hm with hm | hm
        · cases hm
        · exact w4 q opened cnt off hm

set_option maxRecDepth 8000 in
/-- C11 at the entry that follows a blocked write of the head for `GET /big.bin`. -/
theorem get_window_ordered_witness :
    serve 8 [(example_env, example_sys [delivers big_head, blocks_after 0])]
        (request_info.fresh 5 "10.0.0.1".toList) = some blocked_conn
    ∧ Event.stat "/srv/big.bin".toList
        ∈ added (example_sys [takes 130, takes 1024])
            (handle_conn example_env 8 blocked_conn (example_sys [takes 130, takes 1024]))
    ∧ example_env.stat "/srv/big.bin".toList = Except.ok 1024
    ∧ (handle_conn example_env 8 blocked_conn (example_sys [takes 130, takes 1024])).conn.range_end
        = 1024
    ∧ (handle_conn example_env 8 blocked_conn (example_sys [takes 130, takes 1024])).conn.range_start
        = 0
    ∧ (handle_conn example_env 8 blocked_conn
          (example_sys [takes 130, takes 1024])).conn.range_start
        ≤ (handle_conn example_env 8 blocked_conn
          (example_sys [takes 130, takes 1024])).conn.range_end
    ∧ (handle_conn example_env 8 blocked_conn (example_sys [takes 130, takes 1024])).conn.range_end
        ≤ 1024 :=
  ⟨by decide, by decide, rfl, by decide,
    (get_window_ordered 8 5 "10.0.0.1".toList
      [(example_env, example_sys [delivers big_head, blocks_after 0])] blocked_conn example_env
      (example_sys [takes 130, takes 1024]) "/srv/big.bin".toList 1024
      (by decide) (by decide) rfl (by decide)).1,
    (get_window_ordered 8 5 "10.0.0.1".toList
      [(example_env, example_sys [delivers big_head, blocks_after 0])] blocked_conn example_env
      (example_sys [takes 130, takes 1024]) "/srv/big.bin".toList 1024
      (by decide) (by decide) rfl (by decide)).2.1,
    (get_window_ordered 8 5 "10.0.0.1".toList
      [(example_env, example_sys [delivers big_head, blocks_after 0])] blocked_conn example_env
      (example_sys [takes 130, takes 1024]) "/srv/big.bin".toList 1024
      (by decide) (by decide) rfl (by decide)).2.2.1⟩

/-! ## C12: the index lookup -/

/-- C12, counterexample: the path `/v1.2/` ends in `/` and has no "..", yet the first path
tested is `/srv/v1.2/` itself and `/srv/v1.2/index.php` is never tested. -/
theorem slash_path_with_dot_gets_no_index :
    sscanf_path (cstr (dotted_dir_conn.request_h.getD [])) = some "/v1.2/".toList
    ∧ "/v1.2/".toList.getLast? = some '/'
    ∧ ¬ "..".toList <:+: "/v1.2/".toList
    ∧ (get dotted_dir_env 8 dotted_dir_conn (example_sys [takes 140, takes 4096])).sys.trace.head?
        = some (Event.access "/srv/v1.2/".toList)
    ∧ Event.access "/srv/v1.2/index.php".toList
        ∉ (get dotted_dir_env 8 dotted_dir_conn (example_sys [takes 140, takes 4096])).sys.trace := by
  decide

/-- C12 (amended): when root ++ path has no dot and the path is short enough for the directory
part followed by `index.html` and a NUL to fit the array `path`, `get` tests `index.php` under
the path (a `/` added unless the path ends in one); if that does not exist it tests
`index.html` in its place; if that does not exist either it calls `send_list` on the path with
its final `/`.  A path that has a dot (and root ++ path no ".."), of at most
`MAX_PATHNAME_SIZE` bytes so that `sscanf` stores it within the array, gets no index name:
`get` runs its existence tests on root ++ path itself, the first call being `access` on it. -/
theorem get_index_order (env : Env) (fuel : Nat) (req : request_info) (sys : Sys)
    (token : CStr) (htok : sscanf_path (cstr (req.request_h.getD [])) = some token) :
    ('.' ∉ env.root_site ++ token →
      (index_dir env token ++ "index.html".toList).length + 1 ≤ path_cap env →
      get env fuel req sys
        = if env.access (index_dir env token ++ "index.php".toList) = none then
            get_file env fuel (index_dir env token ++ "index.php".toList) req
              (((sys.note (Event.access (index_dir env token ++ "index.php".toList)) none).note
                  (Event.access (index_dir env token ++ "index.php".toList)) none).note
                (Event.access (index_dir env token ++ "index.php".toList)) none)
          else if env.access (index_dir env token ++ "index.html".toList) = none then
            get_file env fuel (index_dir env token ++ "index.html".toList) req
              (((sys.note (Event.access (index_dir env token ++ "index.php".toList))
                  (env.access (index_dir env token ++ "index.php".toList))).note
                  (Event.access (index_dir env token ++ "index.html".toList)) none).note
                (Event.access (index_dir env token ++ "index.html".toList)) none)
          else
            send_list env (index_dir env token) req
              ((sys.note (Event.access (index_dir env token ++ "index.php".toList))
                  (env.access (index_dir env token ++ "index.php".toList))).note
                (Event.access (index_dir env token ++ "index.html".toList))
                (env.access (index_dir env token ++ "index.html".toList))))
    ∧ ('.' ∈ token → token.length ≤ env.MAX_PATHNAME_SIZE →
        ¬ "..".toList <:+: env.root_site ++ token →
        get env fuel req sys = get_lookup env fuel (env.root_site ++ token) req sys
        ∧ ∃ rest, (get env fuel req sys).sys.trace
            = sys.trace ++ Event.access (env.root_site ++ token) :: rest) := by
  refine ⟨?_, ?_⟩
  · intro hnodot hfit
    have hphp : (index_dir env token ++ "index.php".toList).length + 1 ≤ path_cap env := by
      have e1 : "index.php".toList.length = 9 := rfl
      have e2 : "index.html".toList.length = 10 := rfl
      rw [List.length_append, e2] at hfit
      rw [List.length_append, e1]
      omega
    rw [get_index_chain env fuel req sys token htok hnodot, in_path_fits _ _ _ _ _ hphp,
      in_path_fits _ _ _ _ _ hfit]
  · intro hdot _ hnd
    have hg := get_dotted env fuel req sys token htok hdot hnd
    exact ⟨hg, hg ▸ get_lookup_first env fuel _ req sys⟩

set_option maxRecDepth 8000 in
/-- C12 (amended) at `/docs/`, which lacks both index files and is listed, and at `/v1.2/`,
which is tested as it is. -/
theorem get_index_order_witness :
    sscanf_path (cstr (docs_conn.request_h.getD [])) = some "/docs/".toList
    ∧ '.' ∉ docs_env.root_site ++ "/docs/".toList
    ∧ (index_dir docs_env "/docs/".toList ++ "index.html".toList).length + 1 ≤ path_cap docs_env
    ∧ index_dir docs_env "/docs/".toList = "/srv/docs/".toList
    ∧ get docs_env 8 docs_conn (example_sys [takes 140, takes 91])
        = send_list docs_env "/srv/docs/".toList docs_conn
            { errno := 2, io := [takes 140, takes 91],
              trace := [Event.access "/srv/docs/index.php".toList,
                Event.access "/srv/docs/index.html".toList] }
    ∧ sscanf_path (cstr (dotted_dir_conn.request_h.getD [])) = some "/v1.2/".toList
    ∧ '.' ∈ "/v1.2/".toList
    ∧ "/v1.2/".toList.length ≤ dotted_dir_env.MAX_PATHNAME_SIZE
    ∧ ¬ "..".toList <:+: dotted_dir_env.root_site ++ "/v1.2/".toList
    ∧ ∃ rest, (get dotted_dir_env 8 dotted_dir_conn (example_sys [takes 140, takes 4096])).sys.trace
        = (example_sys [takes 140, takes 4096]).trace
          ++ Event.access (dotted_dir_env.root_site ++ "/v1.2/".toList) :: rest :=
  ⟨by decide, by decide, by decide, by decide,
    ((get_index_order docs_env 8 docs_conn (example_sys [takes 140, takes 91]) "/docs/".toList
      (by decide)).1 (by decide) (by decide)).trans (by decide),
    by decide, by decide, by decide, by decide,
    ((get_index_order dotted_dir_env 8 dotted_dir_conn (example_sys [takes 140, takes 4096])
      "/v1.2/".toList (by decide)).2 (by decide) (by decide) (by decide)).2⟩

/-! ## C13: the directory listing -/

/-- C13: for a directory whose entries `readdir` enumerates as `entries` (the rendering fitting
the buffer of 8096 bytes), the body `send_list` builds is HTML_HEADER, then for each entry not
beginning with `.` or `-`, in order, the anchor to the path under the root concatenated with
the name, then HTML_FOOTER; the number of anchors is the number of entries not skipped; and in
stage 1, the head going out in one write, `send_list` announces the length of this body and
writes this body. -/
theorem send_list_body (env : Env) (path : CStr) (req : request_info) (sys : Sys)
    (entries : List CStr) (hdir : env.opendir path = Except.ok entries)
    (_hfit : (listing env path entries).length < 8096)
    (hstage : req.stage = 1) (hw : sys.next.errno.getD sys.errno = 0) :
    listing env path entries
        = HTML_HEADER ++ anchors_spec (path.drop env.root_site.length) entries ++ HTML_FOOTER
    ∧ anchor_count entries = kept_count entries
    ∧ ∃ head, (send_list env path req sys).sys.trace
      = sys.trace ++ [Event.send_list path, Event.opendir path,
          Event.send_status_n 200 (listing env path entries).length,
          Event.write_all_to_socket head req.progress (some (subSz head.length req.progress)),
          Event.write_all_to_socket (listing env path entries) 0
            (some (listing env path entries).length)] := by
  refine ⟨?_, anchor_count_eq entries, ?_⟩
  · unfold listing
    rw [anchors_eq_spec]
  · obtain ⟨head, ht⟩ := send_page_done_trace env (listing env path entries) req
      ((sys.note (Event.send_list path) none).note (Event.opendir path) none) hstage
      (by simpa [Sys.note, Sys.next] using hw)
    refine ⟨head, ?_⟩
    unfold send_list
    rw [hdir]
    dsimp only
    rw [ht]
    simp [Sys.note]

/-- C13 at the directory `/srv/docs/` with the entries `.`, `..`, `a.txt` and `.hidden`:
one anchor, to `a.txt`. -/
theorem send_list_body_witness :
    docs_env.opendir "/srv/docs/".toList
        = Except.ok [".".toList, "..".toList, "a.txt".toList, ".hidden".toList]
    ∧ (listing docs_env "/srv/docs/".toList
        [".".toList, "..".toList, "a.txt".toList, ".hidden".toList]).length < 8096
    ∧ listing docs_env "/srv/docs/".toList
        [".".toList, "..".toList, "a.txt".toList, ".hidden".toList]
      = HTML_HEADER ++ "<a href=\"/docs/a.txt\">a.txt</a></br>".toList ++ HTML_FOOTER
    ∧ anchor_count [".".toList, "..".toList, "a.txt".toList, ".hidden".toList] = 1
    ∧ ∃ head, (send_list docs_env "/srv/docs/".toList
          (example_conn "GET /docs/ HTTP/1.1\r\nHost: x\r\n\r\n".toList)
          (example_sys [takes 140, takes 91])).sys.trace
      = [] ++ [Event.send_list "/srv/docs/".toList, Event.opendir "/srv/docs/".toList,
          Event.send_status_n 200 (listing docs_env "/srv/docs/".toList
            [".".toList, "..".toList, "a.txt".toList, ".hidden".toList]).length,
          Event.write_all_to_socket head 0 (some (subSz head.length 0)),
          Event.write_all_to_socket (listing docs_env "/srv/docs/".toList
            [".".toList, "..".toList, "a.txt".toList, ".hidden".toList]) 0
            (some (listing docs_env "/srv/docs/".toList
              [".".toList, "..".toList, "a.txt".toList, ".hidden".toList]).length)] :=
  ⟨rfl, by decide, by decide, by decide,
    (send_list_body docs_env "/srv/docs/".toList
      (example_conn "GET /docs/ HTTP/1.1\r\nHost: x\r\n\r\n".toList)
      (example_sys [takes 140, takes 91])
      [".".toList, "..".toList, "a.txt".toList, ".hidden".toList] rfl (by decide) (by decide)
      (by decide)).2.2⟩

/-! ## C14: the response head -/

/-- C14 (fails in the code in its last part): `send_status_n` builds into an empty buffer the
status line, Date, Connection, Content-Length, then Content-Range exactly when `range_end` is
not 0, then Content-Type exactly when the MIME string is not NULL, then the security headers.
But `get` stores the file size in `range_end` before it calls `send_status_n`: for a GET in
stage 1 with the window 0, 0 of a request without Range and a file of size `n > 0`, the head
left in `response_h` has the line `Content-Range: bytes=0-n`. -/
theorem content_range_without_range (env : Env) (fuel : Nat) (req : request_info) (sys : Sys)
    (path : CStr) (sys1 : Sys) (n : Nat)
    (hres : get env fuel req sys = get_file env fuel path req sys1)
    (hstat : env.stat path = Except.ok n) (hstage : req.stage = 1)
    (hempty : req.response_h.getD [] = [])
    (hs : req.range_start = 0) (he : req.range_end = 0) (hn : n ≠ 0) :
    (∀ (status file_size : Nat) (r : request_info) (y : Sys), r.response_h.getD [] = [] →
      (send_status_n env status r file_size y).conn.response_h
        = some ((status_line status ++ "\n".toList
            ++ "Date: ".toList ++ env.date ++ "\n".toList
            ++ "Connection: close\n".toList
            ++ "Content-Length: ".toList ++ fmt_u file_size ++ "\n".toList)
          ++ (if r.range_end ≠ 0 then
                "Content-Range: bytes=".toList ++ fmt_u r.range_start ++ "-".toList
                  ++ fmt_u r.range_end ++ "\n".toList
              else [])
          ++ (match r.mime_type with
              | some m => "Content-Type: ".toList ++ m ++ "\n".toList
              | none => [])
          ++ env.security_headers))
    ∧ ∃ head, (get env fuel req sys).conn.response_h = some head
      ∧ "Content-Range: bytes=0-".toList ++ fmt_u n ++ "\n".toList <:+: head := by
  refine ⟨fun status file_size r y hr => (send_status_n_response_h env status r file_size y hr).1,
    ?_⟩
  have hc := clamp_range_fields req n
  have hm := set_mime_type_fields env path (clamp_range req n)
  have r_end : (set_mime_type env path (clamp_range req n)).range_end = n := by
    rw [hm.2.1, hc.1, if_pos he]
  have r_start : (set_mime_type env path (clamp_range req n)).range_start = 0 := by
    rw [hm.1, hc.2.1, hs]
  refine ⟨_, by rw [hres]; exact get_file_response_h env fuel path req sys1 n hstat hstage hempty,
    ?_⟩
  unfold response_head
  rw [r_end, r_start, if_pos hn]
  have e0 : fmt_u 0 = "0".toList := by decide
  rw [e0]
  refine ⟨status_line 200 ++ "\n".toList ++ "Date: ".toList ++ env.date ++ "\n".toList
      ++ "Connection: close\n".toList ++ "Content-Length: ".toList ++ fmt_u (subSz n 0)
      ++ "\n".toList,
    (match (set_mime_type env path (clamp_range req n)).mime_type with
      | some m => "Content-Type: ".toList ++ m ++ "\n".toList
      | none => []) ++ env.security_headers, ?_⟩
  simp only [List.append_assoc]
  rfl

/-- C14 at a GET for the 1024-byte file with no Range header: the head has the line
`Content-Range: bytes=0-1024`. -/
theorem content_range_without_range_witness :
    get example_env 8 whole_conn (example_sys [takes 170, takes 1024])
        = get_file example_env 8 "/srv/big.bin".toList whole_conn
            { example_sys [takes 170, takes 1024] with
              trace := [Event.access "/srv/big.bin".toList, Event.access "/srv/big.bin".toList,
                Event.access "/srv/big.bin".toList] }
    ∧ example_env.stat "/srv/big.bin".toList = Except.ok 1024
    ∧ ¬ "Range:".toList <:+: cstr (whole_conn.request_h.getD [])
    ∧ whole_conn.range_start = 0 ∧ whole_conn.range_end = 0
    ∧ ∃ head, (get example_env 8 whole_conn
          (example_sys [takes 170, takes 1024])).conn.response_h = some head
      ∧ "Content-Range: bytes=0-".toList ++ fmt_u 1024 ++ "\n".toList <:+: head :=
  ⟨get_existing_dotted example_env 8 whole_conn (example_sys [takes 170, takes 1024])
      "/big.bin".toList (by decide) (by decide) (by decide) (by decide),
    rfl, by decide, by decide, by decide,
    (content_range_without_range example_env 8 whole_conn (example_sys [takes 170, takes 1024])
      "/srv/big.bin".toList
      { example_sys [takes 170, takes 1024] with
        trace := [Event.access "/srv/big.bin".toList, Event.access "/srv/big.bin".toList,
          Event.access "/srv/big.bin".toList] }
      1024
      (get_existing_dotted example_env 8 whole_conn (example_sys [takes 170, takes 1024])
        "/big.bin".toList (by decide) (by decide) (by decide) (by decide))
      rfl (by decide) (by decide) (by decide) (by decide) (by decide)).2⟩

/-! ## C15: the empty request -/

/-- C15 (fails in the code): when the header read of a fresh connection goes through without
error and leaves the buffer empty, `get_header` returns 1 and `handle_request` goes on as for a
complete head: it sets stage 1, classifies the empty head as V_UNKNOWN and returns what
`v_unknown`, that is `send_error(fd, 400, ...)`, returns; the calls added after the read are
`send_error`, `send_status_n` and the write of a response head. -/
theorem empty_request_answered (env : Env) (fuel : Nat) (req : request_info) (sys : Sys)
    (hstage : req.stage = 0) (htype : req.req_type = none)
    (hret : sys.next.ret ≠ -1)
    (herr : (sys_after_read env req { sys with errno := 0 }).errno = 0)
    (hempty : cstr (read_buffer env req { sys with errno := 0 }) = []) :
    handle_conn env fuel req sys
      = send_error env 400
          { conn_after_read env req { sys with errno := 0 } with
            stage := 1, req_type := some verb.V_UNKNOWN }
          (sys_after_read env req { sys with errno := 0 })
    ∧ ∃ head rest, (handle_conn env fuel req sys).sys.trace
      = sys.trace ++ Event.read_header req.progress (subSz env.MAX_HEADER_SIZE req.progress)
        :: Event.send_error 400
        :: Event.send_status_n 200 (error_page 400).length
        :: Event.write_all_to_socket head (conn_after_read env req { sys with errno := 0 }).progress
            (some (subSz head.length (conn_after_read env req { sys with errno := 0 }).progress))
        :: rest := by
  have hg := get_header_empty env req { sys with errno := 0 } hret herr hempty
  have hf := after_io_fields { req with request_h := some (read_buffer env req { sys with errno := 0 }) }
    ({ sys with errno := 0 } : Sys).next (sys_after_read env req { sys with errno := 0 })
  have c_type : (conn_after_read env req { sys with errno := 0 }).req_type = none := by
    unfold conn_after_read; rw [hf.2.2.2.2.2]; exact htype
  have c_buf : (conn_after_read env req { sys with errno := 0 }).request_h
      = some (read_buffer env req { sys with errno := 0 }) := by
    unfold conn_after_read; rw [hf.2.2.1]
  have hv : check_verb [] = verb.V_UNKNOWN := by decide
  have e1 : handle_conn env fuel req sys
      = send_error env 400
          { conn_after_read env req { sys with errno := 0 } with
            stage := 1, req_type := some verb.V_UNKNOWN }
          (sys_after_read env req { sys with errno := 0 }) := by
    have hl := log_fits_empty env
      { conn_after_read env req { sys with errno := 0 } with stage := 1 }
      (by rw [c_buf]; exact hempty)
    unfold handle_conn
    dsimp only
    rw [if_pos hstage, hg]
    dsimp only
    rw [if_neg (by simp), log_and_dispatch, hl]
    simp [dispatch, c_type, c_buf, hempty, hv, v_unknown]
  refine ⟨e1, ?_⟩
  rw [e1]
  unfold send_error
  obtain ⟨head, rest, ht⟩ := send_page_stage1_trace env (error_page 400)
    { conn_after_read env req { sys with errno := 0 } with
      stage := 1, req_type := some verb.V_UNKNOWN }
    ((sys_after_read env req { sys with errno := 0 }).note (Event.send_error 400) none) rfl
  refine ⟨head, rest, ?_⟩
  rw [ht]
  simp [Sys.note, sys_after_read, Sys.call]

/-- C15 at a fresh connection whose read delivers nothing: a head and an error page go out. -/
theorem empty_request_answered_witness :
    (request_info.fresh 5 "10.0.0.1".toList).stage = 0
    ∧ (request_info.fresh 5 "10.0.0.1".toList).req_type = none
    ∧ (example_sys [delivers [], takes 140, takes 85]).next.ret ≠ -1
    ∧ cstr (read_buffer example_env (request_info.fresh 5 "10.0.0.1".toList)
        { example_sys [delivers [], takes 140, takes 85] with errno := 0 }) = []
    ∧ (handle_conn example_env 8 (request_info.fresh 5 "10.0.0.1".toList)
        (example_sys [delivers [], takes 140, takes 85])).ret = Ret.val 1
    ∧ (handle_conn example_env 8 (request_info.fresh 5 "10.0.0.1".toList)
        (example_sys [delivers [], takes 140, takes 85])).conn.req_type = some verb.V_UNKNOWN
    ∧ ∃ head rest, (handle_conn example_env 8 (request_info.fresh 5 "10.0.0.1".toList)
        (example_sys [delivers [], takes 140, takes 85])).sys.trace
      = [] ++ Event.read_header 0 (subSz 4096 0)
        :: Event.send_error 400
        :: Event.send_status_n 200 (error_page 400).length
        :: Event.write_all_to_socket head
            (conn_after_read example_env (request_info.fresh 5 "10.0.0.1".toList)
              { example_sys [delivers [], takes 140, takes 85] with errno := 0 }).progress
            (some (subSz head.length
              (conn_after_read example_env (request_info.fresh 5 "10.0.0.1".toList)
                { example_sys [delivers [], takes 140, takes 85] with errno := 0 }).progress))
        :: rest :=
  ⟨by decide, by decide, by decide, by decide, by decide, by decide,
    (empty_request_answered example_env 8 (request_info.fresh 5 "10.0.0.1".toList)
      (example_sys [delivers [], takes 140, takes 85]) (by decide) (by decide) (by decide)
      (by decide) (by decide)).2⟩

/-! ## C16: table and event facility -/

/-- C16: after any sequence of `add_client` and `remove_client` calls on descriptors below 100,
started from the empty table, no call left the array, a descriptor has a non-NULL entry in
`client_requests` exactly when it is registered with the event facility, and no descriptor is
registered twice. -/
theorem table_matches_registration (ops : List TableOp) (hfd : ∀ op ∈ ops, op.fd < 100) :
    ∃ s, run_ops ops Server.init = some s
      ∧ (∀ fd, (∃ r, s.client_requests[fd]? = some (some r)) ↔ fd ∈ s.registered)
      ∧ s.registered.Nodup := by
  obtain ⟨s, h1, _, h2, h3⟩ := run_ops_inv ops Server.init hfd TableInv_init
  exact ⟨s, h1, h2, h3⟩

/-- C16 at two additions, a repeated addition and two removals. -/
theorem table_matches_registration_witness :
    (∀ op ∈ [TableOp.add 5 "10.0.0.1".toList, TableOp.add 7 "10.0.0.2".toList,
        TableOp.add 5 "10.0.0.3".toList, TableOp.remove 5, TableOp.remove 9], op.fd < 100)
    ∧ ∃ s, run_ops [TableOp.add 5 "10.0.0.1".toList, TableOp.add 7 "10.0.0.2".toList,
          TableOp.add 5 "10.0.0.3".toList, TableOp.remove 5, TableOp.remove 9] Server.init
        = some s
      ∧ (∀ fd, (∃ r, s.client_requests[fd]? = some (some r)) ↔ fd ∈ s.registered)
      ∧ s.registered.Nodup :=
  ⟨by decide,
    table_matches_registration [TableOp.add 5 "10.0.0.1".toList, TableOp.add 7 "10.0.0.2".toList,
      TableOp.add 5 "10.0.0.3".toList, TableOp.remove 5, TableOp.remove 9] (by decide)⟩

/-! ## C17: resuming the write of the head -/

/-- C17: let the response buffer be empty and `progress` 0, and let the write calls of
successive entries into `send_status_n` move the counts `ks` (each followed by `EWOULDBLOCK`)
and then `last`, together the length of the head `H` that the first entry formats.  Then the
last entry returns 1, `response_h` still holds `H`, every entry offered `H` from the current
`progress` to its end, and the bytes moved, call after call, make up `H`. -/
theorem resumed_head_is_whole (env : Env) (status fs : Nat) (req : request_info) (sys : Sys)
    (ks : List Nat) (last : Nat) (rest : List IOOutcome)
    (hempty : req.response_h.getD [] = []) (hp : req.progress = 0)
    (hlen : (response_head env status req fs).length < 2 ^ 64)
    (hsum : ks.sum + last = (response_head env status req fs).length)
    (hio : sys.io = ks.map blocks_after ++ takes last :: rest) :
    (resume_head env status fs (ks.length + 1) req sys).ret = Ret.val 1
    ∧ (resume_head env status fs (ks.length + 1) req sys).conn.response_h
        = some (response_head env status req fs)
    ∧ (resume_head env status fs (ks.length + 1) req sys).sys.trace
        = sys.trace ++ head_calls status fs (response_head env status req fs) 0 (ks ++ [last])
    ∧ accepted_bytes (response_head env status req fs) 0 (ks ++ [last])
        = response_head env status req fs := by
  have hstart : resume_head env status fs (ks.length + 1) req sys
      = resume_head env status fs (ks.length + 1)
          { req with response_h := some (response_head env status req fs) } sys := by
    rw [resume_head, resume_head, ← send_status_n_formats env status fs req _ hempty]
  have hrun := resume_head_run env status fs (response_head env status req fs)
    (response_head_ne_nil env status req fs) hlen last rest ks
    { req with response_h := some (response_head env status req fs) } sys rfl
    (by simp only; omega) hio
  rw [hstart]
  obtain ⟨h1, h2, _, h4⟩ := hrun
  refine ⟨h1, h2, ?_, ?_⟩
  · rw [h4]
    simp only [hp]
  · have := accepted_bytes_eq (response_head env status req fs) (ks ++ [last]) 0
      (by simp; omega)
    rw [this, List.drop_zero]

/-- C17 at a head of 117 bytes written in the pieces 10, 0, 50 and 57. -/
theorem resumed_head_is_whole_witness :
    (example_conn "GET /hello.txt HTTP/1.1\r\nHost: x\r\n\r\n".toList).response_h.getD [] = []
    ∧ (example_conn "GET /hello.txt HTTP/1.1\r\nHost: x\r\n\r\n".toList).progress = 0
    ∧ [10, 0, 50].sum + 57
        = (response_head example_env 200
            (example_conn "GET /hello.txt HTTP/1.1\r\nHost: x\r\n\r\n".toList) 3).length
    ∧ (resume_head example_env 200 3 ([10, 0, 50].length + 1)
        (example_conn "GET /hello.txt HTTP/1.1\r\nHost: x\r\n\r\n".toList)
        (example_sys [blocks_after 10, blocks_after 0, blocks_after 50, takes 57])).ret
      = Ret.val 1
    ∧ accepted_bytes (response_head example_env 200
          (example_conn "GET /hello.txt HTTP/1.1\r\nHost: x\r\n\r\n".toList) 3) 0
        ([10, 0, 50] ++ [57])
      = response_head example_env 200
          (example_conn "GET /hello.txt HTTP/1.1\r\nHost: x\r\n\r\n".toList) 3 :=
  ⟨by decide, by decide, by decide,
    (resumed_head_is_whole example_env 200 3
      (example_conn "GET /hello.txt HTTP/1.1\r\nHost: x\r\n\r\n".toList)
      (example_sys [blocks_after 10, blocks_after 0, blocks_after 50, takes 57])
      [10, 0, 50] 57 [] (by decide) (by decide) (by decide) (by decide) rfl).1,
    (resumed_head_is_whole example_env 200 3
      (example_conn "GET /hello.txt HTTP/1.1\r\nHost: x\r\n\r\n".toList)
      (example_sys [blocks_after 10, blocks_after 0, blocks_after 50, takes 57])
      [10, 0, 50] 57 [] (by decide) (by decide) (by decide) (by decide) rfl).2.2.2⟩

/-! ## C18: progress and the window -/

/-- C18 (fails in the code for the body): in stage 2 of `get`, when the one transfer moves
`ws > 0` bytes, no more than it was asked for, and leaves `errno` 0 without `progress`
reaching the file size, the loop adds `ws` to `progress` again on its second round; `progress`
is then `progress + 2 * ws`, which lies above the window `range_end - range_start` whenever
that window is smaller. -/
theorem get_body_progress_overshoots (env : Env) (req : request_info) (sys : Sys) (path : CStr)
    (sys1 : Sys) (n ws : Nat)
    (hres : get env 2 req sys = get_file env 2 path req sys1)
    (hstat : env.stat path = Except.ok n) (hstage : req.stage = 2)
    (hverb : req.req_type ≠ some verb.HEAD) (hopen : env.fopen path = none)
    (hret : sys1.next.ret = (ws : Int)) (herr : sys1.next.errno.getD sys1.errno = 0)
    (hpos : 0 < ws)
    (_hasked : ws ≤ (if req.range_end = 0 then n else min req.range_end n)
      - req.range_start - req.progress)
    (hmiss : req.progress + ws ≠ n) (hbig : req.progress + 2 * ws < 2 ^ 64)
    (hover : (if req.range_end = 0 then n else min req.range_end n) - req.range_start
      < req.progress + 2 * ws) :
    (get env 2 req sys).conn.progress = req.progress + 2 * ws
    ∧ (get env 2 req sys).conn.range_end - (get env 2 req sys).conn.range_start
        < (get env 2 req sys).conn.progress := by
  have hc := clamp_range_fields req n
  have hm := set_mime_type_fields env path (clamp_range req n)
  have r_prog : (set_mime_type env path (clamp_range req n)).progress = req.progress :=
    hm.2.2.2.2.trans hc.2.2.2.2
  have h2 := (get_file_stage2 env 2 path req sys1 n hstat hstage hverb hopen).2
  rw [hret, herr] at h2
  have hl := get_loop_two_rounds (set_mime_type env path (clamp_range req n)) ws n hpos
    (by rw [r_prog]; exact hmiss) (by rw [r_prog]; exact hbig)
  have hf := get_loop_fields 2 (set_mime_type env path (clamp_range req n)) (ws : Int) 0 n
  have hprog : (get env 2 req sys).conn.progress = req.progress + 2 * ws := by
    rw [hres, h2, hl, r_prog]
  refine ⟨hprog, ?_⟩
  rw [hprog, hres, h2, hf.1, hf.2, hm.2.1, hc.1, hm.1, hc.2.1]
  exact hover

/-- C18 at the window 10, 19: the transfer moves the 9 bytes asked for, and after the second
round `progress` is 18. -/
theorem get_body_progress_overshoots_witness :
    get example_env 2 range_body_conn (example_sys [takes 9])
        = get_file example_env 2 "/srv/big.bin".toList range_body_conn
            { example_sys [takes 9] with
              trace := [Event.access "/srv/big.bin".toList, Event.access "/srv/big.bin".toList,
                Event.access "/srv/big.bin".toList] }
    ∧ example_env.stat "/srv/big.bin".toList = Except.ok 1024
    ∧ range_body_conn.stage = 2
    ∧ (example_sys [takes 9]).next.ret = ((9 : Nat) : Int)
    ∧ 9 ≤ (if range_body_conn.range_end = 0 then 1024 else min range_body_conn.range_end 1024)
        - range_body_conn.range_start - range_body_conn.progress
    ∧ (get example_env 2 range_body_conn (example_sys [takes 9])).conn.progress = 0 + 2 * 9
    ∧ (get example_env 2 range_body_conn (example_sys [takes 9])).conn.range_end
        - (get example_env 2 range_body_conn (example_sys [takes 9])).conn.range_start
      < (get example_env 2 range_body_conn (example_sys [takes 9])).conn.progress :=
  ⟨get_existing_dotted example_env 2 range_body_conn (example_sys [takes 9])
      "/big.bin".toList (by decide) (by decide) (by decide) (by decide),
    rfl, by decide, by decide, by decide,
    get_body_progress_overshoots example_env range_body_conn (example_sys [takes 9])
      "/srv/big.bin".toList
      { example_sys [takes 9] with
        trace := [Event.access "/srv/big.bin".toList, Event.access "/srv/big.bin".toList,
          Event.access "/srv/big.bin".toList] }
      1024 9
      (get_existing_dotted example_env 2 range_body_conn (example_sys [takes 9])
        "/big.bin".toList (by decide) (by decide) (by decide) (by decide))
      rfl (by decide) (by decide) (by decide) (by decide) (by decide) (by decide) (by decide)
      (by decide) (by decide) (by decide)⟩

/-! ## C19: the body loop -/

/-- C19 (fails in the code): when `get` is in stage 2 for a request other than HEAD, the file
opens, and the one call of `write_all_to_socket_from_file` returns a count of 0 or less with
`errno` 0 while `progress` differs from the file size, no round of `while (file != NULL)`
returns or changes anything: after any number of rounds the loop is still running, so `get`
returns no value. -/
theorem get_body_loop_never_ends (env : Env) (req : request_info) (sys : Sys) (path : CStr)
    (sys1 : Sys) (n : Nat)
    (hres : ∀ fuel, get env fuel req sys = get_file env fuel path req sys1)
    (hstat : env.stat path = Except.ok n) (hstage : req.stage = 2)
    (hverb : req.req_type ≠ some verb.HEAD) (hopen : env.fopen path = none)
    (hws : sys1.next.ret ≤ 0) (herr : sys1.next.errno.getD sys1.errno = 0)
    (hp : req.progress ≠ n) :
    ∀ fuel, (get env fuel req sys).ret = Ret.noFuel := by
  intro fuel
  rw [hres fuel, (get_file_stage2 env fuel path req sys1 n hstat hstage hverb hopen).1, herr,
    get_loop_stuck fuel _ _ n hws]
  rw [(set_mime_type_fields env path _).2.2.2.2, (clamp_range_fields req n).2.2.2.2]
  exact hp

/-- C19 at a transfer that moves nothing of the 1024-byte file and leaves `errno` 0. -/
theorem get_body_loop_never_ends_witness :
    (∀ fuel, get example_env fuel body_conn (example_sys [takes 0])
        = get_file example_env fuel "/srv/big.bin".toList body_conn
            { example_sys [takes 0] with
              trace := [Event.access "/srv/big.bin".toList, Event.access "/srv/big.bin".toList,
                Event.access "/srv/big.bin".toList] })
    ∧ example_env.stat "/srv/big.bin".toList = Except.ok 1024
    ∧ body_conn.stage = 2 ∧ body_conn.progress ≠ 1024
    ∧ (example_sys [takes 0]).next.ret ≤ 0
    ∧ ∀ fuel, (get example_env fuel body_conn (example_sys [takes 0])).ret = Ret.noFuel :=
  ⟨fun fuel => get_existing_dotted example_env fuel body_conn (example_sys [takes 0])
      "/big.bin".toList (by decide) (by decide) (by decide) (by decide),
    rfl, by decide, by decide, by decide,
    get_body_loop_never_ends example_env body_conn (example_sys [takes 0])
      "/srv/big.bin".toList
      { example_sys [takes 0] with
        trace := [Event.access "/srv/big.bin".toList, Event.access "/srv/big.bin".toList,
          Event.access "/srv/big.bin".toList] }
      1024
      (fun fuel => get_existing_dotted example_env fuel body_conn (example_sys [takes 0])
        "/big.bin".toList (by decide) (by decide) (by decide) (by decide))
      rfl (by decide) (by decide) (by decide) (by decide) (by decide) (by decide)⟩

/-! ## C20: descriptors beyond the table -/

/-- C20 (fails in the code): nothing bounds the descriptor.  For a descriptor of 100 or more
and the table of 100 slots, the access `client_requests[fd]` of `add_client` lies outside the
array, also when `accept_connections` hands that descriptor on from `accept`, and so do the
accesses of `remove_client` and `handle_request`. -/
theorem descriptor_outside_table (fd : Nat) (ip : CStr) (s : Server) (env : Env) (fuel : Nat)
    (sys : Sys) (hfd : 100 ≤ fd) (hlen : s.client_requests.length = 100) :
    add_client fd ip s = none
    ∧ accept_connections [((fd : Int), ip)] s = none
    ∧ remove_client fd s = none
    ∧ (handle_request env fuel s.client_requests fd sys).1 = Ret.fault := by
  have hget : s.client_requests[fd]? = none := List.getElem?_eq_none (by omega)
  have ha : add_client fd ip s = none := by
    unfold add_client; rw [hget]
  refine ⟨ha, ?_, ?_, ?_⟩
  · have hpos : (0 : Int) < (fd : Int) := by omega
    simp [accept_connections, accept_loop, hpos, ha]
  · unfold remove_client; rw [hget]
  · unfold handle_request; rw [hget]

/-- C20 at the descriptor 100. -/
theorem descriptor_outside_table_witness :
    (100 : Nat) ≤ 100 ∧ Server.init.client_requests.length = 100
    ∧ add_client 100 "10.0.0.1".toList Server.init = none
    ∧ accept_connections [(((100 : Nat) : Int), "10.0.0.1".toList)] Server.init = none
    ∧ remove_client 100 Server.init = none
    ∧ (handle_request example_env 8 Server.init.client_requests 100 (example_sys [])).1
        = Ret.fault :=
  ⟨by decide, by decide,
    descriptor_outside_table 100 "10.0.0.1".toList Server.init example_env 8 (example_sys [])
      (by decide) (by decide)⟩

end Webserver
